import Mathlib

/-!
# PowerPC simulator (`src/ppc/simulator-ppc.cc`): shallow embedding

The simulator state is an explicit record, every `Simulator::` method is a
function on that record, and fatal exits (`UNIMPLEMENTED()`, `UNREACHABLE()`,
a failed `CHECK`/`ASSERT`) as well as hand-overs to the interactive
`PPCDebugger` are results of type `Except Halt`.

Machine integers are natural numbers holding the 32-bit pattern; every
arithmetic result is reduced modulo `2^32` explicitly, and the signed reading
of a pattern is `toInt32`.  The C++ shift operators are modelled by the
mathematical shifts (`shl32`, `lsr32`, `asr32`): a right shift of an `int` is
arithmetic, a right shift of an unsigned value is logical.  Where the source
shifts a 32-bit value by a count that can reach 32 (the rotate of RLWINM and
RLWIMI for sh = 0, the register counts of SRW, SRAW and SLW), which C++ leaves
undefined, the count is taken modulo 32, as the x86 hosts the simulator is
built for do.

An `ASSERT` is a check that fails with `check_failed`, which is what a build
with `DEBUG` does; a result stated as a normal return has passed every such
check and holds in a release build as well.  `Call`, whose `ASSERT` decides
whether a call with fewer than five arguments is made at all, follows the
flag `debug`.
-/

namespace PPCSim

/-! ## 32-bit machine arithmetic -/

/-- Signed (`int32_t`) reading of a 32-bit pattern. -/
def toInt32 (x : Nat) : Int :=
  if x < 2147483648 then (x : Int) else (x : Int) - 4294967296

/-- The 32-bit pattern of an integer (conversion to `int32_t` / `uint32_t`). -/
def ofInt32 (x : Int) : Nat := (x % 4294967296).toNat

/-- `a + b` on 32-bit values. -/
def add32 (a b : Nat) : Nat := (a + b) % 4294967296

/-- `a - b` on 32-bit values. -/
def sub32 (a b : Nat) : Nat := ofInt32 ((a : Int) - (b : Int))

/-- `a * b` on 32-bit values. -/
def mul32 (a b : Nat) : Nat := (a * b) % 4294967296

/-- `~a` on a 32-bit value. -/
def not32 (a : Nat) : Nat := (a % 4294967296) ^^^ 4294967295

/-- `a << n` on a 32-bit value (bits shifted out are lost). -/
def shl32 (a n : Nat) : Nat := (a <<< n) % 4294967296

/-- `a >> n` for an unsigned 32-bit `a`: logical shift. -/
def lsr32 (a n : Nat) : Nat := (a % 4294967296) >>> n

/-- `a >> n` for a signed 32-bit `a` (`int`, `int32_t`): arithmetic shift, the
sign bit is replicated. -/
def asr32 (a n : Nat) : Nat := ofInt32 (toInt32 a >>> n)

/-! ## Instruction words (`Instruction` facade of `constants-ppc.h`) -/

/-- An `Instruction*`: the address the pointer holds and the 32-bit word
stored there (`InstructionBits()`). -/
structure Instruction where
  addr : Nat
  bits : Nat

namespace Instruction

/-- Modelled from the spec: `Instruction::kInstrSize` of `constants-ppc.h`
(not under src/), the instruction width, four bytes. -/
def kInstrSize : Nat := 4

/-- Modelled from the spec: `Instruction::kPCReadOffset` of `constants-ppc.h`
(not under src/); the value 8 is the one of the ARM port this file was
derived from. -/
def kPCReadOffset : Nat := 8

/-- Modelled from the spec: `Instruction::Bits(hi, lo)` of `constants-ppc.h`
(not under src/): the bit field `hi..lo` of the word, bit 0 being the least
significant one. -/
def Bits (instr : Instruction) (hi lo : Nat) : Nat :=
  (instr.bits >>> lo) &&& ((2 <<< (hi - lo)) - 1)

/-- Modelled from the spec: `Instruction::Bit(nr)` of `constants-ppc.h`. -/
def Bit (instr : Instruction) (nr : Nat) : Nat := (instr.bits >>> nr) &&& 1

/-- Modelled from the spec: `Instruction::OpcodeValue()`, the 6-bit major
opcode in bits 31..26. -/
def OpcodeValue (instr : Instruction) : Nat := instr.Bits 31 26

/-- Modelled from the spec: `Instruction::RTValue()`, bits 25..21. -/
def RTValue (instr : Instruction) : Nat := instr.Bits 25 21

/-- Modelled from the spec: `Instruction::RSValue()`, bits 25..21. -/
def RSValue (instr : Instruction) : Nat := instr.Bits 25 21

/-- Modelled from the spec: `Instruction::RAValue()`, bits 20..16. -/
def RAValue (instr : Instruction) : Nat := instr.Bits 20 16

/-- Modelled from the spec: `Instruction::RBValue()`, bits 15..11. -/
def RBValue (instr : Instruction) : Nat := instr.Bits 15 11

/-- Modelled from the spec: `Instruction::SvcValue()` of `constants-ppc.h`,
the 24-bit code field in bits 23..0. -/
def SvcValue (instr : Instruction) : Nat := instr.Bits 23 0

end Instruction

/-! ## Opcode numbers (`constants-ppc.h`) -/

/-- Modelled from the spec: the primary opcodes of `constants-ppc.h` (not
under src/), each the Power ISA major opcode number placed in bits 31..26. -/
def TWI : Nat := 3 <<< 26
/-- Modelled from the spec: primary opcode of `constants-ppc.h`. -/
def MULLI : Nat := 7 <<< 26
/-- Modelled from the spec: primary opcode of `constants-ppc.h`. -/
def SUBFIC : Nat := 8 <<< 26
/-- Modelled from the spec: primary opcode of `constants-ppc.h`. -/
def CMPLI : Nat := 10 <<< 26
/-- Modelled from the spec: primary opcode of `constants-ppc.h`. -/
def CMPI : Nat := 11 <<< 26
/-- Modelled from the spec: primary opcode of `constants-ppc.h`. -/
def ADDIC : Nat := 12 <<< 26
/-- Modelled from the spec: primary opcode of `constants-ppc.h`. -/
def ADDICx : Nat := 13 <<< 26
/-- Modelled from the spec: primary opcode of `constants-ppc.h`. -/
def ADDI : Nat := 14 <<< 26
/-- Modelled from the spec: primary opcode of `constants-ppc.h`. -/
def ADDIS : Nat := 15 <<< 26
/-- Modelled from the spec: primary opcode of `constants-ppc.h`. -/
def BCX : Nat := 16 <<< 26
/-- Modelled from the spec: primary opcode of `constants-ppc.h`. -/
def SC : Nat := 17 <<< 26
/-- Modelled from the spec: primary opcode of `constants-ppc.h`. -/
def BX : Nat := 18 <<< 26
/-- Modelled from the spec: primary opcode of `constants-ppc.h`. -/
def EXT1 : Nat := 19 <<< 26
/-- Modelled from the spec: primary opcode of `constants-ppc.h`. -/
def RLWIMIX : Nat := 20 <<< 26
/-- Modelled from the spec: primary opcode of `constants-ppc.h`. -/
def RLWINMX : Nat := 21 <<< 26
/-- Modelled from the spec: primary opcode of `constants-ppc.h`. -/
def RLWNMX : Nat := 23 <<< 26
/-- Modelled from the spec: primary opcode of `constants-ppc.h`. -/
def ORI : Nat := 24 <<< 26
/-- Modelled from the spec: primary opcode of `constants-ppc.h`. -/
def ORIS : Nat := 25 <<< 26
/-- Modelled from the spec: primary opcode of `constants-ppc.h`. -/
def XORI : Nat := 26 <<< 26
/-- Modelled from the spec: primary opcode of `constants-ppc.h`. -/
def XORIS : Nat := 27 <<< 26
/-- Modelled from the spec: primary opcode of `constants-ppc.h`. -/
def ANDIx : Nat := 28 <<< 26
/-- Modelled from the spec: primary opcode of `constants-ppc.h`. -/
def ANDISx : Nat := 29 <<< 26
/-- Modelled from the spec: primary opcode of `constants-ppc.h`. -/
def EXT2 : Nat := 31 <<< 26
/-- Modelled from the spec: primary opcode of `constants-ppc.h`. -/
def LWZ : Nat := 32 <<< 26
/-- Modelled from the spec: primary opcode of `constants-ppc.h`. -/
def LWZU : Nat := 33 <<< 26
/-- Modelled from the spec: primary opcode of `constants-ppc.h`. -/
def LBZ : Nat := 34 <<< 26
/-- Modelled from the spec: primary opcode of `constants-ppc.h`. -/
def LBZU : Nat := 35 <<< 26
/-- Modelled from the spec: primary opcode of `constants-ppc.h`. -/
def STW : Nat := 36 <<< 26
/-- Modelled from the spec: primary opcode of `constants-ppc.h`. -/
def STWU : Nat := 37 <<< 26
/-- Modelled from the spec: primary opcode of `constants-ppc.h`. -/
def STB : Nat := 38 <<< 26
/-- Modelled from the spec: primary opcode of `constants-ppc.h`. -/
def STBU : Nat := 39 <<< 26
/-- Modelled from the spec: primary opcode of `constants-ppc.h`. -/
def LHZ : Nat := 40 <<< 26
/-- Modelled from the spec: primary opcode of `constants-ppc.h`. -/
def LHZU : Nat := 41 <<< 26
/-- Modelled from the spec: primary opcode of `constants-ppc.h`. -/
def LHA : Nat := 42 <<< 26
/-- Modelled from the spec: primary opcode of `constants-ppc.h`. -/
def LHAU : Nat := 43 <<< 26
/-- Modelled from the spec: primary opcode of `constants-ppc.h`. -/
def STH : Nat := 44 <<< 26
/-- Modelled from the spec: primary opcode of `constants-ppc.h`. -/
def STHU : Nat := 45 <<< 26
/-- Modelled from the spec: primary opcode of `constants-ppc.h`. -/
def LMW : Nat := 46 <<< 26
/-- Modelled from the spec: primary opcode of `constants-ppc.h`. -/
def STMW : Nat := 47 <<< 26
/-- Modelled from the spec: primary opcode of `constants-ppc.h`. -/
def LFS : Nat := 48 <<< 26
/-- Modelled from the spec: primary opcode of `constants-ppc.h`. -/
def LFSU : Nat := 49 <<< 26
/-- Modelled from the spec: primary opcode of `constants-ppc.h`. -/
def LFD : Nat := 50 <<< 26
/-- Modelled from the spec: primary opcode of `constants-ppc.h`. -/
def LFDU : Nat := 51 <<< 26
/-- Modelled from the spec: primary opcode of `constants-ppc.h`. -/
def STFS : Nat := 52 <<< 26
/-- Modelled from the spec: primary opcode of `constants-ppc.h`. -/
def STFSU : Nat := 53 <<< 26
/-- Modelled from the spec: primary opcode of `constants-ppc.h`. -/
def STFD : Nat := 54 <<< 26
/-- Modelled from the spec: primary opcode of `constants-ppc.h`. -/
def STFDU : Nat := 55 <<< 26
/-- Modelled from the spec: primary opcode of `constants-ppc.h`. -/
def EXT3 : Nat := 59 <<< 26
/-- Modelled from the spec: primary opcode of `constants-ppc.h`. -/
def EXT4 : Nat := 63 <<< 26

/-- Modelled from the spec: extended opcodes of major 19 (`constants-ppc.h`,
not under src/): the Power ISA XL-form number placed in bits 10..1. -/
def MCRF : Nat := 0 <<< 1
/-- Modelled from the spec: EXT1 extended opcode of `constants-ppc.h`. -/
def BCLRX : Nat := 16 <<< 1
/-- Modelled from the spec: EXT1 extended opcode of `constants-ppc.h`. -/
def CRNOR : Nat := 33 <<< 1
/-- Modelled from the spec: EXT1 extended opcode of `constants-ppc.h`. -/
def RFI : Nat := 50 <<< 1
/-- Modelled from the spec: EXT1 extended opcode of `constants-ppc.h`. -/
def CRANDC : Nat := 129 <<< 1
/-- Modelled from the spec: EXT1 extended opcode of `constants-ppc.h`. -/
def ISYNC : Nat := 150 <<< 1
/-- Modelled from the spec: EXT1 extended opcode of `constants-ppc.h`. -/
def CRXOR : Nat := 193 <<< 1
/-- Modelled from the spec: EXT1 extended opcode of `constants-ppc.h`. -/
def BCCTRX : Nat := 528 <<< 1

/-- Modelled from the spec: extended opcodes of major 31 (`constants-ppc.h`,
not under src/): the Power ISA X/XO-form number placed in bits 10..1. -/
def CMP : Nat := 0 <<< 1
/-- Modelled from the spec: EXT2 extended opcode of `constants-ppc.h`. -/
def SUBFCX : Nat := 8 <<< 1
/-- Modelled from the spec: EXT2 extended opcode of `constants-ppc.h`. -/
def ADDCX : Nat := 10 <<< 1
/-- Modelled from the spec: EXT2 extended opcode of `constants-ppc.h`. -/
def SLWX : Nat := 24 <<< 1
/-- Modelled from the spec: EXT2 extended opcode of `constants-ppc.h`. -/
def ANDX : Nat := 28 <<< 1
/-- Modelled from the spec: EXT2 extended opcode of `constants-ppc.h`. -/
def CMPL : Nat := 32 <<< 1
/-- Modelled from the spec: EXT2 extended opcode of `constants-ppc.h`. -/
def SUBFX : Nat := 40 <<< 1
/-- Modelled from the spec: EXT2 extended opcode of `constants-ppc.h`. -/
def ADDZEX : Nat := 202 <<< 1
/-- Modelled from the spec: EXT2 extended opcode of `constants-ppc.h`. -/
def MULLW : Nat := 235 <<< 1
/-- Modelled from the spec: EXT2 extended opcode of `constants-ppc.h`. -/
def ADDX : Nat := 266 <<< 1
/-- Modelled from the spec: EXT2 extended opcode of `constants-ppc.h`. -/
def XORX : Nat := 316 <<< 1
/-- Modelled from the spec: EXT2 extended opcode of `constants-ppc.h`. -/
def MFSPR : Nat := 339 <<< 1
/-- Modelled from the spec: EXT2 extended opcode of `constants-ppc.h`. -/
def ORX : Nat := 444 <<< 1
/-- Modelled from the spec: EXT2 extended opcode of `constants-ppc.h`. -/
def MTSPR : Nat := 467 <<< 1
/-- Modelled from the spec: EXT2 extended opcode of `constants-ppc.h`. -/
def SRWX : Nat := 536 <<< 1
/-- Modelled from the spec: EXT2 extended opcode of `constants-ppc.h`. -/
def SRAW : Nat := 792 <<< 1
/-- Modelled from the spec: EXT2 extended opcode of `constants-ppc.h`. -/
def SRAWIX : Nat := 824 <<< 1

/-- Modelled from the spec: extended opcodes of major 63 (`constants-ppc.h`,
not under src/): the Power ISA A/X-form number placed in bits 5..1. -/
def FCMPU : Nat := 0 <<< 1
/-- Modelled from the spec: EXT4 extended opcode of `constants-ppc.h`. -/
def FDIV : Nat := 18 <<< 1
/-- Modelled from the spec: EXT4 extended opcode of `constants-ppc.h`. -/
def FSUB : Nat := 20 <<< 1
/-- Modelled from the spec: EXT4 extended opcode of `constants-ppc.h`. -/
def FADD : Nat := 21 <<< 1
/-- Modelled from the spec: EXT4 extended opcode of `constants-ppc.h`. -/
def FMUL : Nat := 25 <<< 1

/-- Modelled from the spec: branch selector values of `constants-ppc.h` (not
under src/): the Power ISA BO field placed in bits 25..21. -/
def DCBNZF : Nat := 0 <<< 21
/-- Modelled from the spec: BO selector of `constants-ppc.h`. -/
def DCBEZF : Nat := 2 <<< 21
/-- Modelled from the spec: BO selector of `constants-ppc.h`, branch if the
condition is false. -/
def BF : Nat := 4 <<< 21
/-- Modelled from the spec: BO selector of `constants-ppc.h`. -/
def DCBNZT : Nat := 8 <<< 21
/-- Modelled from the spec: BO selector of `constants-ppc.h`. -/
def DCBEZT : Nat := 10 <<< 21
/-- Modelled from the spec: BO selector of `constants-ppc.h`, branch if the
condition is true. -/
def BT : Nat := 12 <<< 21
/-- Modelled from the spec: BO selector of `constants-ppc.h`. -/
def DCBNZ : Nat := 16 <<< 21
/-- Modelled from the spec: BO selector of `constants-ppc.h`. -/
def DCBEZ : Nat := 18 <<< 21
/-- Modelled from the spec: BO selector of `constants-ppc.h`, branch always. -/
def BA : Nat := 20 <<< 21

/-- Modelled from the spec: `kCallRtRedirected` of `constants-ppc.h` (not under
src/), the private immediate of the bridge trap. -/
def kCallRtRedirected : Nat := 16
/-- Modelled from the spec: `kBreakpoint` of `constants-ppc.h` (not under
src/). -/
def kBreakpoint : Nat := 544
/-- Modelled from the spec: `kStopCode` of `constants-ppc.h`; the source says
that stops use all codes from `1 << 23` on. -/
def kStopCode : Nat := 1 <<< 23
/-- Modelled from the spec: `kStopCodeMask = kStopCode - 1`. -/
def kStopCodeMask : Nat := kStopCode - 1
/-- Modelled from the spec: `kMaxStopCode = kStopCode - 1`. -/
def kMaxStopCode : Nat := kStopCode - 1

/-! ## Simulator state (`simulator-ppc.h`) -/

/-- Modelled from the spec: `Simulator::num_registers` of `simulator-ppc.h`
(not under src/): 32 general registers. -/
def num_registers : Nat := 32
/-- Modelled from the spec: register number of the stack pointer in the
`Register` enumeration of `simulator-ppc.h` (not under src/): r1, as in the
32-bit PowerPC ABI. -/
def sp : Nat := 1
/-- Modelled from the spec: register number of the frame pointer in the
`Register` enumeration of `simulator-ppc.h` (not under src/): r31. -/
def fp : Nat := 31
/-- Modelled from the spec: index of the program counter in `registers_`, from
the `Register` enumeration of `simulator-ppc.h` (not under src/).  `Call`
documents that r15 is overloaded as the PC of the ARM port, so the PC is slot
15 of the register file. -/
def pc : Nat := 15
/-- Modelled from the spec: `Simulator::bad_lr` of `simulator-ppc.h` (not
under src/), the bad-address sentinel, `-1`. -/
def bad_lr : Nat := 4294967295
/-- Modelled from the spec: `Simulator::end_sim_pc` of `simulator-ppc.h` (not
under src/), the end-of-simulation sentinel, `-2`. -/
def end_sim_pc : Nat := 4294967294
/-- Modelled from the spec: `Simulator::kNumOfWatchedStops` of
`simulator-ppc.h` (not under src/), the size of the watched-stop table. -/
def kNumOfWatchedStops : Nat := 256
/-- Modelled from the spec: `Simulator::kStopDisabledBit` of `simulator-ppc.h`
(not under src/): bit 31 of the counter is the "disabled" flag. -/
def kStopDisabledBit : Nat := 1 <<< 31

/-- One entry of `watched_stops`: the counter (`uint32_t`) and the description
pointer (`char*`, 0 for `NULL`). -/
structure StopCountAndDesc where
  count : Nat
  desc : Nat

namespace CachePage
/-- Modelled from the spec: `CachePage::kPageShift` of `simulator-ppc.h` (not
under src/); the page size is a power of two. -/
def kPageShift : Nat := 12
/-- Modelled from the spec: `CachePage::kPageSize`. -/
def kPageSize : Nat := 1 <<< kPageShift
/-- Modelled from the spec: `CachePage::kPageMask`. -/
def kPageMask : Nat := kPageSize - 1
/-- Modelled from the spec: `CachePage::kLineShift` of `simulator-ppc.h` (not
under src/); a cache line is four bytes. -/
def kLineShift : Nat := 2
/-- Modelled from the spec: `CachePage::kLineLength`. -/
def kLineLength : Nat := 1 <<< kLineShift
/-- Modelled from the spec: `CachePage::kLineMask`. -/
def kLineMask : Nat := kLineLength - 1
/-- Modelled from the spec: `CachePage::LINE_VALID`. -/
def LINE_VALID : Nat := 0
/-- Modelled from the spec: `CachePage::LINE_INVALID`. -/
def LINE_INVALID : Nat := 1
end CachePage

/-- Modelled from the spec: class `CachePage` of `simulator-ppc.h` (not under
src/): a raw byte copy of the page (`data_[kPageSize]`) and one validity byte
per line (`validity_map_[kPageSize >> kLineShift]`). -/
structure CachePage where
  data_ : Nat → Nat
  validity_map_ : Nat → Nat

/-- Modelled from the spec: the `CachePage` constructor of `simulator-ppc.h`
(not under src/): every line of a new page is `LINE_INVALID`. -/
def CachePage.new : CachePage :=
  { data_ := fun _ => 0, validity_map_ := fun _ => CachePage.LINE_INVALID }

/-- Modelled from the spec: `CachePage::ValidityByte(offset)` of
`simulator-ppc.h` (not under src/): the index into `validity_map_` of the line
holding page offset `offset`. -/
def CachePage.ValidityByte (offset : Nat) : Nat := offset >>> CachePage.kLineShift

/-- The runtime flags and platform constants the simulator consults. -/
structure Flags where
  /-- `FLAG_check_icache` -/
  check_icache : Bool
  /-- `FLAG_stop_sim_at` -/
  stop_sim_at : Nat
  /-- `FLAG_sim_stack_alignment` -/
  sim_stack_alignment : Nat
  /-- `OS::ActivationFrameAlignment()` -/
  ActivationFrameAlignment : Nat
  /-- `use_eabi_hardfloat()` -/
  use_eabi_hardfloat : Bool
  /-- The macro `DEBUG`: whether the build compiles `ASSERT` in (a release
  build drops it).  Consulted by `Call`, whose `ASSERT` decides whether a call
  with fewer than five arguments is made at all. -/
  debug : Bool

/-- The host side the simulator calls into: a host function is identified by
its address and maps its 32-bit arguments to a 64-bit result pattern; the host
`double` arithmetic acts on raw 64-bit patterns. -/
structure Host where
  call : Nat → List Nat → Nat
  fadd : Nat → Nat → Nat
  fsub : Nat → Nat → Nat
  fmul : Nat → Nat → Nat
  fdiv : Nat → Nat → Nat
  flt : Nat → Nat → Bool
  fgt : Nat → Nat → Bool
  feq : Nat → Nat → Bool
  isunordered : Nat → Nat → Bool

/-- The state of one `Simulator`, together with the host memory it runs in and
the isolate's instruction cache.  Fields keep the names of the C++ members.
The ARM-legacy condition flags, which no PowerPC executor reads or writes,
and the debugger bookkeeping are left out. -/
structure Simulator where
  registers_ : Nat → Nat
  pc_modified_ : Bool
  icount_ : Nat
  condition_reg_ : Nat
  special_reg_lr_ : Nat
  special_reg_ctr_ : Nat
  special_reg_xer_ : Nat
  fp_register : Nat → Nat
  vfp_register : Nat → Nat
  watched_stops : Nat → StopCountAndDesc
  /-- `stack_`: address of the simulated stack buffer -/
  stack_ : Nat
  /-- `isolate_->simulator_i_cache()`: page address to cache page -/
  i_cache : Nat → Option CachePage
  /-- host memory, one byte per address -/
  mem : Nat → Nat
  flags : Flags
  host : Host

/-- Why a simulator routine did not return normally. -/
inductive Halt where
  /-- `UNIMPLEMENTED()` -/
  | unimplemented
  /-- `UNREACHABLE()` -/
  | unreachable
  /-- a failed `CHECK`, `CHECK_EQ` or `ASSERT` -/
  | check_failed
  /-- a write outside a fixed-size array -/
  | out_of_bounds
  /-- control was handed to the interactive `PPCDebugger` in this state -/
  | debugger (s : Simulator)
  /-- the loop did not finish within the iteration budget of the model -/
  | out_of_fuel

/-! ## Register and memory accessors -/

/-- `Simulator::set_register`: writing the PC slot sets the pc-modified latch.
Callers pass indices below `num_registers` (5-bit fields or enum constants). -/
def set_register (s : Simulator) (reg : Nat) (value : Nat) : Simulator :=
  { s with
    pc_modified_ := if reg = pc then true else s.pc_modified_
    registers_ := Function.update s.registers_ reg value }

/-- `Simulator::get_register`: reading the PC slot adds `kPCReadOffset`. -/
def get_register (s : Simulator) (reg : Nat) : Nat :=
  if reg ≥ num_registers then 0
  else if reg = pc then add32 (s.registers_ reg) Instruction.kPCReadOffset
  else s.registers_ reg

/-- `Simulator::set_pc`: raw write of the PC. -/
def set_pc (s : Simulator) (value : Nat) : Simulator :=
  { s with pc_modified_ := true, registers_ := Function.update s.registers_ pc value }

/-- `Simulator::get_pc`: raw read of the PC. -/
def get_pc (s : Simulator) : Nat := s.registers_ pc

/-- `Simulator::has_bad_pc`. -/
def has_bad_pc (s : Simulator) : Bool :=
  s.registers_ pc == bad_lr || s.registers_ pc == end_sim_pc

/-- The byte of host memory at a 32-bit address. -/
def Simulator.byteAt (s : Simulator) (addr : Nat) : Nat := s.mem (addr % 4294967296) % 256

/-- Store one byte of host memory at a 32-bit address. -/
def Simulator.setByte (s : Simulator) (addr : Nat) (value : Nat) : Simulator :=
  { s with mem := Function.update s.mem (addr % 4294967296) (value % 256) }

/-- `Simulator::ReadW`: the 32-bit word at `addr` (the host is little-endian,
as the hosts the simulator is built for). -/
def ReadW (s : Simulator) (addr : Nat) : Nat :=
  s.byteAt addr + 256 * s.byteAt (addr + 1) + 65536 * s.byteAt (addr + 2)
    + 16777216 * s.byteAt (addr + 3)

/-- `Simulator::WriteW`. -/
def WriteW (s : Simulator) (addr : Nat) (value : Nat) : Simulator :=
  (((s.setByte addr value).setByte (addr + 1) (value / 256)).setByte (addr + 2)
    (value / 65536)).setByte (addr + 3) (value / 16777216)

/-- `Simulator::ReadHU`: unsigned halfword. -/
def ReadHU (s : Simulator) (addr : Nat) : Nat :=
  s.byteAt addr + 256 * s.byteAt (addr + 1)

/-- `Simulator::ReadH`: the halfword read as `int16_t`; the result is given as
the 32-bit pattern of its sign extension, which is what the conversion to
`int32_t` at the call site produces. -/
def ReadH (s : Simulator) (addr : Nat) : Nat :=
  let h := ReadHU s addr
  if h < 32768 then h else h + 4294901760

/-- `Simulator::WriteH` (both overloads store the low 16 bits). -/
def WriteH (s : Simulator) (addr : Nat) (value : Nat) : Simulator :=
  (s.setByte addr value).setByte (addr + 1) (value / 256)

/-- `Simulator::ReadBU`. -/
def ReadBU (s : Simulator) (addr : Nat) : Nat := s.byteAt addr

/-- `Simulator::ReadB`: the byte read as `int8_t`, given as the 32-bit pattern
of its sign extension. -/
def ReadB (s : Simulator) (addr : Nat) : Nat :=
  let b := s.byteAt addr
  if b < 128 then b else b + 4294967040

/-- `Simulator::WriteB` (both overloads store the low 8 bits). -/
def WriteB (s : Simulator) (addr : Nat) (value : Nat) : Simulator := s.setByte addr value

/-- `Simulator::ReadDW` followed by the dereference of the `double*` made from
it: the 64-bit pattern at `addr`. -/
def ReadDW (s : Simulator) (addr : Nat) : Nat :=
  ReadW s addr + 4294967296 * ReadW s (addr + 4)

/-- `Simulator::WriteDW`. -/
def WriteDW (s : Simulator) (addr : Nat) (value1 value2 : Nat) : Simulator :=
  WriteW (WriteW s addr value1) (addr + 4) value2

/-- Modelled from the spec: `get_double_from_d_register` of `simulator-ppc.h`
(not under src/), the instance `GetFromFPRegister<double, 2>` of the template
in the source: the raw 64-bit pattern held in the two words of d-register
`dreg`. -/
def get_double_from_d_register (s : Simulator) (dreg : Nat) : Nat :=
  s.fp_register (2 * dreg) % 4294967296 + 4294967296 * (s.fp_register (2 * dreg + 1) % 4294967296)

/-- Modelled from the spec: `set_d_register_from_double` of `simulator-ppc.h`
(not under src/), the instance `SetFPRegister<double, 2>` of the template in
the source.  The 64 bits are copied as they are (a host that passes the
`double` through an x87 register quiets a signalling NaN on the way). -/
def set_d_register_from_double (s : Simulator) (dreg : Nat) (value : Nat) : Simulator :=
  { s with fp_register :=
      (Function.update (Function.update s.fp_register (2 * dreg) (value % 4294967296))
        (2 * dreg + 1) (value / 4294967296 % 4294967296)) }

/-- `Simulator::SetFpResult`: copy the result to d0. -/
def SetFpResult (s : Simulator) (result : Nat) : Simulator :=
  { s with fp_register :=
      (Function.update (Function.update s.fp_register 0 (result % 4294967296))
        1 (result / 4294967296 % 4294967296)) }

/-- `Simulator::StackLimit`. -/
def StackLimit (s : Simulator) : Nat := add32 s.stack_ 1024

/-! ## Instruction cache (`FlushICache`, `CheckICache`) -/

/-- `AllOnOnePage(uintptr_t start, int size)`. -/
def AllOnOnePage (start size : Nat) : Bool :=
  let start_page := start &&& not32 CachePage.kPageMask
  let end_page := add32 start size &&& not32 CachePage.kPageMask
  start_page == end_page

/-- `Simulator::GetCachePage`: look the page up, creating it when absent. -/
def GetCachePage (i_cache : Nat → Option CachePage) (page : Nat) :
    (Nat → Option CachePage) × CachePage :=
  match i_cache page with
  | some cache_page => (i_cache, cache_page)
  | none => (Function.update i_cache page (some CachePage.new), CachePage.new)

/-- `memset(valid_bytemap, value, count)` on a validity map. -/
def memsetValidity (validity_map : Nat → Nat) (first count value : Nat) : Nat → Nat :=
  fun i => if first ≤ i ∧ i < first + count then value else validity_map i

/-- `Simulator::FlushOnePage`: flush from `start` up to and not including
`start + size`.  `size` is an `int`; the `memset` length is its conversion to
`size_t`, and a `memset` past the end of `validity_map_` is reported as
`out_of_bounds`. -/
def FlushOnePage (i_cache : Nat → Option CachePage) (start size : Nat) :
    Except Halt (Nat → Option CachePage) :=
  if ¬ (toInt32 size ≤ (CachePage.kPageSize : Int)) then .error .check_failed
  else if ¬ AllOnOnePage start (sub32 size 1) then .error .check_failed
  else if ¬ (start &&& CachePage.kLineMask = 0) then .error .check_failed
  else if ¬ (size &&& CachePage.kLineMask = 0) then .error .check_failed
  else
    let page := start &&& not32 CachePage.kPageMask
    let offset := start &&& CachePage.kPageMask
    let (i_cache1, cache_page) := GetCachePage i_cache page
    let valid_bytemap := CachePage.ValidityByte offset
    let count := asr32 size CachePage.kLineShift
    if valid_bytemap + count > CachePage.kPageSize >>> CachePage.kLineShift then
      .error .out_of_bounds
    else
      .ok (Function.update i_cache1 page
        (some { cache_page with
          validity_map_ :=
            memsetValidity cache_page.validity_map_ valid_bytemap count CachePage.LINE_INVALID }))

/-- The `while (!AllOnOnePage(start, size - 1))` loop of `FlushICache`; `fuel`
bounds the number of iterations.  Returns the cache, `start` and `size` at
loop exit. -/
def FlushICacheLoop (fuel : Nat) (i_cache : Nat → Option CachePage) (start size offset : Nat) :
    Except Halt ((Nat → Option CachePage) × Nat × Nat) :=
  if AllOnOnePage start (sub32 size 1) then .ok (i_cache, start, size)
  else
    match fuel with
    | 0 => .error .out_of_fuel
    | fuel + 1 =>
      let bytes_to_flush := sub32 CachePage.kPageSize offset
      match FlushOnePage i_cache start bytes_to_flush with
      | .error e => .error e
      | .ok i_cache1 =>
        let start1 := add32 start bytes_to_flush
        let size1 := sub32 size bytes_to_flush
        if ¬ (start1 &&& CachePage.kPageMask = 0) then .error .check_failed
        else FlushICacheLoop fuel i_cache1 start1 size1 0

/-- `Simulator::FlushICache(i_cache, start_addr, size)`; `fuel` bounds the
iterations of the page loop. -/
def FlushICache (fuel : Nat) (i_cache : Nat → Option CachePage) (start_addr size : Nat) :
    Except Halt (Nat → Option CachePage) :=
  let start := start_addr
  let intra_line := start &&& CachePage.kLineMask
  let start := sub32 start intra_line
  let size := add32 size intra_line
  let size := add32 (sub32 size 1 ||| CachePage.kLineMask) 1
  let offset := start &&& CachePage.kPageMask
  match FlushICacheLoop fuel i_cache start size offset with
  | .error e => .error e
  | .ok (i_cache1, start1, size1) =>
    if size1 ≠ 0 then FlushOnePage i_cache1 start1 size1 else .ok i_cache1

/-- `memcpy(cached_line, line, kLineLength)` into the page data. -/
def copyLine (s : Simulator) (data : Nat → Nat) (cached_line line : Nat) : Nat → Nat :=
  fun i =>
    if cached_line ≤ i ∧ i < cached_line + CachePage.kLineLength then
      s.byteAt (line + (i - cached_line))
    else data i

/-- `memcmp(instr, cache_page->CachedData(offset), kInstrSize) == 0`. -/
def instrMatchesCache (s : Simulator) (cache_page : CachePage) (instr offset : Nat) : Bool :=
  (List.range Instruction.kInstrSize).all
    (fun i => s.byteAt (instr + i) == cache_page.data_ (offset + i) % 256)

/-- `Simulator::CheckICache`. -/
def CheckICache (s : Simulator) (instr : Instruction) : Except Halt Simulator :=
  let address := instr.addr
  let page := address &&& not32 CachePage.kPageMask
  let line := address &&& not32 CachePage.kLineMask
  let offset := address &&& CachePage.kPageMask
  let (i_cache1, cache_page) := GetCachePage s.i_cache page
  let cache_valid_byte := CachePage.ValidityByte offset
  let cache_hit := cache_page.validity_map_ cache_valid_byte == CachePage.LINE_VALID
  let cached_line := offset &&& not32 CachePage.kLineMask
  if cache_hit then
    if instrMatchesCache s cache_page address offset then .ok { s with i_cache := i_cache1 }
    else .error .check_failed
  else
    .ok { s with i_cache := (Function.update i_cache1 page
      (some { data_ := copyLine s cache_page.data_ cached_line line
              validity_map_ :=
                Function.update cache_page.validity_map_ cache_valid_byte CachePage.LINE_VALID })) }

/-! ## Watched stops -/

/-- `Simulator::isStopInstruction`. -/
def isStopInstruction (instr : Instruction) : Bool :=
  instr.Bits 27 24 == 15 && decide (instr.SvcValue ≥ kStopCode)

/-- `Simulator::isWatchedStop`. -/
def isWatchedStop (code : Nat) : Bool := decide (code < kNumOfWatchedStops)

/-- `Simulator::isEnabledStop`: unwatched stops are always enabled. -/
def isEnabledStop (s : Simulator) (code : Nat) : Bool :=
  !isWatchedStop code || (s.watched_stops code).count &&& kStopDisabledBit == 0

/-- Replace the counter of one watched stop. -/
def setStopCount (s : Simulator) (code : Nat) (count : Nat) : Simulator :=
  { s with watched_stops :=
      Function.update s.watched_stops code { s.watched_stops code with count := count } }

/-- `Simulator::EnableStop`. -/
def EnableStop (s : Simulator) (code : Nat) : Except Halt Simulator :=
  if ¬ isWatchedStop code then .error .check_failed
  else if !isEnabledStop s code then
    .ok (setStopCount s code ((s.watched_stops code).count &&& not32 kStopDisabledBit))
  else .ok s

/-- `Simulator::DisableStop`. -/
def DisableStop (s : Simulator) (code : Nat) : Except Halt Simulator :=
  if ¬ isWatchedStop code then .error .check_failed
  else if isEnabledStop s code then
    .ok (setStopCount s code ((s.watched_stops code).count ||| kStopDisabledBit))
  else .ok s

/-- `Simulator::IncreaseStopCounter`. -/
def IncreaseStopCounter (s : Simulator) (code : Nat) : Except Halt Simulator :=
  if ¬ (code ≤ kMaxStopCode) then .error .check_failed
  else if ¬ isWatchedStop code then .error .check_failed
  else if (s.watched_stops code).count &&& not32 (1 <<< 31) = 2147483647 then
    EnableStop (setStopCount s code 0) code
  else
    .ok (setStopCount s code (add32 (s.watched_stops code).count 1))

/-- The value of a watched-stop counter: the low 31 bits of `count`. -/
def stopCounterValue (s : Simulator) (code : Nat) : Nat :=
  (s.watched_stops code).count &&& not32 kStopDisabledBit

/-- `PPCDebugger::Stop` (the build without `GENERATED_CODE_COVERAGE`): record
the description, step over the stop and its message word, enter the
debugger. -/
def PPCDebugger_Stop (s : Simulator) (instr : Instruction) : Except Halt Simulator :=
  let code := instr.SvcValue &&& kStopCodeMask
  let msg := ReadW s (add32 (get_pc s) Instruction.kInstrSize)
  let s1 :=
    if isWatchedStop code && (s.watched_stops code).desc == 0 then
      { s with watched_stops :=
          Function.update s.watched_stops code { s.watched_stops code with desc := msg } }
    else s
  let s2 := set_pc s1 (add32 (get_pc s1) (2 * Instruction.kInstrSize))
  .error (.debugger s2)

/-! ## Host-call bridge (`SoftwareInterrupt`) -/

namespace ExternalReference
/-- Modelled from the spec: the call-type tags `ExternalReference::Type` of
`assembler.h` (not under src/), in declaration order. -/
def BUILTIN_CALL : Nat := 0
/-- Modelled from the spec: call-type tag of `assembler.h`. -/
def BUILTIN_COMPARE_CALL : Nat := 1
/-- Modelled from the spec: call-type tag of `assembler.h`. -/
def BUILTIN_FP_FP_CALL : Nat := 2
/-- Modelled from the spec: call-type tag of `assembler.h`. -/
def BUILTIN_FP_CALL : Nat := 3
/-- Modelled from the spec: call-type tag of `assembler.h`. -/
def BUILTIN_FP_INT_CALL : Nat := 4
/-- Modelled from the spec: call-type tag of `assembler.h`. -/
def DIRECT_API_CALL : Nat := 5
/-- Modelled from the spec: call-type tag of `assembler.h`. -/
def DIRECT_GETTER_CALL : Nat := 6
end ExternalReference

namespace Redirection
/-- `OFFSET_OF(Redirection, swi_instruction_)`: the trap word follows the
4-byte `external_function_` pointer. -/
def kSwiOffset : Nat := 4

/-- `Redirection::FromSwiInstruction`: the address of the record, by pointer
subtraction from the address of its trap word. -/
def FromSwiInstruction (swi_instruction : Instruction) : Nat :=
  sub32 swi_instruction.addr kSwiOffset

/-- `Redirection::external_function()`: the first field of the record. -/
def external_function (s : Simulator) (redirection : Nat) : Nat := ReadW s redirection

/-- `Redirection::type()`: the field after the trap word. -/
def type (s : Simulator) (redirection : Nat) : Nat := ReadW s (add32 redirection 8)
end Redirection

/-- `Simulator::SoftwareInterrupt`, for a host that is not itself a PowerPC
(the `#else` branches of `V8_HOST_ARCH_PPC`).  Trace output is not modelled. -/
def SoftwareInterrupt (s : Simulator) (instr : Instruction) : Except Halt Simulator :=
  let svc := instr.SvcValue
  if svc = kCallRtRedirected then
    let stack_aligned := get_register s sp &&& sub32 s.flags.sim_stack_alignment 1 == 0
    let redirection := Redirection.FromSwiInstruction instr
    let type := Redirection.type s redirection
    let arg0 := get_register s 3
    let arg1 := get_register s 4
    let arg2 := get_register s 5
    let arg3 := get_register s 6
    let stack_pointer := get_register s sp
    let arg4 := ReadW s stack_pointer
    let arg5 := ReadW s (add32 stack_pointer 4)
    let fp_call :=
      type == ExternalReference.BUILTIN_FP_FP_CALL ||
      type == ExternalReference.BUILTIN_COMPARE_CALL ||
      type == ExternalReference.BUILTIN_FP_CALL ||
      type == ExternalReference.BUILTIN_FP_INT_CALL
    let hard := s.flags.use_eabi_hardfloat
    let fpfp := type == ExternalReference.BUILTIN_FP_FP_CALL ||
      type == ExternalReference.BUILTIN_COMPARE_CALL
    let fp1 := type == ExternalReference.BUILTIN_FP_CALL
    let fpint := type == ExternalReference.BUILTIN_FP_INT_CALL
    let arg0 := if hard && (fpfp || fp1 || fpint) then s.vfp_register 0 else arg0
    let arg1 := if hard && (fpfp || fp1 || fpint) then s.vfp_register 1 else arg1
    let arg2 := if hard && fpfp then s.vfp_register 2
      else if hard && fpint then get_register s 0 else arg2
    let arg3 := if hard && fpfp then s.vfp_register 3 else arg3
    let saved_lr := s.special_reg_lr_
    let external := Redirection.external_function s redirection
    if fp_call then
      if ¬ stack_aligned then .error .check_failed
      else if type ≠ ExternalReference.BUILTIN_COMPARE_CALL then
        let result := s.host.call external [arg0, arg1, arg2, arg3]
        .ok (set_pc (SetFpResult s result) saved_lr)
      else
        let result := s.host.call external [arg0, arg1, arg2, arg3, arg4, arg5]
        let lo_res := result % 4294967296
        let hi_res := result / 4294967296 % 4294967296
        .ok (set_pc (set_register (set_register s 3 lo_res) 4 hi_res) saved_lr)
    else if type = ExternalReference.DIRECT_API_CALL then
      if ¬ stack_aligned then .error .check_failed
      else
        let result := s.host.call external [arg0]
        .ok (set_pc (set_register s 0 (result % 4294967296)) saved_lr)
    else if type = ExternalReference.DIRECT_GETTER_CALL then
      if ¬ stack_aligned then .error .check_failed
      else
        let result := s.host.call external [arg0, arg1]
        .ok (set_pc (set_register s 0 (result % 4294967296)) saved_lr)
    else
      if ¬ (type = ExternalReference.BUILTIN_CALL) then .error .check_failed
      else if ¬ stack_aligned then .error .check_failed
      else
        let result := s.host.call external [arg0, arg1, arg2, arg3, arg4, arg5]
        let lo_res := result % 4294967296
        let hi_res := result / 4294967296 % 4294967296
        .ok (set_pc (set_register (set_register s 3 lo_res) 4 hi_res) saved_lr)
  else if svc = kBreakpoint then
    .error (.debugger s)
  else if svc ≥ 1 <<< 23 then
    let code := svc &&& kStopCodeMask
    match (if isWatchedStop code then IncreaseStopCounter s code else .ok s) with
    | .error e => .error e
    | .ok s1 =>
      if isEnabledStop s1 code then PPCDebugger_Stop s1 instr
      else .ok (set_pc s1 (add32 (get_pc s1) (2 * Instruction.kInstrSize)))
  else .error .unreachable

/-! ## Executors -/

/-- The three compare bits `bf` built by every compare and record form:
`0x80000000` for less, `0x40000000` for greater, `0x20000000` for equal. -/
def compareBits (lt gt eq : Bool) : Nat :=
  ((if lt then 2147483648 else 0) ||| (if gt then 1073741824 else 0))
    ||| (if eq then 536870912 else 0)

/-- The field update shared by CMP, CMPL, CMPI, CMPLI and FCMPU:
`condition_mask = 0xF0000000 >> (cr*4)` (unsigned constant, logical shift),
`condition = bf >> (cr*4)` (`bf` is an `int`, arithmetic shift),
`condition_reg_ = (condition_reg_ & ~condition_mask) | condition`. -/
def setConditionField (s : Simulator) (cr bf : Nat) : Simulator :=
  let condition_mask := lsr32 4026531840 (cr * 4)
  let condition := asr32 bf (cr * 4)
  { s with condition_reg_ := (s.condition_reg_ &&& not32 condition_mask) ||| condition }

/-- The record-form update `condition_reg_ = (condition_reg_ & ~0xF0000000) | bf`
with `bf` from the signed comparison of `result` against zero. -/
def setCR0 (s : Simulator) (result : Nat) : Simulator :=
  let bf := compareBits (decide (toInt32 result < 0)) (decide (toInt32 result > 0))
    (decide (toInt32 result = 0))
  { s with condition_reg_ := (s.condition_reg_ &&& not32 4026531840) ||| bf }

/-- `(x << 16) >> 16` on an `int`: sign extension of the low 16 bits. -/
def signExtend16 (x : Nat) : Nat := asr32 (shl32 x 16) 16

/-- The loop `for (; mb <= me; mb++) { mask |= bit; bit >>= 1; }` run for
`n` iterations; `bit` is an `int`, so `>>=` is an arithmetic shift. -/
def maskSetLoop : Nat → Nat → Nat → Nat
  | 0, mask, _ => mask
  | n + 1, mask, bit => maskSetLoop n (mask ||| bit) (asr32 bit 1)

/-- The loop `for (; me < mb; me++) { mask ^= bit; bit >>= 1; }` run for
`n` iterations. -/
def maskClearLoop : Nat → Nat → Nat → Nat
  | 0, mask, _ => mask
  | n + 1, mask, bit => maskClearLoop n (mask ^^^ bit) (asr32 bit 1)

/-- The mask computation of the RLWIMI and RLWINM executors. -/
def rotateMask (mb me : Nat) : Nat :=
  if mb < me + 1 then
    maskSetLoop (me + 1 - mb) 0 (lsr32 2147483648 mb)
  else if mb = me + 1 then 4294967295
  else
    maskClearLoop (mb - me) 4294967295 (lsr32 2147483648 (me + 1))

/-- The "rotate left" of RLWIMI and RLWINM as written:
`(rs_val << sh) | (rs_val >> (32 - sh))` with `rs_val` an `int32_t`, so the
right shift is arithmetic.  For sh = 0 the count is 32, which C++ leaves
undefined; the x86 hosts the simulator is built for shift by the count modulo
32, that is by 0. -/
def rotateLeftAsWritten (rs_val sh : Nat) : Nat :=
  shl32 rs_val sh ||| asr32 rs_val ((32 - sh) % 32)

/-- `Simulator::DecodeExt1`. -/
def DecodeExt1 (s : Simulator) (instr : Instruction) : Except Halt Simulator :=
  let op := instr.Bits 10 1 <<< 1
  if op = MCRF then .error .unimplemented
  else if op = BCLRX then
    let old_pc := get_pc s
    let s1 := set_pc s s.special_reg_lr_
    if instr.Bit 0 = 1 then .ok { s1 with special_reg_lr_ := add32 old_pc 4 } else .ok s1
  else if op = BCCTRX then
    let old_pc := get_pc s
    let s1 := set_pc s s.special_reg_ctr_
    if instr.Bit 0 = 1 then .ok { s1 with special_reg_lr_ := add32 old_pc 4 } else .ok s1
  else if op = CRNOR ∨ op = RFI ∨ op = CRANDC ∨ op = ISYNC then .error .unimplemented
  else if op = CRXOR then
    let bt := instr.Bits 25 21
    let ba := instr.Bits 20 16
    let bb := instr.Bits 15 11
    let ba_val := if asr32 268435456 ba &&& s.condition_reg_ = 0 then 0 else 1
    let bb_val := if asr32 268435456 bb &&& s.condition_reg_ = 0 then 0 else 1
    let bt_val := ba_val ^^^ bb_val
    let bt_val := shl32 bt_val (31 - bt)
    let cr1 := s.condition_reg_ &&& not32 (asr32 268435456 bt)
    .ok { s with condition_reg_ := cr1 ||| bt_val }
  else .error .unimplemented

/-- `Simulator::DecodeExt2`.  SRW, SRAW and SLW shift by the whole value of
rB; a count of 32 or more is undefined in C++, and the x86 hosts the simulator
is built for shift by the count modulo 32. -/
def DecodeExt2 (s : Simulator) (instr : Instruction) : Except Halt Simulator :=
  let op10 := instr.Bits 10 1 <<< 1
  if op10 = SRWX then
    let rs := instr.RSValue
    let ra := instr.RAValue
    let rb := instr.RBValue
    let rs_val := get_register s rs
    let rb_val := get_register s rb
    .ok (set_register s ra (lsr32 rs_val (rb_val % 32)))
  else if op10 = SRAW then
    let rs := instr.RSValue
    let ra := instr.RAValue
    let rb := instr.RBValue
    let rs_val := get_register s rs
    let rb_val := get_register s rb
    .ok (set_register s ra (asr32 rs_val (rb_val % 32)))
  else if op10 = SRAWIX then
    let ra := instr.RAValue
    let rs := instr.RSValue
    let rs_val := get_register s rs
    let sh := instr.Bits 15 11
    let rc := instr.Bit 0
    let result := asr32 rs_val sh
    let s1 := set_register s ra result
    .ok (if rc ≠ 0 then setCR0 s1 result else s1)
  else
  let op := instr.Bits 9 1 <<< 1
  if op = CMP then
    let ra := instr.RAValue
    let rb := instr.RBValue
    let ra_val := get_register s ra
    let rb_val := get_register s rb
    let cr := instr.Bits 25 23
    let bf := compareBits (decide (toInt32 ra_val < toInt32 rb_val))
      (decide (toInt32 ra_val > toInt32 rb_val)) (decide (toInt32 ra_val = toInt32 rb_val))
    .ok (setConditionField s cr bf)
  else if op = SUBFCX then
    let rt := instr.RTValue
    let ra := instr.RAValue
    let rb := instr.RBValue
    let ra_val := get_register s ra
    let rb_val := get_register s rb
    let alu_out := sub32 rb_val ra_val
    let s1 := set_register s rt alu_out
    if ra_val > rb_val then
      .ok { s1 with special_reg_xer_ := (s1.special_reg_xer_ &&& not32 4026531840) ||| 536870912 }
    else
      .ok { s1 with special_reg_xer_ := s1.special_reg_xer_ &&& not32 4026531840 }
  else if op = ADDCX then
    let rt := instr.RTValue
    let ra := instr.RAValue
    let rb := instr.RBValue
    let ra_val := get_register s ra
    let rb_val := get_register s rb
    /- `int64_t alu_out = ra_val + rb_val`: the sum is formed in `int32_t` and
       then widened, so `alu_out` is the sign extension of the 32-bit sum. -/
    let alu_out : Int := toInt32 (add32 ra_val rb_val)
    if alu_out >>> 32 ≠ 0 then
      let alu_out := alu_out % 4294967296
      let s1 := { s with
        special_reg_xer_ := (s.special_reg_xer_ &&& not32 4026531840) ||| 536870912 }
      .ok (set_register s1 rt (ofInt32 alu_out))
    else
      let s1 := { s with special_reg_xer_ := s.special_reg_xer_ &&& not32 4026531840 }
      .ok (set_register s1 rt (ofInt32 alu_out))
  else if op = SLWX then
    let rs := instr.RSValue
    let ra := instr.RAValue
    let rb := instr.RBValue
    let rs_val := get_register s rs
    let rb_val := get_register s rb
    .ok (set_register s ra (shl32 rs_val (rb_val % 32)))
  else if op = ANDX then
    let rs := instr.RSValue
    let ra := instr.RAValue
    let rb := instr.RBValue
    let rs_val := get_register s rs
    let rb_val := get_register s rb
    let alu_out := rs_val &&& rb_val
    let s1 := set_register s ra alu_out
    .ok (if instr.Bit 0 ≠ 0 then setCR0 s1 alu_out else s1)
  else if op = CMPL then
    let ra := instr.RAValue
    let rb := instr.RBValue
    let ra_val := get_register s ra
    let rb_val := get_register s rb
    let cr := instr.Bits 25 23
    let bf := compareBits (decide (ra_val < rb_val)) (decide (ra_val > rb_val))
      (decide (ra_val = rb_val))
    .ok (setConditionField s cr bf)
  else if op = SUBFX then
    let rt := instr.RTValue
    let ra := instr.RAValue
    let rb := instr.RBValue
    let rc := instr.Bit 0
    let ra_val := get_register s ra
    let rb_val := get_register s rb
    let alu_out := sub32 rb_val ra_val
    let s1 := if rc ≠ 0 then setCR0 s alu_out else s
    .ok (set_register s1 rt alu_out)
  else if op = ADDZEX then
    let rt := instr.RTValue
    let ra := instr.RAValue
    let ra_val := get_register s ra
    let ra_val := if s.special_reg_xer_ &&& 536870912 ≠ 0 then add32 ra_val 1 else ra_val
    let s1 := set_register s rt ra_val
    .ok (if instr.Bit 0 ≠ 0 then setCR0 s1 ra_val else s1)
  else if op = MULLW then
    let rt := instr.RTValue
    let ra := instr.RAValue
    let rb := instr.RBValue
    let ra_val := get_register s ra
    let rb_val := get_register s rb
    .ok (set_register s rt (mul32 ra_val rb_val))
  else if op = ADDX then
    let rt := instr.RTValue
    let ra := instr.RAValue
    let rb := instr.RBValue
    let ra_val := get_register s ra
    let rb_val := get_register s rb
    let alu_out := add32 ra_val rb_val
    .ok (set_register s rt alu_out)
  else if op = XORX then
    let rs := instr.RSValue
    let ra := instr.RAValue
    let rb := instr.RBValue
    let rs_val := get_register s rs
    let rb_val := get_register s rb
    .ok (set_register s ra (rs_val ^^^ rb_val))
  else if op = ORX then
    let rs := instr.RSValue
    let ra := instr.RAValue
    let rb := instr.RBValue
    let rs_val := get_register s rs
    let rb_val := get_register s rb
    .ok (set_register s ra (rs_val ||| rb_val))
  else if op = MFSPR then
    let rt := instr.RTValue
    let spr := instr.Bits 20 11
    if spr ≠ 256 then .error .unimplemented
    else .ok (set_register s rt s.special_reg_lr_)
  else if op = MTSPR then
    let rt := instr.RTValue
    let rt_val := get_register s rt
    let spr := instr.Bits 20 11
    if spr = 256 then .ok { s with special_reg_lr_ := rt_val }
    else if spr = 288 then .ok { s with special_reg_ctr_ := rt_val }
    else .error .unimplemented
  else .error .unimplemented

/-- `Simulator::DecodeExt4`. -/
def DecodeExt4 (s : Simulator) (instr : Instruction) : Except Halt Simulator :=
  let op := instr.Bits 5 1 <<< 1
  if op = FCMPU then
    let fra := instr.RAValue
    let frb := instr.RBValue
    let fra_val := get_double_from_d_register s fra
    let frb_val := get_double_from_d_register s frb
    let cr := instr.Bits 25 23
    let bf := compareBits (s.host.flt fra_val frb_val) (s.host.fgt fra_val frb_val)
      (s.host.feq fra_val frb_val)
    let bf := if s.host.isunordered fra_val frb_val then bf ||| 268435456 else bf
    .ok (setConditionField s cr bf)
  else if op = FDIV then
    let frt := instr.RTValue
    let fra_val := get_double_from_d_register s instr.RAValue
    let frb_val := get_double_from_d_register s instr.RBValue
    .ok (set_d_register_from_double s frt (s.host.fdiv fra_val frb_val))
  else if op = FSUB then
    let frt := instr.RTValue
    let fra_val := get_double_from_d_register s instr.RAValue
    let frb_val := get_double_from_d_register s instr.RBValue
    .ok (set_d_register_from_double s frt (s.host.fsub fra_val frb_val))
  else if op = FADD then
    let frt := instr.RTValue
    let fra_val := get_double_from_d_register s instr.RAValue
    let frb_val := get_double_from_d_register s instr.RBValue
    .ok (set_d_register_from_double s frt (s.host.fadd fra_val frb_val))
  else if op = FMUL then
    let frt := instr.RTValue
    let fra_val := get_double_from_d_register s instr.RAValue
    let frb_val := get_double_from_d_register s instr.RBValue
    .ok (set_d_register_from_double s frt (s.host.fmul fra_val frb_val))
  else .error .unimplemented

/-- The effective address of the integer loads and stores:
`offset = sign-extended D; if (ra != 0) offset += ra_val`. -/
def effectiveAddress (s : Simulator) (instr : Instruction) : Nat :=
  let ra := instr.RAValue
  let ra_val := get_register s ra
  let offset := signExtend16 (instr.Bits 15 0)
  if ra ≠ 0 then add32 offset ra_val else offset

/-- The body shared by `case ORIS: case XORI: case XORIS: case ANDIx:`, which
the `ORI` case also runs into because it has no `break`. -/
def case_ANDIx (s : Simulator) (instr : Instruction) : Simulator :=
  let rs := instr.RSValue
  let ra := instr.RAValue
  let rs_val := get_register s rs
  let im_val := instr.Bits 15 0
  let alu_out := rs_val &&& im_val
  set_register s ra alu_out

/-- The body of `case RLWNMX: case ORI:`; it ends without `break`, so control
falls through into the `ANDIx` body. -/
def case_ORI (s : Simulator) (instr : Instruction) : Simulator :=
  let rt := instr.RTValue
  let ra := instr.RAValue
  let ra_val := get_register s ra
  let im_val := instr.Bits 15 0
  let alu_out := ra_val ||| im_val
  case_ANDIx (set_register s rt alu_out) instr

/-- The body of `case BCX:`. -/
def case_BCX (s : Simulator) (instr : Instruction) : Except Halt Simulator :=
  let bo := instr.Bits 25 21 <<< 21
  let offset := asr32 (shl32 (instr.Bits 15 2) 18) 16
  let condition_bit := instr.Bits 20 16
  let condition_mask := lsr32 2147483648 condition_bit
  if bo = DCBNZF ∨ bo = DCBEZF then .error .unimplemented
  else if bo = BF then
    if s.condition_reg_ &&& condition_mask = 0 then .ok (set_pc s (add32 (get_pc s) offset))
    else .ok s
  else if bo = DCBNZT ∨ bo = DCBEZT then .error .unimplemented
  else if bo = BT then
    if s.condition_reg_ &&& condition_mask ≠ 0 then .ok (set_pc s (add32 (get_pc s) offset))
    else .ok s
  else if bo = DCBNZ ∨ bo = DCBEZ then .error .unimplemented
  else if bo = BA then .ok (set_pc s (add32 (get_pc s) offset))
  else .error .unimplemented

/-- The body of `case RLWIMIX:`. -/
def case_RLWIMIX (s : Simulator) (instr : Instruction) : Simulator :=
  let ra := instr.RAValue
  let rs := instr.RSValue
  let rs_val := get_register s rs
  let ra_val := get_register s ra
  let sh := instr.Bits 15 11
  let mb := instr.Bits 10 6
  let me := instr.Bits 5 1
  let rc := instr.Bit 0
  let result := rotateLeftAsWritten rs_val sh
  let mask := rotateMask mb me
  let result := result &&& mask
  let ra_val := ra_val &&& not32 mask
  let result := result ||| ra_val
  let s1 := set_register s ra result
  if rc ≠ 0 then setCR0 s1 result else s1

/-- The body of `case RLWINMX:`. -/
def case_RLWINMX (s : Simulator) (instr : Instruction) : Simulator :=
  let ra := instr.RAValue
  let rs := instr.RSValue
  let rs_val := get_register s rs
  let sh := instr.Bits 15 11
  let mb := instr.Bits 10 6
  let me := instr.Bits 5 1
  let rc := instr.Bit 0
  let result := rotateLeftAsWritten rs_val sh
  let mask := rotateMask mb me
  let result := result &&& mask
  let s1 := set_register s ra result
  if rc ≠ 0 then setCR0 s1 result else s1

/-- The `switch (instr->OpcodeValue() << 26)` of `Simulator::InstructionDecode`:
the executor of the instruction. -/
def InstructionDecode_switch (s : Simulator) (instr : Instruction) : Except Halt Simulator :=
  let op := instr.OpcodeValue <<< 26
  if op = TWI then SoftwareInterrupt s instr
  else if op = MULLI ∨ op = SUBFIC then
    let rt := instr.RTValue
    let ra := instr.RAValue
    let ra_val := get_register s ra
    let im_val := instr.Bits 15 0
    .ok (set_register s rt (sub32 im_val ra_val))
  else if op = CMPLI then
    let ra := instr.RAValue
    let ra_val := get_register s ra
    let im_val := instr.Bits 15 0
    let cr := instr.Bits 25 23
    let bf := compareBits (decide (ra_val < im_val)) (decide (ra_val > im_val))
      (decide (ra_val = im_val))
    .ok (setConditionField s cr bf)
  else if op = CMPI then
    let ra := instr.RAValue
    let ra_val := get_register s ra
    let im_val := signExtend16 (instr.Bits 15 0)
    let cr := instr.Bits 25 23
    let bf := compareBits (decide (toInt32 ra_val < toInt32 im_val))
      (decide (toInt32 ra_val > toInt32 im_val)) (decide (toInt32 ra_val = toInt32 im_val))
    .ok (setConditionField s cr bf)
  else if op = ADDIC then
    let rt := instr.RTValue
    let ra := instr.RAValue
    let ra_val := get_register s ra
    let im_val := signExtend16 (instr.Bits 15 0)
    .ok (set_register s rt (add32 ra_val im_val))
  else if op = ADDICx ∨ op = ADDI then
    let rt := instr.RTValue
    let ra := instr.RAValue
    let im_val := signExtend16 (instr.Bits 15 0)
    let alu_out := if ra = 0 then im_val else add32 (get_register s ra) im_val
    .ok (set_register s rt alu_out)
  else if op = ADDIS then
    let rt := instr.RTValue
    let ra := instr.RAValue
    let im_val := shl32 (instr.Bits 15 0) 16
    let alu_out := if ra = 0 then im_val else add32 (get_register s ra) im_val
    .ok (set_register s rt alu_out)
  else if op = BCX then case_BCX s instr
  else if op = SC ∨ op = BX then
    let offset := asr32 (shl32 (instr.Bits 25 2) 8) 6
    let s1 := if instr.Bit 0 = 1 then { s with special_reg_lr_ := add32 (get_pc s) 4 } else s
    .ok (set_pc s1 (add32 (get_pc s1) offset))
  else if op = EXT1 then DecodeExt1 s instr
  else if op = RLWIMIX then .ok (case_RLWIMIX s instr)
  else if op = RLWINMX then .ok (case_RLWINMX s instr)
  else if op = RLWNMX ∨ op = ORI then .ok (case_ORI s instr)
  else if op = ORIS ∨ op = XORI ∨ op = XORIS ∨ op = ANDIx then .ok (case_ANDIx s instr)
  else if op = ANDISx ∨ op = EXT2 then DecodeExt2 s instr
  else if op = LWZ then
    let rt := instr.RTValue
    let offset := effectiveAddress s instr
    .ok (set_register s rt (ReadW s offset))
  else if op = LWZU then
    let ra := instr.RAValue
    let rt := instr.RTValue
    let offset := effectiveAddress s instr
    let s1 := if ra ≠ 0 then set_register s ra offset else s
    .ok (set_register s1 rt (ReadW s1 offset))
  else if op = LBZ then
    let rt := instr.RTValue
    let offset := effectiveAddress s instr
    .ok (set_register s rt (ReadB s offset &&& 255))
  else if op = LBZU ∨ op = STW then
    let rs := instr.RSValue
    let rs_val := get_register s rs
    let offset := effectiveAddress s instr
    .ok (WriteW s offset rs_val)
  else if op = STWU then
    let ra := instr.RAValue
    let rs := instr.RSValue
    let rs_val := get_register s rs
    let offset := effectiveAddress s instr
    let s1 := if ra ≠ 0 then set_register s ra offset else s
    .ok (WriteW s1 offset rs_val)
  else if op = STB then
    let rs := instr.RSValue
    let rs_val := get_register s rs
    let offset := effectiveAddress s instr
    .ok (WriteB s offset rs_val)
  else if op = STBU ∨ op = LHZ then
    let rt := instr.RTValue
    let offset := effectiveAddress s instr
    .ok (set_register s rt (ReadH s offset))
  else if op = LHZU ∨ op = LHA ∨ op = LHAU ∨ op = STH then
    let rs := instr.RSValue
    let rs_val := get_register s rs
    let offset := effectiveAddress s instr
    .ok (WriteH s offset rs_val)
  else if op = STHU ∨ op = LMW ∨ op = STMW ∨ op = LFS ∨ op = LFSU ∨ op = LFD then
    let frt := instr.RTValue
    let ra := instr.RAValue
    let offset := signExtend16 (instr.Bits 15 0)
    let ra_val := get_register s ra
    .ok (set_d_register_from_double s frt (ReadDW s (add32 ra_val offset)))
  else if op = LFDU ∨ op = STFS ∨ op = STFSU ∨ op = STFD then
    let frt := instr.RTValue
    let ra := instr.RAValue
    let offset := signExtend16 (instr.Bits 15 0)
    let ra_val := get_register s ra
    let frt_val := get_double_from_d_register s frt
    .ok (WriteDW s (add32 ra_val offset) (frt_val % 4294967296) (frt_val / 4294967296))
  else if op = STFDU ∨ op = EXT3 ∨ op = EXT4 then DecodeExt4 s instr
  else .error .unimplemented

/-- The part of `Simulator::InstructionDecode` before the final test of the
pc-modified latch: the optional I-cache check, clearing the latch, and the
executor.  (The trace line of `FLAG_trace_sim` has no effect on the state.) -/
def InstructionDecode_execute (s : Simulator) (instr : Instruction) : Except Halt Simulator :=
  match (if s.flags.check_icache then CheckICache s instr else .ok s) with
  | .error e => .error e
  | .ok s0 => InstructionDecode_switch { s0 with pc_modified_ := false } instr

/-- `Simulator::InstructionDecode`: executes the instruction `instr`; when the
executor did not write the PC, the PC is set to the address of `instr` plus
`kInstrSize`. -/
def InstructionDecode (s : Simulator) (instr : Instruction) : Except Halt Simulator :=
  match InstructionDecode_execute s instr with
  | .error e => .error e
  | .ok s2 =>
    if !s2.pc_modified_ then .ok (set_register s2 pc (add32 instr.addr Instruction.kInstrSize))
    else .ok s2

/-- The `Instruction*` made from a program counter value: the address and the
word host memory holds there. -/
def fetch (s : Simulator) (program_counter : Nat) : Instruction :=
  { addr := program_counter, bits := ReadW s program_counter }

/-- `Simulator::Execute`: run until the PC equals `end_sim_pc`; `fuel` bounds
the number of loop iterations.  With `FLAG_stop_sim_at` set, reaching that
instruction count hands control to the debugger. -/
def Execute (fuel : Nat) (s : Simulator) : Except Halt Simulator :=
  let program_counter := get_pc s
  if program_counter = end_sim_pc then .ok s
  else
    match fuel with
    | 0 => .error .out_of_fuel
    | fuel + 1 =>
      let instr := fetch s program_counter
      let s1 := { s with icount_ := add32 s.icount_ 1 }
      if s.flags.stop_sim_at ≠ 0 ∧ s1.icount_ = s.flags.stop_sim_at then
        .error (.debugger s1)
      else
        match InstructionDecode s1 instr with
        | .error e => .error e
        | .ok s2 => Execute fuel s2

/-! ## Top-level entry `Call` -/

/-- The registers `Call` records, overwrites with the canary, checks and
restores, in source order: r14, r16..r19, r21, r23..r30 and fp.  The lines for
r15, r20 and r22 are commented out in the source. -/
def calleeSavedRegisters : List Nat :=
  [14, 16, 17, 18, 19, 21, 23, 24, 25, 26, 27, 28, 29, 30, fp]

/-- The loop `for (int i = 4; i < argument_count; i++)
stack_argument[i - 4] = va_arg(parameters, int32_t)`; five variadic slots
have been consumed before it, so iteration `k` stores slot `5 + k`. -/
def storeStackArguments (s : Simulator) (entry_stack : Nat) (parameters : Nat → Nat)
    (count : Nat) : Simulator :=
  (List.range count).foldl
    (fun st k => WriteW st (add32 entry_stack (4 * k)) (parameters (5 + k))) s

/-- What `Call` keeps in locals across `Execute`. -/
structure CallFrame where
  original_stack : Nat
  entry_stack : Nat
  callee_saved_value : Nat
  saved : List Nat

/-- The state changes `Simulator::Call` makes before it calls `Execute`:
argument seeding, the end-of-simulation marker in LR, and the canary in the
callee-saved registers; together with the locals it keeps.  `parameters k` is
what the `k`-th `va_arg` yields. -/
def Call_setup (s : Simulator) (entry argument_count : Nat) (parameters : Nat → Nat) :
    CallFrame × Simulator :=
  let s := set_register s 3 (parameters 0)
  let s := set_register s 4 (parameters 1)
  let s := set_register s 5 (parameters 2)
  let s := set_register s 6 (parameters 3)
  let s := set_register s 7 (parameters 4)
  let original_stack := get_register s sp
  let entry_stack := sub32 (sub32 original_stack (mul32 (sub32 argument_count 4) 4)) 8
  let entry_stack :=
    if s.flags.ActivationFrameAlignment ≠ 0 then
      entry_stack &&& ofInt32 (-(s.flags.ActivationFrameAlignment : Int))
    else entry_stack
  let s := storeStackArguments s entry_stack parameters (argument_count - 4)
  let s := set_register s sp entry_stack
  let s := set_register s pc entry
  let s := { s with special_reg_lr_ := end_sim_pc }
  let saved := calleeSavedRegisters.map (get_register s)
  let callee_saved_value := s.icount_
  let s := calleeSavedRegisters.foldl (fun st r => set_register st r callee_saved_value) s
  ({ original_stack := original_stack, entry_stack := entry_stack,
     callee_saved_value := callee_saved_value, saved := saved }, s)

/-- `Simulator::Call` up to the call of `Execute`: `ASSERT(argument_count >= 5)`,
which only a build with `DEBUG` contains, followed by the set-up. -/
def Call_enter (s : Simulator) (entry argument_count : Nat) (parameters : Nat → Nat) :
    Except Halt (CallFrame × Simulator) :=
  if s.flags.debug = true ∧ ¬ (argument_count ≥ 5) then .error .check_failed
  else .ok (Call_setup s entry argument_count parameters)

/-- `Simulator::Call` after `Execute` has returned: the canary checks, the
restoration of the callee-saved registers and of the stack pointer, and the
result taken from r3. -/
def Call_leave (frame : CallFrame) (s : Simulator) : Except Halt (Nat × Simulator) :=
  if ¬ calleeSavedRegisters.all (fun r => frame.callee_saved_value == get_register s r) then
    .error .check_failed
  else
    let s := (calleeSavedRegisters.zip frame.saved).foldl
      (fun st rv => set_register st rv.1 rv.2) s
    if ¬ (frame.entry_stack = get_register s sp) then .error .check_failed
    else
      let s := set_register s sp frame.original_stack
      .ok (get_register s 3, s)

/-- `Simulator::Call(entry, argument_count, ...)`; `fuel` bounds the iterations
of the `Execute` loop. -/
def Call (fuel : Nat) (s : Simulator) (entry argument_count : Nat) (parameters : Nat → Nat) :
    Except Halt (Nat × Simulator) :=
  match Call_enter s entry argument_count parameters with
  | .error e => .error e
  | .ok (frame, s1) =>
    match Execute fuel s1 with
    | .error e => .error e
    | .ok s2 => Call_leave frame s2

/-- `Simulator::PushAddress`. -/
def PushAddress (s : Simulator) (address : Nat) : Nat × Simulator :=
  let new_sp := sub32 (get_register s sp) 4
  let s := WriteW s new_sp address
  (new_sp, set_register s sp new_sp)

/-- `Simulator::PopAddress`. -/
def PopAddress (s : Simulator) : Nat × Simulator :=
  let current_sp := get_register s sp
  let address := ReadW s current_sp
  (address, set_register s sp (add32 current_sp 4))

/-! ## Observables and example data -/

/-- Bit `i` of the condition register in the Power ISA numbering: bit 0 is the
most significant of the 32 bits.  Field `f` holds LT, GT, EQ, SO in bits
`4f`, `4f+1`, `4f+2`, `4f+3`. -/
def crBit (cr i : Nat) : Bool := cr.testBit (31 - i)

/-- A host whose functions all return zero. -/
def exampleHost : Host :=
  { call := fun _ _ => 0, fadd := fun _ _ => 0, fsub := fun _ _ => 0, fmul := fun _ _ => 0,
    fdiv := fun _ _ => 0, flt := fun _ _ => false, fgt := fun _ _ => false,
    feq := fun _ _ => false, isunordered := fun _ _ => false }

/-- Flags at their defaults: no I-cache check, no stop-at-icount, 8-byte
stack and frame alignment, in a release build. -/
def exampleFlags : Flags :=
  { check_icache := false, stop_sim_at := 0, sim_stack_alignment := 8,
    ActivationFrameAlignment := 8, use_eabi_hardfloat := false, debug := false }

/-- Host memory holding the 32-bit words `ws` from address `base` on
(little-endian), zero elsewhere. -/
def memoryWithWords (base : Nat) (ws : List Nat) : Nat → Nat :=
  fun a =>
    if base ≤ a ∧ a < base + 4 * ws.length then
      ws.getD ((a - base) / 4) 0 / 256 ^ ((a - base) % 4) % 256
    else 0

/-- A simulator whose registers are all zero except the stack pointer
(`0x10000`), with the words `ws` placed at address `0x1000`. -/
def exampleState (ws : List Nat) : Simulator :=
  { registers_ := fun r => if r = sp then 65536 else 0
    pc_modified_ := false
    icount_ := 0
    condition_reg_ := 0
    special_reg_lr_ := 0
    special_reg_ctr_ := 0
    special_reg_xer_ := 0
    fp_register := fun _ => 0
    vfp_register := fun _ => 0
    watched_stops := fun _ => { count := 0, desc := 0 }
    stack_ := 0
    i_cache := fun _ => none
    mem := memoryWithWords 4096 ws
    flags := exampleFlags
    host := exampleHost }

/-- The example state in a build with `DEBUG`, in which `ASSERT` is active. -/
def exampleDebugState (ws : List Nat) : Simulator :=
  { exampleState ws with flags := { exampleFlags with debug := true } }

/-- The instructions the specification names as examples of executors that do
not write the PC, recognised by their fields: ADDI (major 14), ADD (major 31,
bits 10..1 equal to 266), CMPI (major 11), LWZ (major 32) and STW (major 36);
for those that write a general register the target is not the PC slot. -/
def isExampleNonBranch (instr : Instruction) : Prop :=
  (instr.OpcodeValue = 14 ∧ instr.RTValue ≠ pc) ∨
  (instr.OpcodeValue = 31 ∧ instr.Bits 10 1 = 266 ∧ instr.RTValue ≠ pc) ∨
  instr.OpcodeValue = 11 ∨
  (instr.OpcodeValue = 32 ∧ instr.RTValue ≠ pc) ∨
  instr.OpcodeValue = 36

/-- The validity byte of the cache line that holds address `a`, looked up the
way `CheckICache` does; `none` when the page of `a` is not in the cache. -/
def lineValidity (i_cache : Nat → Option CachePage) (a : Nat) : Option Nat :=
  match i_cache (a &&& not32 CachePage.kPageMask) with
  | some cache_page =>
    some (cache_page.validity_map_ (CachePage.ValidityByte (a &&& CachePage.kPageMask)))
  | none => none

/-- The cached copy of the byte at address `a`: the byte that `CachedData` holds
for `a` in the page of `a`; `none` when that page is not in the cache. -/
def cachedByte (i_cache : Nat → Option CachePage) (a : Nat) : Option Nat :=
  match i_cache (a &&& not32 CachePage.kPageMask) with
  | some cache_page => some (cache_page.data_ (a &&& CachePage.kPageMask) % 256)
  | none => none

/-- An example state whose I-cache holds one page, at `0x1000`, with every
line VALID and every cached byte equal to 7; memory is zero. -/
def exampleStaleCache : Simulator :=
  { exampleState [] with
    i_cache := (fun p =>
      if p = 4096 then
        some { data_ := fun _ => 7, validity_map_ := fun _ => CachePage.LINE_VALID }
      else none) }

/-- Modelled from the spec: `rtCallRedirInstr` of `constants-ppc.h` (not under
src/), the instruction the bridge trap is built from: the primary opcode
`TWI`, which `InstructionDecode` hands to `SoftwareInterrupt`. -/
def rtCallRedirInstr : Nat := TWI

/-- One `Redirection` object: the address it was allocated at and its fields.
The `next_` pointer is the rest of the isolate's list of redirections. -/
structure Redirection where
  address : Nat
  external_function_ : Nat
  swi_instruction_ : Nat
  type_ : Nat

/-- `Redirection::address_of_swi_instruction`. -/
def Redirection.address_of_swi_instruction (redirection : Redirection) : Nat :=
  add32 redirection.address Redirection.kSwiOffset

/-- The pointer `isolate->simulator_redirection()`: the address of the head of
the list, `NULL` when the list is empty. -/
def simulator_redirection_pointer : List Redirection → Nat
  | [] => 0
  | head :: _ => head.address

/-- The `Redirection` constructor for an object allocated at `this`: the four
fields are stored at `this` (function, trap word, type, `next_`), the trap
word is flushed from the I-cache and the object becomes the head of the
isolate's list `simulator_redirection`. -/
def Redirection.new (fuel : Nat) (s : Simulator) (simulator_redirection : List Redirection)
    (this external_function type : Nat) :
    Except Halt (Redirection × List Redirection × Simulator) :=
  let redirection : Redirection :=
    { address := this
      external_function_ := external_function
      swi_instruction_ := rtCallRedirInstr ||| kCallRtRedirected
      type_ := type }
  let next_ := simulator_redirection_pointer simulator_redirection
  let s1 := WriteW s this external_function
  let s2 := WriteW s1 (add32 this 4) redirection.swi_instruction_
  let s3 := WriteW s2 (add32 this 8) type
  let s4 := WriteW s3 (add32 this 12) next_
  match FlushICache fuel s4.i_cache redirection.address_of_swi_instruction
      Instruction.kInstrSize with
  | .error e => .error e
  | .ok i_cache1 =>
    .ok (redirection, redirection :: simulator_redirection, { s4 with i_cache := i_cache1 })

/-- `Redirection::Get`: the first record of the list whose function is
`external_function`, whatever its type; a new record, allocated at `this`,
when there is none. -/
def Redirection.Get (fuel : Nat) (s : Simulator) (simulator_redirection : List Redirection)
    (this external_function type : Nat) :
    Except Halt (Redirection × List Redirection × Simulator) :=
  match simulator_redirection.find?
      (fun current => current.external_function_ == external_function) with
  | some current => .ok (current, simulator_redirection, s)
  | none => Redirection.new fuel s simulator_redirection this external_function type

/-- `Simulator::RedirectExternalReference`: the surrogate address of a host
function, with the list of redirections and the state afterwards. -/
def RedirectExternalReference (fuel : Nat) (s : Simulator)
    (simulator_redirection : List Redirection) (this external_function type : Nat) :
    Except Halt (Nat × List Redirection × Simulator) :=
  match Redirection.Get fuel s simulator_redirection this external_function type with
  | .error e => .error e
  | .ok (redirection, simulator_redirection1, s1) =>
    .ok (redirection.address_of_swi_instruction, simulator_redirection1, s1)

/-- A sequence of `RedirectExternalReference` calls, one for each request
`(this, external_function, type)`; the surrogate addresses are dropped. -/
def redirectAll (fuel : Nat) (s : Simulator) (simulator_redirection : List Redirection) :
    List (Nat × Nat × Nat) → Except Halt (List Redirection × Simulator)
  | [] => .ok (simulator_redirection, s)
  | (this, external_function, type) :: rest =>
    match RedirectExternalReference fuel s simulator_redirection this external_function type with
    | .error e => .error e
    | .ok (_, simulator_redirection1, s1) => redirectAll fuel s1 simulator_redirection1 rest

/-! ## Construction -/

/-- The `Simulator` constructor, for the object `raw` it is run on: the members
it does not assign keep the values of `raw`, as do the host memory, the flags
and the isolate's I-cache.  `stack_` is the address `malloc` returned for the
1 MB stack.  The indices `lr` of the `Register` enumeration and
`num_s_registers` are constants of `simulator-ppc.h` (not under src/) and are
taken as parameters. -/
def Simulator.new (raw : Simulator) (stack_ lr num_s_registers : Nat) : Simulator :=
  let stack_size := 1 * 1024 * 1024
  let registers0 : Nat → Nat := fun i => if i < num_registers then 0 else raw.registers_ i
  let registers1 := Function.update registers0 sp (sub32 (add32 stack_ stack_size) 64)
  let registers2 := Function.update registers1 pc bad_lr
  let registers3 := Function.update registers2 lr bad_lr
  { raw with
    stack_ := stack_
    pc_modified_ := false
    icount_ := 0
    registers_ := registers3
    condition_reg_ := 0
    special_reg_lr_ := 0
    special_reg_ctr_ := 0
    fp_register := (fun i => if i < num_s_registers then 0 else raw.fp_register i) }

/-- An example state whose PC is the bad-address sentinel `bad_lr`; memory is
zero. -/
def exampleBadPcState : Simulator :=
  { exampleState [] with registers_ := (fun r => if r = pc then bad_lr else 0) }

/-- An example state whose PC is the end-of-simulation sentinel. -/
def exampleEndState : Simulator :=
  { exampleState [] with registers_ := (fun r => if r = pc then end_sim_pc else 0) }

/-- An example state about to return from generated code: the PC is `0x1000`,
where memory holds `blr` (`0x4E800020`), and the link register holds
`end_sim_pc`, as `Call` leaves it. -/
def exampleReturnState : Simulator :=
  { exampleState [1317011488] with
    registers_ := (fun r => if r = pc then 4096 else 0)
    special_reg_lr_ := end_sim_pc }

/-- An example state at a call: the PC is `0x1000`, where memory holds
`bl .+16` (`0x48000011`). -/
def exampleBranchState : Simulator :=
  { exampleState [1207959569] with registers_ := (fun r => if r = pc then 4096 else 0) }

/-- A newly constructed simulator whose 1 MB stack was allocated at `0x10000`
(with `lr` = 14 and 32 single-precision registers); memory is zero. -/
def exampleNewSimulator : Simulator := Simulator.new (exampleState []) 65536 14 32

/-- An example state whose stack pointer stands exactly at `StackLimit()`:
the stack buffer is at `0x10000`, the stack pointer at `0x10400`. -/
def exampleFullStackState : Simulator :=
  { exampleState [] with
    stack_ := 65536
    registers_ := (fun r => if r = sp then 66560 else 0) }

/-- An example state at a conditional branch: the PC is `0x1000`, where memory
holds `beq .+8` (`0x41820008`: BO = 12, BI = 2, BD = 2), and CR holds
`0x20000000`, the EQ bit of field 0. -/
def exampleCondBranchState : Simulator :=
  { exampleState [1099038728] with
    registers_ := (fun r => if r = pc then 4096 else 0)
    condition_reg_ := 536870912 }

/-- An example state for compares: r4 = 1, every other register and CR are 0. -/
def exampleCompareState : Simulator :=
  { exampleState [] with registers_ := (fun r => if r = 4 then 1 else 0) }

/-- An example state for carries: r3 = `0xFFFFFFFF` (-1), r4 = 1, XER = 0. -/
def exampleCarryState : Simulator :=
  { exampleState [] with
    registers_ := (fun r => if r = 3 then 4294967295 else if r = 4 then 1 else 0) }

/-- An example state for rotates: r3 = `0x8000`, r4 = `0x80000000`, CR = 0. -/
def exampleRotateState : Simulator :=
  { exampleState [] with
    registers_ := (fun r => if r = 3 then 32768 else if r = 4 then 2147483648 else 0) }

/-- The effective address in the words of the specification:
`(rA == 0 ? 0 : reg[rA]) + sign-extended displacement`, modulo 2^32, for the
D-form instruction `instr`. -/
def effectiveAddress_spec (s : Simulator) (instr : Instruction) : Nat :=
  ofInt32 ((if instr.RAValue = 0 then (0 : Int) else (get_register s instr.RAValue : Int)) +
    (if instr.Bits 15 0 < 32768 then (instr.Bits 15 0 : Int)
      else (instr.Bits 15 0 : Int) - 65536))

/-- An example state for floating loads and stores: r0 = `0x1000`, memory
holds the words `0x11111111`, `0x22222222` at `0x1000` and zero elsewhere, and
the two words of f2 are 7 and 9. -/
def exampleFloatState : Simulator :=
  { exampleState [286331153, 572662306] with
    registers_ := (fun r => if r = 0 then 4096 else 0)
    fp_register := (fun i => if i = 4 then 7 else if i = 5 then 9 else 0) }

/-- What a record form leaves in CR, given the CR before (`old`), the CR after
(`new`) and the 32-bit result: the bits of fields 1 to 7 are those of `old`,
and in field 0 LT, GT, EQ tell the signed comparison of `result` against zero,
exactly one of them being set. -/
def recordedInCR0 (old new result : Nat) : Prop :=
  (∀ i, 4 ≤ i → i ≤ 31 → crBit new i = crBit old i) ∧
  crBit new 0 = decide (toInt32 result < 0) ∧
  crBit new 1 = decide (toInt32 result > 0) ∧
  crBit new 2 = decide (toInt32 result = 0) ∧
  (crBit new 0).toNat + (crBit new 1).toNat + (crBit new 2).toNat = 1

/-- An example state at a disabled stop: the PC is `0x1000`, where memory
holds the stop word `0x0C800005` (TWI, stop code 5) followed by a message
word, and the counter of stop 5 is 3 with the disabled bit set. -/
def exampleDisabledStopState : Simulator :=
  { exampleState [209715205, 0] with
    registers_ := (fun r => if r = pc then 4096 else if r = 3 then 77 else 0)
    watched_stops := (fun c => if c = 5 then { count := 2147483651, desc := 0 }
      else { count := 0, desc := 0 }) }

/-- The page of the cache as `GetCachePage` presents it: the stored page, or a
new page (every line INVALID) when none is stored yet. -/
def cachePageView (i_cache : Nat → Option CachePage) (page : Nat) : CachePage :=
  (GetCachePage i_cache page).2

/-- What a flush of the lines in `[lo, hi)` may change between the caches `c`
and `c'`: no page disappears, no cached data byte changes, and the validity
byte of a line (entry `idx` of the page at address `page`, covering address
`page + 4 * idx`) outside `[lo, hi)` is kept. -/
def flushFrame (c c' : Nat → Option CachePage) (lo hi : Nat) : Prop :=
  (∀ page, c page ≠ none → c' page ≠ none) ∧
  (∀ page, (cachePageView c' page).data_ = (cachePageView c page).data_) ∧
  (∀ page idx, ¬ (lo ≤ page + 4 * idx ∧ page + 4 * idx < hi) →
    (cachePageView c' page).validity_map_ idx = (cachePageView c page).validity_map_ idx)

/-- An example state for the wrapped mask: r4 = `0x10000000`. -/
def exampleWrapMaskState : Simulator :=
  { exampleState [] with registers_ := (fun r => if r = 4 then 268435456 else 0) }

/-- An example state for halfword loads: memory holds the halfword `0x8000` at
`0x1000`; every register is 0. -/
def exampleHalfwordState : Simulator :=
  { exampleState [32768] with registers_ := (fun _ => 0) }

/-- An example state for shifts: r4 = `0xFFFFFFFF` (-1), XER = 0. -/
def exampleShiftState : Simulator :=
  { exampleState [] with registers_ := (fun r => if r = 4 then 4294967295 else 0) }

/-- An example state for CR logic: CR = `0x02000000`, which is CR bit 6. -/
def exampleCrBitState : Simulator :=
  { exampleState [] with condition_reg_ := 33554432 }

/-- The variadic arguments of an example `Call` with five arguments 0, 1, 2, 3,
4: what the `k`-th `va_arg` yields; a sixth `va_arg`, past the arguments
passed, yields `0xDEAD`. -/
def exampleParameters : Nat → Nat := fun k => if k = 5 then 57005 else k

/-- An example redirection record: host function `12345` registered with call
type 1 at address `0x2000`. -/
def exampleRedirection : Redirection :=
  { address := 8192
    external_function_ := 12345
    swi_instruction_ := rtCallRedirInstr ||| kCallRtRedirected
    type_ := 1 }

/-- An example state for a base register in the PC slot: the PC is `0x1000`,
r5 = `0xDEADBEEF`, memory is zero. -/
def exampleBaseR15State : Simulator :=
  { exampleState [] with
    registers_ := (fun r => if r = pc then 4096 else if r = 5 then 3735928559 else 0) }

/-- An example state for an add into the PC slot: the PC is `0x1000`,
r3 = `0x7FFFFFF8`, r4 = 0. -/
def exampleAddR15State : Simulator :=
  { exampleState [] with
    registers_ := (fun r => if r = pc then 4096 else if r = 3 then 2147483640 else 0) }

/-- An example state for a store followed by a load: r4 = `0x2000`,
r5 = `0xDEADBEEF`. -/
def exampleStoreState : Simulator :=
  { exampleState [] with
    registers_ := (fun r => if r = 4 then 8192 else if r = 5 then 3735928559 else 0) }

/-! ## Basic facts about the embedding -/

theorem Bits_le (instr : Instruction) (hi lo : Nat) :
    instr.Bits hi lo ≤ (2 <<< (hi - lo)) - 1 := Nat.and_le_right

theorem RTValue_lt (instr : Instruction) : instr.RTValue < 32 := by
  have h := Bits_le instr 25 21
  simp at h
  unfold Instruction.RTValue
  omega

theorem RAValue_lt (instr : Instruction) : instr.RAValue < 32 := by
  have h := Bits_le instr 20 16
  simp at h
  unfold Instruction.RAValue
  omega

theorem RBValue_lt (instr : Instruction) : instr.RBValue < 32 := by
  have h := Bits_le instr 15 11
  simp at h
  unfold Instruction.RBValue
  omega

theorem get_pc_set_register_pc (s : Simulator) (v : Nat) :
    get_pc (set_register s pc v) = v := by
  simp [get_pc, set_register]

theorem get_register_set_register_ne (s : Simulator) (r r' v : Nat) (h : r' ≠ r) :
    get_register (set_register s r v) r' = get_register s r' := by
  simp [get_register, set_register, Function.update, h]

theorem get_register_set_register_self (s : Simulator) (r v : Nat) (h : r < 32)
    (hpc : r ≠ pc) : get_register (set_register s r v) r = v := by
  simp [get_register, set_register, num_registers, hpc]
  omega

/-! ## C1: the PC advances by four -/

theorem InstructionDecode_of_latch_clear (s : Simulator) (instr : Instruction) (s2 : Simulator)
    (h1 : InstructionDecode_execute s instr = .ok s2) (h2 : s2.pc_modified_ = false) :
    InstructionDecode s instr = .ok (set_register s2 pc (add32 instr.addr Instruction.kInstrSize)) := by
  simp [InstructionDecode, h1, h2]

theorem InstructionDecode_execute_no_icache (s : Simulator) (instr : Instruction)
    (hic : s.flags.check_icache = false) :
    InstructionDecode_execute s instr =
      InstructionDecode_switch { s with pc_modified_ := false } instr := by
  simp [InstructionDecode_execute, hic]

theorem switch_ADDI (s : Simulator) (instr : Instruction) (h : instr.OpcodeValue = 14) :
    InstructionDecode_switch s instr =
      .ok (set_register s instr.RTValue
        (if instr.RAValue = 0 then signExtend16 (instr.Bits 15 0)
         else add32 (get_register s instr.RAValue) (signExtend16 (instr.Bits 15 0)))) := by
  simp [InstructionDecode_switch, h, TWI, MULLI, SUBFIC, CMPLI, CMPI, ADDIC, ADDICx, ADDI]

theorem switch_CMPI (s : Simulator) (instr : Instruction) (h : instr.OpcodeValue = 11) :
    InstructionDecode_switch s instr =
      .ok (setConditionField s (instr.Bits 25 23)
        (compareBits
          (decide (toInt32 (get_register s instr.RAValue) < toInt32 (signExtend16 (instr.Bits 15 0))))
          (decide (toInt32 (get_register s instr.RAValue) > toInt32 (signExtend16 (instr.Bits 15 0))))
          (decide (toInt32 (get_register s instr.RAValue) = toInt32 (signExtend16 (instr.Bits 15 0)))))) := by
  simp [InstructionDecode_switch, h, TWI, MULLI, SUBFIC, CMPLI, CMPI]

theorem switch_EXT2 (s : Simulator) (instr : Instruction) (h : instr.OpcodeValue = 31) :
    InstructionDecode_switch s instr = DecodeExt2 s instr := by
  simp [InstructionDecode_switch, h, TWI, MULLI, SUBFIC, CMPLI, CMPI, ADDIC, ADDICx, ADDI,
    ADDIS, BCX, SC, BX, EXT1, RLWIMIX, RLWINMX, RLWNMX, ORI, ORIS, XORI, XORIS, ANDIx,
    ANDISx, EXT2]

theorem Bits_9_1_eq (instr : Instruction) : instr.Bits 9 1 = instr.Bits 10 1 % 512 := by
  have h9 := Nat.and_pow_two_sub_one_eq_mod (instr.bits >>> 1) 9
  have h10 := Nat.and_pow_two_sub_one_eq_mod (instr.bits >>> 1) 10
  simp only [Nat.reducePow, Nat.reduceSub] at h9 h10
  simp only [Instruction.Bits, Nat.reduceSub, Nat.reduceShiftLeft]
  rw [h9, h10]
  omega

theorem DecodeExt2_ADDX (s : Simulator) (instr : Instruction) (h10 : instr.Bits 10 1 = 266) :
    DecodeExt2 s instr =
      .ok (set_register s instr.RTValue
        (add32 (get_register s instr.RAValue) (get_register s instr.RBValue))) := by
  have h9 : instr.Bits 9 1 = 266 := by rw [Bits_9_1_eq, h10]
  simp [DecodeExt2, h10, h9, SRWX, SRAW, SRAWIX, CMP, SUBFCX, ADDCX, SLWX, ANDX, CMPL, SUBFX,
    ADDZEX, MULLW, ADDX]

theorem switch_LWZ (s : Simulator) (instr : Instruction) (h : instr.OpcodeValue = 32) :
    InstructionDecode_switch s instr =
      .ok (set_register s instr.RTValue (ReadW s (effectiveAddress s instr))) := by
  simp [InstructionDecode_switch, h, TWI, MULLI, SUBFIC, CMPLI, CMPI, ADDIC, ADDICx, ADDI,
    ADDIS, BCX, SC, BX, EXT1, RLWIMIX, RLWINMX, RLWNMX, ORI, ORIS, XORI, XORIS, ANDIx,
    ANDISx, EXT2, LWZ]

theorem switch_STW (s : Simulator) (instr : Instruction) (h : instr.OpcodeValue = 36) :
    InstructionDecode_switch s instr =
      .ok (WriteW s (effectiveAddress s instr) (get_register s instr.RSValue)) := by
  simp [InstructionDecode_switch, h, TWI, MULLI, SUBFIC, CMPLI, CMPI, ADDIC, ADDICx, ADDI,
    ADDIS, BCX, SC, BX, EXT1, RLWIMIX, RLWINMX, RLWNMX, ORI, ORIS, XORI, XORIS, ANDIx,
    ANDISx, EXT2, LWZ, LWZU, LBZ, LBZU, STW]

/-- C1: when the executor of an instruction completes with the pc-modified
latch still clear (no `set_pc` / `set_register(pc)` call), `InstructionDecode`
leaves the PC at the address of the instruction plus 4; when the latch is set
the final step leaves the executor's state alone; ADDI, ADD, CMPI, LWZ and STW
(with a target other than the PC slot) are such instructions; and both ways of
writing the PC, `set_pc` and `set_register(pc)`, set the latch. -/
theorem C1_pc_advances_by_four (s : Simulator) (instr : Instruction) :
    (∀ s2, InstructionDecode_execute s instr = .ok s2 → s2.pc_modified_ = false →
      ∃ s', InstructionDecode s instr = .ok s' ∧ get_pc s' = add32 instr.addr 4) ∧
    (∀ s2, InstructionDecode_execute s instr = .ok s2 → s2.pc_modified_ = true →
      InstructionDecode s instr = .ok s2) ∧
    (s.flags.check_icache = false → isExampleNonBranch instr →
      ∃ s', InstructionDecode s instr = .ok s' ∧ get_pc s' = add32 instr.addr 4) ∧
    (∀ (t : Simulator) (v : Nat),
      (set_pc t v).pc_modified_ = true ∧ (set_register t pc v).pc_modified_ = true) := by
  have key : ∀ s2, InstructionDecode_execute s instr = .ok s2 → s2.pc_modified_ = false →
      ∃ s', InstructionDecode s instr = .ok s' ∧ get_pc s' = add32 instr.addr 4 := by
    intro s2 h1 h2
    exact ⟨_, InstructionDecode_of_latch_clear s instr s2 h1 h2, get_pc_set_register_pc _ _⟩
  refine ⟨key, ?_, ?_, fun t v => ⟨rfl, by simp [set_register]⟩⟩
  · intro s2 h1 h2
    simp [InstructionDecode, h1, h2]
  · intro hic hex
    rw [InstructionDecode_execute_no_icache s instr hic] at key
    rcases hex with ⟨h, hrt⟩ | ⟨h, h10, hrt⟩ | h | ⟨h, hrt⟩ | h
    · exact key _ (switch_ADDI _ _ h) (by simp [set_register, hrt])
    · exact key _ ((switch_EXT2 _ _ h).trans (DecodeExt2_ADDX _ _ h10))
        (by simp [set_register, hrt])
    · exact key _ (switch_CMPI _ _ h) (by simp [setConditionField])
    · exact key _ (switch_LWZ _ _ h) (by simp [set_register, hrt])
    · exact key _ (switch_STW _ _ h) (by simp [WriteW, Simulator.setByte])

/-- C1 at a concrete input: `li r3, 42` fetched from address 0x1000. -/
theorem C1_witness :
    ∃ s', InstructionDecode (exampleState [945815594]) ⟨4096, 945815594⟩ = .ok s' ∧
      get_pc s' = add32 4096 4 :=
  (C1_pc_advances_by_four (exampleState [945815594]) ⟨4096, 945815594⟩).2.2.1 rfl
    (Or.inl ⟨by decide, by decide⟩)

/-! ## C2: add followed by cmpwi -/

theorem asr32_zero (x : Nat) (h : x < 4294967296) : asr32 x 0 = x := by
  unfold asr32 ofInt32 toInt32
  rw [Int.shiftRight_eq_div_pow]
  split <;> simp <;> omega

theorem signExtend16_zero : signExtend16 0 = 0 := by decide

theorem toInt32_zero : toInt32 0 = 0 := by decide

theorem compareBits_lt (lt gt eq : Bool) : compareBits lt gt eq < 4294967296 := by
  cases lt <;> cases gt <;> cases eq <;> decide

theorem crBit_field0 (c : Nat) (lt gt eq : Bool) :
    crBit ((c &&& not32 (lsr32 4026531840 (0 * 4))) ||| asr32 (compareBits lt gt eq) (0 * 4)) 0 = lt ∧
    crBit ((c &&& not32 (lsr32 4026531840 (0 * 4))) ||| asr32 (compareBits lt gt eq) (0 * 4)) 1 = gt ∧
    crBit ((c &&& not32 (lsr32 4026531840 (0 * 4))) ||| asr32 (compareBits lt gt eq) (0 * 4)) 2 = eq := by
  have hm : not32 (lsr32 4026531840 (0 * 4)) = 268435455 := by decide
  rw [hm, Nat.zero_mul, asr32_zero _ (compareBits_lt lt gt eq)]
  have h31 : Nat.testBit 268435455 31 = false := by decide
  have h30 : Nat.testBit 268435455 30 = false := by decide
  have h29 : Nat.testBit 268435455 29 = false := by decide
  simp only [crBit, Nat.testBit_or, Nat.testBit_and, h31, h30, h29, Bool.and_false,
    Bool.false_or]
  cases lt <;> cases gt <;> cases eq <;> decide

/-- C2 as amended: for all values A and B held in rA and rB and every rT
other than r15, which the simulator uses as the PC, after `add rT,rA,rB`
(ADDX) followed by `cmpwi rT,0` (CMPI with BF = 0, SI = 0) both instructions
complete, rT holds `(A + B) mod 2^32`, and CR field 0 has exactly one of LT,
GT, EQ set, the one matching the signed ordering of that sum against zero. -/
theorem C2_add_cmpwi_sets_CR0 (s : Simulator) (add cmp : Instruction) (A B : Nat)
    (hic : s.flags.check_icache = false)
    (hadd : add.OpcodeValue = 31) (hxo : add.Bits 10 1 = 266)
    (hcmp : cmp.OpcodeValue = 11) (hbf : cmp.Bits 25 23 = 0) (hsi : cmp.Bits 15 0 = 0)
    (hra : cmp.RAValue = add.RTValue) (hrt : add.RTValue ≠ pc)
    (hAv : get_register s add.RAValue = A) (hBv : get_register s add.RBValue = B) :
    ∃ s1 s2, InstructionDecode s add = .ok s1 ∧ InstructionDecode s1 cmp = .ok s2 ∧
      get_register s1 add.RTValue = (A + B) % 4294967296 ∧
      crBit s2.condition_reg_ 0 = decide (toInt32 ((A + B) % 4294967296) < 0) ∧
      crBit s2.condition_reg_ 1 = decide (toInt32 ((A + B) % 4294967296) > 0) ∧
      crBit s2.condition_reg_ 2 = decide (toInt32 ((A + B) % 4294967296) = 0) ∧
      (crBit s2.condition_reg_ 0).toNat + (crBit s2.condition_reg_ 1).toNat
        + (crBit s2.condition_reg_ 2).toNat = 1 := by
  have hAv' : get_register { s with pc_modified_ := false } add.RAValue = A := by
    rw [← hAv]; rfl
  have hBv' : get_register { s with pc_modified_ := false } add.RBValue = B := by
    rw [← hBv]; rfl
  have hrtlt := RTValue_lt add
  -- the add
  have e1 : InstructionDecode_execute s add =
      .ok (set_register { s with pc_modified_ := false } add.RTValue (add32 A B)) := by
    rw [InstructionDecode_execute_no_icache s add hic, switch_EXT2 _ _ hadd,
      DecodeExt2_ADDX _ _ hxo, hAv', hBv']
  have d1 := InstructionDecode_of_latch_clear s add _ e1 (by simp [set_register, hrt])
  generalize hs1 : set_register (set_register { s with pc_modified_ := false } add.RTValue
    (add32 A B)) pc (add32 add.addr Instruction.kInstrSize) = s1 at d1
  have hval : get_register s1 add.RTValue = add32 A B := by
    rw [← hs1, get_register_set_register_ne _ _ _ _ hrt,
      get_register_set_register_self _ _ _ hrtlt hrt]
  have hval' : get_register { s1 with pc_modified_ := false } cmp.RAValue = add32 A B := by
    rw [hra, ← hval]; rfl
  have hic1 : s1.flags.check_icache = false := by simp [← hs1, set_register, hic]
  have e2 : InstructionDecode_execute s1 cmp =
      .ok (setConditionField { s1 with pc_modified_ := false } 0
      (compareBits (decide (toInt32 (add32 A B) < 0)) (decide (toInt32 (add32 A B) > 0))
        (decide (toInt32 (add32 A B) = 0)))) := by
    rw [InstructionDecode_execute_no_icache s1 cmp hic1, switch_CMPI _ _ hcmp, hval', hbf, hsi,
      signExtend16_zero, toInt32_zero]
  have d2 := InstructionDecode_of_latch_clear s1 cmp _ e2 (by simp [setConditionField])
  refine ⟨s1, _, d1, d2, hval, ?_⟩
  have hb := crBit_field0 s1.condition_reg_ (decide (toInt32 (add32 A B) < 0))
    (decide (toInt32 (add32 A B) > 0)) (decide (toInt32 (add32 A B) = 0))
  have hcr : (set_register (setConditionField { s1 with pc_modified_ := false } 0
      (compareBits (decide (toInt32 (add32 A B) < 0)) (decide (toInt32 (add32 A B) > 0))
        (decide (toInt32 (add32 A B) = 0)))) pc (add32 cmp.addr Instruction.kInstrSize)).condition_reg_
      = (s1.condition_reg_ &&& not32 (lsr32 4026531840 (0 * 4))) |||
        asr32 (compareBits (decide (toInt32 (add32 A B) < 0)) (decide (toInt32 (add32 A B) > 0))
        (decide (toInt32 (add32 A B) = 0))) (0 * 4) := rfl
  rw [hcr, hb.1, hb.2.1, hb.2.2]
  refine ⟨rfl, rfl, rfl, ?_⟩
  unfold add32
  rcases lt_trichotomy (toInt32 ((A + B) % 4294967296)) 0 with h | h | h
  · have h1 : ¬ toInt32 ((A + B) % 4294967296) > 0 := by omega
    have h2 : ¬ toInt32 ((A + B) % 4294967296) = 0 := by omega
    simp [h, h1, h2]
  · have h1 : ¬ toInt32 ((A + B) % 4294967296) > 0 := by omega
    have h2 : ¬ toInt32 ((A + B) % 4294967296) < 0 := by omega
    simp [h, h1, h2]
  · have h1 : ¬ toInt32 ((A + B) % 4294967296) < 0 := by omega
    have h2 : ¬ toInt32 ((A + B) % 4294967296) = 0 := by omega
    simp [h, h1, h2]

/-- C2 as amended, at a concrete input: `add r5,r3,r4` (0x7CA32214) with r3 = -1, r4 = 5,
then `cmpwi r5,0` (0x2C050000). -/
theorem C2_witness :
    ∃ s1 s2, InstructionDecode
        { exampleState [] with registers_ := fun r => if r = 3 then 4294967295 else if r = 4 then 5 else 0 }
        ⟨4096, 2091065876⟩ = .ok s1 ∧
      InstructionDecode s1 ⟨4100, 738525184⟩ = .ok s2 ∧
      get_register s1 (Instruction.RTValue ⟨4096, 2091065876⟩) = (4294967295 + 5) % 4294967296 ∧
      crBit s2.condition_reg_ 0 = decide (toInt32 ((4294967295 + 5) % 4294967296) < 0) ∧
      crBit s2.condition_reg_ 1 = decide (toInt32 ((4294967295 + 5) % 4294967296) > 0) ∧
      crBit s2.condition_reg_ 2 = decide (toInt32 ((4294967295 + 5) % 4294967296) = 0) ∧
      (crBit s2.condition_reg_ 0).toNat + (crBit s2.condition_reg_ 1).toNat
        + (crBit s2.condition_reg_ 2).toNat = 1 :=
  C2_add_cmpwi_sets_CR0 _ ⟨4096, 2091065876⟩ ⟨4100, 738525184⟩ 4294967295 5
    rfl (by decide) (by decide) (by decide) (by decide) (by decide)
    (by decide) (by decide) (by decide) (by decide)

/-! ## C4: store/load round trip (lemmas) -/

theorem ReadW_WriteW (s : Simulator) (addr v : Nat) (hv : v < 4294967296) :
    ReadW (WriteW s addr v) addr = v := by
  have h1 : ¬ (addr + 1) % 4294967296 = addr % 4294967296 := by omega
  have h2 : ¬ (addr + 2) % 4294967296 = addr % 4294967296 := by omega
  have h3 : ¬ (addr + 3) % 4294967296 = addr % 4294967296 := by omega
  have h4 : ¬ (addr + 2) % 4294967296 = (addr + 1) % 4294967296 := by omega
  have h5 : ¬ (addr + 3) % 4294967296 = (addr + 1) % 4294967296 := by omega
  have h6 : ¬ (addr + 3) % 4294967296 = (addr + 2) % 4294967296 := by omega
  have h1' : ¬ addr % 4294967296 = (addr + 1) % 4294967296 := by omega
  have h2' : ¬ addr % 4294967296 = (addr + 2) % 4294967296 := by omega
  have h3' : ¬ addr % 4294967296 = (addr + 3) % 4294967296 := by omega
  have h4' : ¬ (addr + 1) % 4294967296 = (addr + 2) % 4294967296 := by omega
  have h5' : ¬ (addr + 1) % 4294967296 = (addr + 3) % 4294967296 := by omega
  have h6' : ¬ (addr + 2) % 4294967296 = (addr + 3) % 4294967296 := by omega
  simp [ReadW, WriteW, Simulator.byteAt, Simulator.setByte, Function.update, h1, h2, h3, h4, h5,
    h6, h1', h2', h3', h4', h5', h6']
  omega

theorem effectiveAddress_zero_disp (s : Simulator) (instr : Instruction)
    (hd : instr.Bits 15 0 = 0) (hra : instr.RAValue ≠ 0) :
    effectiveAddress s instr = get_register s instr.RAValue % 4294967296 := by
  simp [effectiveAddress, hd, hra, signExtend16_zero, add32]

/-! ## C5: the canonical NOP -/

/-- C5, the code at the failing input: with r0 = 5, executing the canonical
NOP `ori 0,0,0` (0x60000000) retires and leaves r0 = 0.  The `ORI` case has no
`break` and runs into the `ANDIx` body, which stores `r0 & 0` into r0. -/
theorem C5_nop_clobbers_r0 :
    get_register { exampleState [] with registers_ := fun r => if r = 0 then 5 else 0 } 0 = 5 ∧
    ∃ s', InstructionDecode
        { exampleState [] with registers_ := fun r => if r = 0 then 5 else 0 }
        ⟨4096, 1610612736⟩ = .ok s' ∧
      get_register s' 0 = 0 :=
  ⟨by decide, _, rfl, by decide⟩

/-! ## C6, C7: watched-stop counters -/

theorem testBit_bit31 (i : Nat) : Nat.testBit 2147483648 i = decide (31 = i) := by
  have h := @Nat.testBit_two_pow 31 i
  simpa using h

theorem testBit_mask31 (i : Nat) : Nat.testBit 2147483647 i = decide (i < 31) := by
  have h := Nat.testBit_two_pow_sub_one 31 i
  simpa using h

theorem and_mask31 (x : Nat) : x &&& 2147483647 = x % 2147483648 := by
  have h := Nat.and_pow_two_sub_one_eq_mod x 31
  simpa using h

theorem and_bit31_eq_zero_iff (x : Nat) : x &&& 2147483648 = 0 ↔ x.testBit 31 = false := by
  constructor
  · intro h
    have h1 : (x &&& 2147483648).testBit 31 = false := by rw [h]; simp
    simpa [testBit_bit31] using h1
  · intro h
    apply Nat.eq_of_testBit_eq
    intro i
    simp only [Nat.testBit_and, testBit_bit31, Nat.zero_testBit]
    by_cases hi : 31 = i
    · subst hi; simp [h]
    · simp [hi]

theorem not32_kStopDisabledBit : not32 kStopDisabledBit = 2147483647 := by decide

theorem not32_one_shl_31 : not32 (1 <<< 31) = 2147483647 := by decide

theorem kStopDisabledBit_eq : kStopDisabledBit = 2147483648 := by decide

theorem watched_le_max (code : Nat) (hw : isWatchedStop code = true) : code ≤ kMaxStopCode := by
  simp [isWatchedStop, kNumOfWatchedStops] at hw
  simp [kMaxStopCode, kStopCode]
  omega

theorem isEnabledStop_watched (s : Simulator) (code : Nat) (hw : isWatchedStop code = true) :
    isEnabledStop s code = !((s.watched_stops code).count.testBit 31) := by
  unfold isEnabledStop
  rw [hw, kStopDisabledBit_eq]
  cases h : (s.watched_stops code).count.testBit 31
  · simp [(and_bit31_eq_zero_iff _).2 h]
  · have : ¬ (s.watched_stops code).count &&& 2147483648 = 0 := by
      intro h0
      rw [(and_bit31_eq_zero_iff _).1 h0] at h
      exact Bool.noConfusion h
    simp [this]

theorem stopCounterValue_eq (s : Simulator) (code : Nat) :
    stopCounterValue s code = (s.watched_stops code).count % 2147483648 := by
  rw [stopCounterValue, not32_kStopDisabledBit, and_mask31]

theorem setStopCount_count (s : Simulator) (code c : Nat) :
    ((setStopCount s code c).watched_stops code).count = c := by
  simp [setStopCount]

theorem or_bit31_mod (x : Nat) : (x ||| 2147483648) % 2147483648 = x % 2147483648 := by
  rw [← and_mask31, ← and_mask31]
  apply Nat.eq_of_testBit_eq
  intro i
  simp only [Nat.testBit_and, Nat.testBit_or, testBit_bit31, testBit_mask31]
  by_cases hi : 31 = i
  · subst hi; simp
  · simp [hi]

theorem and_mask31_mod (x : Nat) : (x &&& 2147483647) % 2147483648 = x % 2147483648 := by
  rw [and_mask31]; omega

/-- C6, counterexample: with the counter of watched stop 0 at `2^31 - 1`,
`IncreaseStopCounter(0)` returns and the counter value afterwards (0) is below
the value before. -/
theorem C6_counter_resets_at_overflow :
    ∃ s', IncreaseStopCounter
        { exampleState [] with watched_stops := fun _ => { count := 2147483647, desc := 0 } } 0
        = .ok s' ∧
      stopCounterValue s' 0 <
        stopCounterValue
          { exampleState [] with watched_stops := fun _ => { count := 2147483647, desc := 0 } } 0 :=
  ⟨_, rfl, by decide⟩

/-- C6 as amended: for every watched stop code and every counter state,
`IncreaseStopCounter` returns; when the counter value (low 31 bits) is not
`2^31 - 1` it grows by exactly one, and at `2^31 - 1` it is reset to 0 and the
stop is enabled; `EnableStop` and `DisableStop` return and leave the counter
value unchanged. -/
theorem C6_counter_monotone_below_overflow (s : Simulator) (code : Nat)
    (hw : isWatchedStop code = true) :
    (stopCounterValue s code ≠ 2147483647 →
      ∃ s', IncreaseStopCounter s code = .ok s' ∧
        stopCounterValue s' code = stopCounterValue s code + 1) ∧
    (stopCounterValue s code = 2147483647 →
      ∃ s', IncreaseStopCounter s code = .ok s' ∧ stopCounterValue s' code = 0 ∧
        isEnabledStop s' code = true) ∧
    (∃ s', EnableStop s code = .ok s' ∧ stopCounterValue s' code = stopCounterValue s code) ∧
    (∃ s', DisableStop s code = .ok s' ∧ stopCounterValue s' code = stopCounterValue s code) := by
  have hmax := watched_le_max code hw
  have hw' : ¬ ¬ isWatchedStop code = true := fun h => h hw
  have hmax' : ¬ ¬ code ≤ kMaxStopCode := fun h => h hmax
  refine ⟨?_, ?_, ?_, ?_⟩
  · intro hne
    have hne' : ¬ (s.watched_stops code).count &&& not32 (1 <<< 31) = 2147483647 := by
      rw [not32_one_shl_31]
      rw [stopCounterValue, not32_kStopDisabledBit] at hne
      exact hne
    refine ⟨setStopCount s code (add32 (s.watched_stops code).count 1), ?_, ?_⟩
    · rw [IncreaseStopCounter, if_neg hmax', if_neg hw', if_neg hne']
    · rw [stopCounterValue_eq, stopCounterValue_eq, setStopCount_count]
      rw [stopCounterValue_eq] at hne
      unfold add32
      omega
  · intro heq
    have heq' : (s.watched_stops code).count &&& not32 (1 <<< 31) = 2147483647 := by
      rw [not32_one_shl_31]
      rw [stopCounterValue, not32_kStopDisabledBit] at heq
      exact heq
    have hen : isEnabledStop (setStopCount s code 0) code = true := by
      rw [isEnabledStop_watched _ _ hw, setStopCount_count]; simp
    refine ⟨setStopCount s code 0, ?_, ?_, hen⟩
    · rw [IncreaseStopCounter, if_neg hmax', if_neg hw', if_pos heq', EnableStop, if_neg hw']
      simp [hen]
    · rw [stopCounterValue_eq, setStopCount_count]
  · cases hen : isEnabledStop s code
    · refine ⟨setStopCount s code ((s.watched_stops code).count &&& not32 kStopDisabledBit),
        ?_, ?_⟩
      · rw [EnableStop, if_neg hw']; simp [hen]
      · rw [stopCounterValue_eq, stopCounterValue_eq, setStopCount_count,
          not32_kStopDisabledBit, and_mask31_mod]
    · refine ⟨s, ?_, rfl⟩
      rw [EnableStop, if_neg hw']; simp [hen]
  · cases hen : isEnabledStop s code
    · refine ⟨s, ?_, rfl⟩
      rw [DisableStop, if_neg hw']; simp [hen]
    · refine ⟨setStopCount s code ((s.watched_stops code).count ||| kStopDisabledBit), ?_, ?_⟩
      · rw [DisableStop, if_neg hw']; simp [hen]
      · rw [stopCounterValue_eq, stopCounterValue_eq, setStopCount_count, kStopDisabledBit_eq,
          or_bit31_mod]

/-- C6 as amended, at watched stop 7 of the all-zero stop table. -/
theorem C6_witness :
    (stopCounterValue (exampleState []) 7 ≠ 2147483647 →
      ∃ s', IncreaseStopCounter (exampleState []) 7 = .ok s' ∧
        stopCounterValue s' 7 = stopCounterValue (exampleState []) 7 + 1) ∧
    (stopCounterValue (exampleState []) 7 = 2147483647 →
      ∃ s', IncreaseStopCounter (exampleState []) 7 = .ok s' ∧ stopCounterValue s' 7 = 0 ∧
        isEnabledStop s' 7 = true) ∧
    (∃ s', EnableStop (exampleState []) 7 = .ok s' ∧
      stopCounterValue s' 7 = stopCounterValue (exampleState []) 7) ∧
    (∃ s', DisableStop (exampleState []) 7 = .ok s' ∧
      stopCounterValue s' 7 = stopCounterValue (exampleState []) 7) :=
  C6_counter_monotone_below_overflow (exampleState []) 7 (by decide)

theorem setStopCount_other (s : Simulator) (code c v : Nat) (h : c ≠ code) :
    (setStopCount s code v).watched_stops c = s.watched_stops c := by
  simp [setStopCount, Function.update, h]

theorem testBit_high_of_lt (x i : Nat) (hx : x < 4294967296) (hi : 32 ≤ i) :
    x.testBit i = false := by
  apply Nat.testBit_lt_two_pow
  calc x < 2 ^ 32 := by simpa using hx
    _ ≤ 2 ^ i := Nat.pow_le_pow_right (by decide) hi

/-- C7: for every watched stop code and every (32-bit) counter state,
`DisableStop` and `EnableStop` return, leave the low 31 bits of the counter
unchanged and change at most bit 31: after `DisableStop` bit 31 is set and
`isEnabledStop` is false, after `EnableStop` bit 31 is clear and
`isEnabledStop` is true; the entries of other codes are unchanged. -/
theorem C7_enable_disable_flip_bit31 (s : Simulator) (code : Nat)
    (hw : isWatchedStop code = true) (hc : (s.watched_stops code).count < 4294967296) :
    (∃ s', DisableStop s code = .ok s' ∧
      stopCounterValue s' code = stopCounterValue s code ∧
      (s'.watched_stops code).count.testBit 31 = true ∧
      isEnabledStop s' code = false ∧
      (∀ i, i ≠ 31 →
        (s'.watched_stops code).count.testBit i = (s.watched_stops code).count.testBit i) ∧
      (∀ c, c ≠ code → s'.watched_stops c = s.watched_stops c)) ∧
    (∃ s', EnableStop s code = .ok s' ∧
      stopCounterValue s' code = stopCounterValue s code ∧
      (s'.watched_stops code).count.testBit 31 = false ∧
      isEnabledStop s' code = true ∧
      (∀ i, i ≠ 31 →
        (s'.watched_stops code).count.testBit i = (s.watched_stops code).count.testBit i) ∧
      (∀ c, c ≠ code → s'.watched_stops c = s.watched_stops c)) := by
  have hw' : ¬ ¬ isWatchedStop code = true := fun h => h hw
  have hen0 := isEnabledStop_watched s code hw
  constructor
  · cases hen : isEnabledStop s code
    · have hb : (s.watched_stops code).count.testBit 31 = true := by
        rw [hen] at hen0; simpa using hen0.symm
      refine ⟨s, ?_, rfl, hb, hen, fun _ _ => rfl, fun _ _ => rfl⟩
      rw [DisableStop, if_neg hw']; simp [hen]
    · have hb : ((s.watched_stops code).count ||| kStopDisabledBit).testBit 31 = true := by
        rw [kStopDisabledBit_eq, Nat.testBit_or, testBit_bit31]; simp
      refine ⟨setStopCount s code ((s.watched_stops code).count ||| kStopDisabledBit),
        ?_, ?_, ?_, ?_, ?_, ?_⟩
      · rw [DisableStop, if_neg hw']; simp [hen]
      · rw [stopCounterValue_eq, stopCounterValue_eq, setStopCount_count, kStopDisabledBit_eq,
          or_bit31_mod]
      · rw [setStopCount_count]; exact hb
      · rw [isEnabledStop_watched _ _ hw, setStopCount_count, hb]; rfl
      · intro i hi
        rw [setStopCount_count, kStopDisabledBit_eq, Nat.testBit_or, testBit_bit31]
        have : ¬ 31 = i := fun h => hi h.symm
        simp [this]
      · intro c hcne
        exact setStopCount_other s code c _ hcne
  · cases hen : isEnabledStop s code
    · have hb : ((s.watched_stops code).count &&& not32 kStopDisabledBit).testBit 31 = false := by
        rw [not32_kStopDisabledBit, Nat.testBit_and, testBit_mask31]; simp
      refine ⟨setStopCount s code ((s.watched_stops code).count &&& not32 kStopDisabledBit),
        ?_, ?_, ?_, ?_, ?_, ?_⟩
      · rw [EnableStop, if_neg hw']; simp [hen]
      · rw [stopCounterValue_eq, stopCounterValue_eq, setStopCount_count,
          not32_kStopDisabledBit, and_mask31_mod]
      · rw [setStopCount_count]; exact hb
      · rw [isEnabledStop_watched _ _ hw, setStopCount_count, hb]; rfl
      · intro i hi
        rw [setStopCount_count, not32_kStopDisabledBit, Nat.testBit_and, testBit_mask31]
        by_cases h31 : i < 31
        · simp [h31]
        · have h32 : 32 ≤ i := by omega
          simp [h31, testBit_high_of_lt _ _ hc h32]
      · intro c hcne
        exact setStopCount_other s code c _ hcne
    · have hb : (s.watched_stops code).count.testBit 31 = false := by
        rw [hen] at hen0; simpa using hen0.symm
      refine ⟨s, ?_, rfl, hb, hen, fun _ _ => rfl, fun _ _ => rfl⟩
      rw [EnableStop, if_neg hw']; simp [hen]

/-- C7 at watched stop 7 of the all-zero stop table. -/
theorem C7_witness :
    (∃ s', DisableStop (exampleState []) 7 = .ok s' ∧
      stopCounterValue s' 7 = stopCounterValue (exampleState []) 7 ∧
      (s'.watched_stops 7).count.testBit 31 = true ∧
      isEnabledStop s' 7 = false ∧
      (∀ i, i ≠ 31 →
        (s'.watched_stops 7).count.testBit i = ((exampleState []).watched_stops 7).count.testBit i) ∧
      (∀ c, c ≠ 7 → s'.watched_stops c = (exampleState []).watched_stops c)) ∧
    (∃ s', EnableStop (exampleState []) 7 = .ok s' ∧
      stopCounterValue s' 7 = stopCounterValue (exampleState []) 7 ∧
      (s'.watched_stops 7).count.testBit 31 = false ∧
      isEnabledStop s' 7 = true ∧
      (∀ i, i ≠ 31 →
        (s'.watched_stops 7).count.testBit i = ((exampleState []).watched_stops 7).count.testBit i) ∧
      (∀ c, c ≠ 7 → s'.watched_stops c = (exampleState []).watched_stops c)) :=
  C7_enable_disable_flip_bit31 (exampleState []) 7 (by decide) (by decide)

/-! ## C8, C9: the top-level entry `Call` -/

theorem switch_EXT1 (s : Simulator) (instr : Instruction) (h : instr.OpcodeValue = 19) :
    InstructionDecode_switch s instr = DecodeExt1 s instr := by
  simp [InstructionDecode_switch, h, TWI, MULLI, SUBFIC, CMPLI, CMPI, ADDIC, ADDICx, ADDI,
    ADDIS, BCX, SC, BX, EXT1]

theorem DecodeExt1_BCLR (s : Simulator) (instr : Instruction) (h : instr.Bits 10 1 = 16)
    (hlk : instr.Bit 0 = 0) :
    DecodeExt1 s instr = .ok (set_pc s s.special_reg_lr_) := by
  simp [DecodeExt1, h, hlk, MCRF, BCLRX]

/-- One retired `li rX, imm` (ADDI with RA = 0, RT not the PC slot). -/
theorem InstructionDecode_li (s : Simulator) (instr : Instruction)
    (hic : s.flags.check_icache = false) (hop : instr.OpcodeValue = 14)
    (hra : instr.RAValue = 0) (hrt : instr.RTValue ≠ pc) :
    InstructionDecode s instr =
      .ok (set_register (set_register { s with pc_modified_ := false } instr.RTValue
        (signExtend16 (instr.Bits 15 0))) pc (add32 instr.addr Instruction.kInstrSize)) := by
  apply InstructionDecode_of_latch_clear
  · rw [InstructionDecode_execute_no_icache s instr hic, switch_ADDI _ _ hop]
    simp [hra]
  · simp [set_register, hrt]

/-- One retired `blr` (BCLR with LK = 0). -/
theorem InstructionDecode_blr (s : Simulator) (instr : Instruction)
    (hic : s.flags.check_icache = false) (hop : instr.OpcodeValue = 19)
    (hxo : instr.Bits 10 1 = 16) (hlk : instr.Bit 0 = 0) :
    InstructionDecode s instr = .ok (set_pc { s with pc_modified_ := false } s.special_reg_lr_) := by
  have e : InstructionDecode_execute s instr =
      .ok (set_pc { s with pc_modified_ := false } s.special_reg_lr_) := by
    rw [InstructionDecode_execute_no_icache s instr hic, switch_EXT1 _ _ hop,
      DecodeExt1_BCLR _ _ hxo hlk]
  simp [InstructionDecode, e, set_pc]

theorem Execute_at_end (fuel : Nat) (s : Simulator) (h : get_pc s = end_sim_pc) :
    Execute fuel s = .ok s := by
  cases fuel <;> simp [Execute, h]

theorem Execute_step (fuel : Nat) (s : Simulator) (h : get_pc s ≠ end_sim_pc)
    (hstop : s.flags.stop_sim_at = 0) :
    Execute (fuel + 1) s =
      match InstructionDecode { s with icount_ := add32 s.icount_ 1 } (fetch s (get_pc s)) with
      | .error e => .error e
      | .ok s2 => Execute fuel s2 := by
  rw [Execute]
  simp [h, hstop]

/-- The state after `li rX, imm ; blr` has run from `s`. -/
theorem Execute_li_blr (fuel : Nat) (s : Simulator) (entry w1 w2 : Nat)
    (hic : s.flags.check_icache = false) (hstop : s.flags.stop_sim_at = 0)
    (hpc : get_pc s = entry) (h1 : entry ≠ end_sim_pc) (h2 : add32 entry 4 ≠ end_sim_pc)
    (hlr : s.special_reg_lr_ = end_sim_pc)
    (hm1 : ReadW s entry = w1) (hm2 : ReadW s (add32 entry 4) = w2)
    (hop1 : Instruction.OpcodeValue ⟨entry, w1⟩ = 14)
    (hra1 : Instruction.RAValue ⟨entry, w1⟩ = 0)
    (hrt1 : Instruction.RTValue ⟨entry, w1⟩ ≠ pc)
    (hop2 : Instruction.OpcodeValue ⟨add32 entry 4, w2⟩ = 19)
    (hxo2 : Instruction.Bits ⟨add32 entry 4, w2⟩ 10 1 = 16)
    (hlk2 : Instruction.Bit ⟨add32 entry 4, w2⟩ 0 = 0) :
    ∃ s', Execute (fuel + 2) s = .ok s' ∧ get_pc s' = end_sim_pc ∧
      s'.mem = s.mem ∧ s'.flags = s.flags ∧
      (∀ r, r ≠ pc → get_register s' r =
        if r = Instruction.RTValue ⟨entry, w1⟩ then
          signExtend16 (Instruction.Bits ⟨entry, w1⟩ 15 0)
        else get_register s r) := by
  have hrtlt := RTValue_lt ⟨entry, w1⟩
  have f1 : fetch s (get_pc s) = ⟨entry, w1⟩ := by simp [fetch, hpc, hm1]
  have d1 := InstructionDecode_li { s with icount_ := add32 s.icount_ 1 } ⟨entry, w1⟩ hic hop1
    hra1 hrt1
  rw [Execute_step _ s (by rw [hpc]; exact h1) hstop, f1, d1]
  simp only []
  generalize hs1 : set_register (set_register
      { ({ s with icount_ := add32 s.icount_ 1 } : Simulator) with pc_modified_ := false }
      (Instruction.RTValue ⟨entry, w1⟩) (signExtend16 (Instruction.Bits ⟨entry, w1⟩ 15 0))) pc
      (add32 (Instruction.addr ⟨entry, w1⟩) Instruction.kInstrSize) = s1
  have hpc1 : get_pc s1 = add32 entry 4 := by
    rw [← hs1]; exact get_pc_set_register_pc _ _
  have hmem1 : s1.mem = s.mem := by rw [← hs1]; rfl
  have hflags1 : s1.flags = s.flags := by rw [← hs1]; rfl
  have hlr1 : s1.special_reg_lr_ = end_sim_pc := by rw [← hs1]; exact hlr
  have hm2' : ReadW s1 (add32 entry 4) = w2 := by
    rw [← hm2]; simp [ReadW, Simulator.byteAt, hmem1]
  have f2 : fetch s1 (get_pc s1) = ⟨add32 entry 4, w2⟩ := by simp [fetch, hpc1, hm2']
  have hic1 : ({ s1 with icount_ := add32 s1.icount_ 1 } : Simulator).flags.check_icache = false := by
    show s1.flags.check_icache = false
    rw [hflags1]; exact hic
  have d2 := InstructionDecode_blr { s1 with icount_ := add32 s1.icount_ 1 }
    ⟨add32 entry 4, w2⟩ hic1 hop2 hxo2 hlk2
  rw [Execute_step _ s1 (by rw [hpc1]; exact h2) (by rw [hflags1]; exact hstop), f2, d2]
  simp only []
  refine ⟨_, Execute_at_end _ _ ?_, ?_, ?_, ?_, ?_⟩
  · simp [get_pc, set_pc, hlr1]
  · simp [get_pc, set_pc, hlr1]
  · simp [set_pc, hmem1]
  · simp [set_pc, hflags1]
  · intro r hr
    rw [← hs1]
    by_cases hrr : r = Instruction.RTValue ⟨entry, w1⟩
    · subst hrr
      simp [get_register, set_pc, set_register, Function.update, hr, num_registers]
      omega
    · simp [get_register, set_pc, set_register, Function.update, hr, hrr]

theorem WriteW_with_mem (s : Simulator) (a v : Nat) (m : Nat → Nat) :
    ({ WriteW s a v with mem := m } : Simulator) = { s with mem := m } := by
  simp [WriteW, Simulator.setByte]

theorem foldl_WriteW_eq_mem (f g : Nat → Nat) (l : List Nat) (s : Simulator) :
    ∃ m, l.foldl (fun st k => WriteW st (f k) (g k)) s = { s with mem := m } := by
  induction l generalizing s with
  | nil => exact ⟨s.mem, rfl⟩
  | cons k l ih =>
    obtain ⟨m, hm⟩ := ih (WriteW s (f k) (g k))
    refine ⟨m, ?_⟩
    rw [List.foldl_cons, hm, WriteW_with_mem]

theorem storeStackArguments_eq_mem (s : Simulator) (entry_stack : Nat) (parameters : Nat → Nat)
    (count : Nat) :
    storeStackArguments s entry_stack parameters count =
      { s with mem := (storeStackArguments s entry_stack parameters count).mem } := by
  obtain ⟨m, hm⟩ := foldl_WriteW_eq_mem (fun k => add32 entry_stack (4 * k))
    (fun k => parameters (5 + k)) (List.range count) s
  unfold storeStackArguments
  rw [hm]

/-- What `Call` has set up when it calls `Execute`. -/
theorem Call_setup_facts (s : Simulator) (entry argument_count : Nat) (parameters : Nat → Nat) :
    (Call_setup s entry argument_count parameters).2.flags = s.flags ∧
    get_pc (Call_setup s entry argument_count parameters).2 = entry ∧
    (Call_setup s entry argument_count parameters).2.special_reg_lr_ = end_sim_pc ∧
    (∀ r ∈ calleeSavedRegisters,
      get_register (Call_setup s entry argument_count parameters).2 r =
        (Call_setup s entry argument_count parameters).1.callee_saved_value) ∧
    (Call_setup s entry argument_count parameters).1.saved =
      calleeSavedRegisters.map (get_register s) ∧
    get_register (Call_setup s entry argument_count parameters).2 sp =
      (Call_setup s entry argument_count parameters).1.entry_stack ∧
    (Call_setup s entry argument_count parameters).1.original_stack = get_register s sp := by
  unfold Call_setup
  simp only []
  rw [storeStackArguments_eq_mem]
  refine ⟨?_, ?_, ?_, ?_, ?_, ?_, ?_⟩
  · simp [calleeSavedRegisters, set_register]
  · simp [calleeSavedRegisters, set_register, get_pc, Function.update, pc, fp, sp]
  · simp [calleeSavedRegisters, set_register]
  · intro r hr
    simp only [calleeSavedRegisters, fp, List.mem_cons, List.mem_singleton, List.not_mem_nil,
      or_false] at hr
    rcases hr with h | h | h | h | h | h | h | h | h | h | h | h | h | h | h <;> subst h <;>
      simp [calleeSavedRegisters, set_register, get_register, Function.update, pc, fp, sp,
        num_registers]
  · simp [calleeSavedRegisters, set_register, get_register, Function.update, pc, fp, sp,
      num_registers]
  · simp [calleeSavedRegisters, set_register, get_register, Function.update, pc, fp, sp,
      num_registers]
  · simp [set_register, get_register, Function.update, pc, fp, sp, num_registers]

/-- The registers after the restoring loop of `Call`. -/
theorem restore_get_register (s2 : Simulator) (g : Nat → Nat) :
    (∀ r ∈ calleeSavedRegisters,
      get_register ((calleeSavedRegisters.zip (calleeSavedRegisters.map g)).foldl
        (fun st rv => set_register st rv.1 rv.2) s2) r = g r) ∧
    (∀ r, r ∉ calleeSavedRegisters →
      get_register ((calleeSavedRegisters.zip (calleeSavedRegisters.map g)).foldl
        (fun st rv => set_register st rv.1 rv.2) s2) r = get_register s2 r) := by
  constructor
  · intro r hr
    simp only [calleeSavedRegisters, fp, List.mem_cons, List.mem_singleton, List.not_mem_nil,
      or_false] at hr
    rcases hr with h | h | h | h | h | h | h | h | h | h | h | h | h | h | h <;> subst h <;>
      simp [calleeSavedRegisters, set_register, get_register, Function.update, pc, fp,
        num_registers]
  · intro r hr
    simp only [calleeSavedRegisters, fp, List.mem_cons, List.mem_singleton, List.not_mem_nil,
      or_false, not_or] at hr
    obtain ⟨h14, h16, h17, h18, h19, h21, h23, h24, h25, h26, h27, h28, h29, h30, h31⟩ := hr
    simp [calleeSavedRegisters, set_register, get_register, Function.update, pc, fp,
      num_registers, h14, h16, h17, h18, h19, h21, h23, h24, h25, h26, h27, h28, h29, h30, h31]

theorem sp_not_calleeSaved : sp ∉ calleeSavedRegisters := by decide

theorem r3_not_calleeSaved : 3 ∉ calleeSavedRegisters := by decide

theorem calleeSaved_ne_sp (r : Nat) (h : r ∈ calleeSavedRegisters) : r ≠ sp := by
  intro hr; subst hr; exact sp_not_calleeSaved h

/-- What a normal return of `Call_leave` says. -/
theorem Call_leave_ok (frame : CallFrame) (s2 : Simulator) (res : Nat) (s' : Simulator)
    (h : Call_leave frame s2 = .ok (res, s')) :
    s' = set_register ((calleeSavedRegisters.zip frame.saved).foldl
        (fun st rv => set_register st rv.1 rv.2) s2) sp frame.original_stack ∧
    res = get_register s' 3 := by
  unfold Call_leave at h
  split at h
  · exact Except.noConfusion h
  · simp only [] at h
    split at h
    · exact Except.noConfusion h
    · simp only [Except.ok.injEq, Prod.mk.injEq] at h
      exact ⟨h.2.symm, by rw [← h.2]; exact h.1.symm⟩

/-- A normal return of `Call` passed the assertion where the build has it, ran
`Execute` to its end and passed the checks of `Call_leave`. -/
theorem Call_ok (fuel : Nat) (s : Simulator) (entry argument_count : Nat)
    (parameters : Nat → Nat) (res : Nat) (s' : Simulator)
    (h : Call fuel s entry argument_count parameters = .ok (res, s')) :
    (s.flags.debug = true → 5 ≤ argument_count) ∧
    ∃ s2, Execute fuel (Call_setup s entry argument_count parameters).2 = .ok s2 ∧
      Call_leave (Call_setup s entry argument_count parameters).1 s2 = .ok (res, s') := by
  unfold Call Call_enter at h
  by_cases hc : s.flags.debug = true ∧ ¬ argument_count ≥ 5
  · rw [if_pos hc] at h
    exact Except.noConfusion h
  · rw [if_neg hc] at h
    refine ⟨fun hd => Classical.byContradiction fun hn => hc ⟨hd, hn⟩, ?_⟩
    simp only [] at h
    cases he : Execute fuel (Call_setup s entry argument_count parameters).2 with
    | error e => rw [he] at h; exact Except.noConfusion h
    | ok s2 => rw [he] at h; exact ⟨s2, rfl, h⟩

theorem Execute_ok_pc (fuel : Nat) (s s' : Simulator) (h : Execute fuel s = .ok s') :
    get_pc s' = end_sim_pc := by
  induction fuel generalizing s with
  | zero =>
    unfold Execute at h
    by_cases hp : get_pc s = end_sim_pc
    · simp only [hp, if_true, Except.ok.injEq] at h
      rw [← h]; exact hp
    · simp only [hp, if_false] at h
      exact Except.noConfusion h
  | succ n ih =>
    unfold Execute at h
    by_cases hp : get_pc s = end_sim_pc
    · simp only [hp, if_true, Except.ok.injEq] at h
      rw [← h]; exact hp
    · simp only [hp, if_false] at h
      split at h
      · exact Except.noConfusion h
      · split at h
        · exact Except.noConfusion h
        · exact ih _ h

/-- `Call` on an entry that executes `li rX, imm ; blr`, for a register X that
`Call` neither records nor uses as stack pointer or PC: the loop stops at the
sentinel after two instructions, all checks pass, and `Call` returns r3. -/
theorem Call_li_blr (fuel : Nat) (s : Simulator) (entry argument_count : Nat)
    (parameters : Nat → Nat) (w1 w2 : Nat)
    (hargs : s.flags.debug = true → 5 ≤ argument_count)
    (hic : s.flags.check_icache = false) (hstop : s.flags.stop_sim_at = 0)
    (h1 : entry ≠ end_sim_pc) (h2 : add32 entry 4 ≠ end_sim_pc)
    (hm1 : ReadW (Call_setup s entry argument_count parameters).2 entry = w1)
    (hm2 : ReadW (Call_setup s entry argument_count parameters).2 (add32 entry 4) = w2)
    (hop1 : Instruction.OpcodeValue ⟨entry, w1⟩ = 14)
    (hra1 : Instruction.RAValue ⟨entry, w1⟩ = 0)
    (hrt1 : Instruction.RTValue ⟨entry, w1⟩ ≠ pc)
    (hrtsp : Instruction.RTValue ⟨entry, w1⟩ ≠ sp)
    (hrtcs : Instruction.RTValue ⟨entry, w1⟩ ∉ calleeSavedRegisters)
    (hop2 : Instruction.OpcodeValue ⟨add32 entry 4, w2⟩ = 19)
    (hxo2 : Instruction.Bits ⟨add32 entry 4, w2⟩ 10 1 = 16)
    (hlk2 : Instruction.Bit ⟨add32 entry 4, w2⟩ 0 = 0) :
    ∃ s2 s', Execute (fuel + 2) (Call_setup s entry argument_count parameters).2 = .ok s2 ∧
      get_pc s2 = end_sim_pc ∧
      Call (fuel + 2) s entry argument_count parameters = .ok (get_register s2 3, s') ∧
      get_register s2 (Instruction.RTValue ⟨entry, w1⟩) =
        signExtend16 (Instruction.Bits ⟨entry, w1⟩ 15 0) ∧
      get_register s' (Instruction.RTValue ⟨entry, w1⟩) =
        signExtend16 (Instruction.Bits ⟨entry, w1⟩ 15 0) := by
  obtain ⟨hflags, hpc, hlr, hcanary, hsaved, hsp, horig⟩ :=
    Call_setup_facts s entry argument_count parameters
  generalize hfs : Call_setup s entry argument_count parameters = fs at *
  obtain ⟨frame, s1⟩ := fs
  simp only [] at hflags hpc hlr hcanary hsaved hsp horig hm1 hm2
  obtain ⟨s2, hex, hpc2, -, -, hregs⟩ := Execute_li_blr fuel s1 entry w1 w2
    (by rw [hflags]; exact hic) (by rw [hflags]; exact hstop) hpc h1 h2 hlr hm1 hm2
    hop1 hra1 hrt1 hop2 hxo2 hlk2
  have hX : get_register s2 (Instruction.RTValue ⟨entry, w1⟩) =
      signExtend16 (Instruction.Bits ⟨entry, w1⟩ 15 0) := by
    rw [hregs _ hrt1]; simp
  have hcheck : calleeSavedRegisters.all
      (fun r => frame.callee_saved_value == get_register s2 r) = true := by
    rw [List.all_eq_true]
    intro r hr
    have hrpc : r ≠ pc := by intro h; subst h; revert hr; decide
    have hrX : r ≠ Instruction.RTValue ⟨entry, w1⟩ := by
      intro h; subst h; exact hrtcs hr
    rw [hregs r hrpc, if_neg hrX, hcanary r hr]
    simp
  have hrest := restore_get_register s2 (get_register s)
  rw [← hsaved] at hrest
  have hspc : get_register ((calleeSavedRegisters.zip frame.saved).foldl
      (fun st rv => set_register st rv.1 rv.2) s2) sp = frame.entry_stack := by
    rw [hrest.2 sp sp_not_calleeSaved, hregs sp (by decide), if_neg (Ne.symm hrtsp), hsp]
  have h3 : (3 : Nat) ≠ sp := by decide
  refine ⟨s2, set_register ((calleeSavedRegisters.zip frame.saved).foldl
      (fun st rv => set_register st rv.1 rv.2) s2) sp frame.original_stack, hex, hpc2, ?_, hX, ?_⟩
  · unfold Call Call_enter
    have hnot : ¬ (s.flags.debug = true ∧ ¬ argument_count ≥ 5) := fun h => h.2 (hargs h.1)
    rw [if_neg hnot, hfs]
    simp only []
    rw [hex]
    simp only []
    unfold Call_leave
    rw [if_neg (by rw [hcheck]; simp)]
    simp only []
    rw [if_neg (by rw [hspc]; simp)]
    rw [get_register_set_register_ne _ _ _ _ h3, hrest.2 3 r3_not_calleeSaved]
  · rw [get_register_set_register_ne _ _ _ _ hrtsp, hrest.2 _ hrtcs, hX]

/-- C8, counterexample: `Call` on an entry that executes `li r20, 7 ; blr`
(0x3A800007, 0x4E800020) with five arguments returns successfully, all canary
checks passing, and r20 holds 7 where it held 0 before the call. -/
theorem C8_call_clobbers_r20 :
    ∃ res s', Call 2 (exampleState [981467143, 1317011488]) 4096 5 (fun _ => 0) = .ok (res, s') ∧
      get_register s' 20 = 7 ∧ get_register (exampleState [981467143, 1317011488]) 20 = 0 := by
  obtain ⟨s2, s', -, -, hcall, -, hX⟩ := Call_li_blr 0 (exampleState [981467143, 1317011488])
    4096 5 (fun _ => 0) 981467143 1317011488 (fun _ => by decide) rfl rfl (by decide) (by decide)
    (by decide) (by decide) (by decide) (by decide) (by decide) (by decide) (by decide)
    (by decide) (by decide) (by decide)
  exact ⟨_, s', hcall, hX, by decide⟩

/-- C8 as amended: on every successful return of `Call`, each register it
records and restores (r14, r16..r19, r21, r23..r30 and fp = r31) holds the
value it had immediately before `Call` was invoked. -/
theorem C8_call_preserves_recorded_registers (fuel : Nat) (s : Simulator)
    (entry argument_count : Nat) (parameters : Nat → Nat) (res : Nat) (s' : Simulator)
    (h : Call fuel s entry argument_count parameters = .ok (res, s')) :
    ∀ r ∈ calleeSavedRegisters, get_register s' r = get_register s r := by
  intro r hr
  obtain ⟨-, s2, -, hl⟩ := Call_ok fuel s entry argument_count parameters res s' h
  obtain ⟨hs', -⟩ := Call_leave_ok _ s2 res s' hl
  obtain ⟨-, -, -, -, hsaved, -, -⟩ := Call_setup_facts s entry argument_count parameters
  rw [hs', get_register_set_register_ne _ _ _ _ (calleeSaved_ne_sp r hr), hsaved]
  exact (restore_get_register s2 (get_register s)).1 r hr

/-- C8 as amended, at a concrete successful call (`li r20, 7 ; blr`). -/
theorem C8_witness :
    ∃ res s', Call 2 (exampleState [981467143, 1317011488]) 4096 5 (fun _ => 0) = .ok (res, s') ∧
      ∀ r ∈ calleeSavedRegisters,
        get_register s' r = get_register (exampleState [981467143, 1317011488]) r := by
  obtain ⟨s2, s', -, -, hcall, -, -⟩ := Call_li_blr 0 (exampleState [981467143, 1317011488])
    4096 5 (fun _ => 0) 981467143 1317011488 (fun _ => by decide) rfl rfl (by decide) (by decide)
    (by decide) (by decide) (by decide) (by decide) (by decide) (by decide) (by decide)
    (by decide) (by decide) (by decide)
  exact ⟨_, s', hcall, C8_call_preserves_recorded_registers _ _ _ _ _ _ _ hcall⟩

/-- C9, counterexample: in a build with `DEBUG`, `Call` on an entry that
executes `li r3, 42 ; blr` with argument count 0 does not return 42: it fails
`ASSERT(argument_count >= 5)`. -/
theorem C9_call_without_arguments_aborts :
    (exampleDebugState [945815594, 1317011488]).flags.debug = true ∧
    Call 2 (exampleDebugState [945815594, 1317011488]) 4096 0 (fun _ => 0) =
      .error .check_failed :=
  ⟨rfl, rfl⟩

/-- C9 as amended: every successful `Call` ran its loop to the
end-of-simulation sentinel, returns the value r3 held there, and leaves the
stack pointer at its value before the call; in a build with `DEBUG` it was
made with at least five arguments, and a call with fewer aborts at the
assertion.  `Call` on an entry that executes `li r3, 42 ; blr`
(0x3860002A, 0x4E800020) returns 42 with any argument count in a release build
and with at least five arguments in a build with `DEBUG`. -/
theorem C9_call_returns_r3 :
    (∀ (fuel : Nat) (s : Simulator) (entry argument_count : Nat) (parameters : Nat → Nat)
        (res : Nat) (s' : Simulator),
      Call fuel s entry argument_count parameters = .ok (res, s') →
      (s.flags.debug = true → 5 ≤ argument_count) ∧
      ∃ s2, Execute fuel (Call_setup s entry argument_count parameters).2 = .ok s2 ∧
        get_pc s2 = end_sim_pc ∧ res = get_register s2 3 ∧
        get_register s' sp = get_register s sp) ∧
    (∀ (fuel : Nat) (s : Simulator) (entry argument_count : Nat) (parameters : Nat → Nat),
      (s.flags.debug = true → 5 ≤ argument_count) →
      s.flags.check_icache = false → s.flags.stop_sim_at = 0 →
      entry ≠ end_sim_pc → add32 entry 4 ≠ end_sim_pc →
      ReadW (Call_setup s entry argument_count parameters).2 entry = 945815594 →
      ReadW (Call_setup s entry argument_count parameters).2 (add32 entry 4) = 1317011488 →
      ∃ s', Call (fuel + 2) s entry argument_count parameters = .ok (42, s') ∧
        get_register s' sp = get_register s sp) ∧
    (∀ (fuel : Nat) (s : Simulator) (entry argument_count : Nat) (parameters : Nat → Nat),
      s.flags.debug = true → argument_count < 5 →
      Call fuel s entry argument_count parameters = .error .check_failed) := by
  have partA : ∀ (fuel : Nat) (s : Simulator) (entry argument_count : Nat)
      (parameters : Nat → Nat) (res : Nat) (s' : Simulator),
      Call fuel s entry argument_count parameters = .ok (res, s') →
      (s.flags.debug = true → 5 ≤ argument_count) ∧
      ∃ s2, Execute fuel (Call_setup s entry argument_count parameters).2 = .ok s2 ∧
        get_pc s2 = end_sim_pc ∧ res = get_register s2 3 ∧
        get_register s' sp = get_register s sp := by
    intro fuel s entry argument_count parameters res s' h
    obtain ⟨hargs, s2, hex, hl⟩ := Call_ok fuel s entry argument_count parameters res s' h
    obtain ⟨hs', hres⟩ := Call_leave_ok _ s2 res s' hl
    obtain ⟨-, -, -, -, hsaved, -, horig⟩ := Call_setup_facts s entry argument_count parameters
    have h3 : (3 : Nat) ≠ sp := by decide
    have hsp32 : sp < 32 := by decide
    have hsppc : sp ≠ pc := by decide
    refine ⟨hargs, s2, hex, Execute_ok_pc _ _ _ hex, ?_, ?_⟩
    · rw [hres, hs', get_register_set_register_ne _ _ _ _ h3, hsaved]
      exact (restore_get_register s2 (get_register s)).2 3 r3_not_calleeSaved
    · rw [hs', get_register_set_register_self _ _ _ hsp32 hsppc, horig]
  refine ⟨partA, ?_, ?_⟩
  · intro fuel s entry argument_count parameters hargs hic hstop h1 h2 hm1 hm2
    have f1 : Instruction.OpcodeValue ⟨entry, 945815594⟩ = 14 := by
      show Instruction.OpcodeValue ⟨0, 945815594⟩ = 14; decide
    have f2 : Instruction.RAValue ⟨entry, 945815594⟩ = 0 := by
      show Instruction.RAValue ⟨0, 945815594⟩ = 0; decide
    have f3 : Instruction.RTValue ⟨entry, 945815594⟩ = 3 := by
      show Instruction.RTValue ⟨0, 945815594⟩ = 3; decide
    have f4 : signExtend16 (Instruction.Bits ⟨entry, 945815594⟩ 15 0) = 42 := by
      show signExtend16 (Instruction.Bits ⟨0, 945815594⟩ 15 0) = 42; decide
    have g1 : Instruction.OpcodeValue ⟨add32 entry 4, 1317011488⟩ = 19 := by
      show Instruction.OpcodeValue ⟨0, 1317011488⟩ = 19; decide
    have g2 : Instruction.Bits ⟨add32 entry 4, 1317011488⟩ 10 1 = 16 := by
      show Instruction.Bits ⟨0, 1317011488⟩ 10 1 = 16; decide
    have g3 : Instruction.Bit ⟨add32 entry 4, 1317011488⟩ 0 = 0 := by
      show Instruction.Bit ⟨0, 1317011488⟩ 0 = 0; decide
    obtain ⟨s2, s', -, -, hcall, hX, -⟩ := Call_li_blr fuel s entry argument_count parameters
      945815594 1317011488 hargs hic hstop h1 h2 hm1 hm2 f1 f2 (by rw [f3]; decide)
      (by rw [f3]; decide) (by rw [f3]; decide) g1 g2 g3
    have h42 : get_register s2 3 = 42 := by rw [← f4, ← hX, f3]
    rw [h42] at hcall
    exact ⟨s', hcall, (partA _ _ _ _ _ _ _ hcall).2.choose_spec.2.2.2⟩
  · intro fuel s entry argument_count parameters hd hn
    unfold Call Call_enter
    rw [if_pos ⟨hd, by omega⟩]

/-- C9 as amended, at a concrete call: in a release build, `Call` with
argument count 0 on `li r3, 42 ; blr` returns 42 and restores the stack
pointer. -/
theorem C9_witness :
    (exampleState [945815594, 1317011488]).flags.debug = false ∧
    ∃ s', Call 2 (exampleState [945815594, 1317011488]) 4096 0 (fun _ => 0) = .ok (42, s') ∧
      get_register s' sp = get_register (exampleState [945815594, 1317011488]) sp ∧
      ∃ s2, Execute 2 (Call_setup (exampleState [945815594, 1317011488]) 4096 0
          (fun _ => 0)).2 = .ok s2 ∧
        get_pc s2 = end_sim_pc ∧ 42 = get_register s2 3 := by
  obtain ⟨s', hcall, hsp⟩ := C9_call_returns_r3.2.1 0 (exampleState [945815594, 1317011488])
    4096 0 (fun _ => 0) (fun h => absurd h (by decide)) rfl rfl (by decide) (by decide)
    (by decide) (by decide)
  obtain ⟨-, s2, hex, hpc, hres, -⟩ := C9_call_returns_r3.1 _ _ _ _ _ _ _ hcall
  exact ⟨rfl, s', hcall, hsp, s2, hex, hpc, hres⟩

/-! ## C10: `FlushICache` invalidates the lines of the range -/

theorem kPageMask_eq : CachePage.kPageMask = 4095 := by decide
theorem kPageSize_eq : CachePage.kPageSize = 4096 := by decide
theorem kLineMask_eq : CachePage.kLineMask = 3 := by decide
theorem kLineShift_eq : CachePage.kLineShift = 2 := by decide
theorem not32_kPageMask : not32 CachePage.kPageMask = 4294963200 := by decide

theorem and_lineMask (x : Nat) : x &&& 3 = x % 4 := by
  have h := Nat.and_pow_two_sub_one_eq_mod x 2
  simpa using h

theorem and_pageMask (x : Nat) : x &&& 4095 = x % 4096 := by
  have h := Nat.and_pow_two_sub_one_eq_mod x 12
  simpa using h

theorem testBit_pageBits (i : Nat) :
    Nat.testBit 4294963200 i = (decide (12 ≤ i) && decide (i < 32)) := by
  have h : (4294963200 : Nat) = (2 ^ 20 - 1) <<< 12 := by decide
  rw [h, Nat.testBit_shiftLeft, Nat.testBit_two_pow_sub_one]
  by_cases h12 : 12 ≤ i
  · by_cases h32 : i < 32
    · have : i - 12 < 20 := by omega
      simp [h12, h32, this]
    · have : ¬ i - 12 < 20 := by omega
      simp [h12, h32, this]
  · simp [h12]

theorem and_pageBits (x : Nat) (hx : x < 4294967296) :
    x &&& 4294963200 = x / 4096 * 4096 := by
  have e : x / 4096 * 4096 = (x >>> 12) <<< 12 := by
    rw [Nat.shiftLeft_eq, Nat.shiftRight_eq_div_pow]
  rw [e]
  apply Nat.eq_of_testBit_eq
  intro i
  rw [Nat.testBit_and, testBit_pageBits, Nat.testBit_shiftLeft, Nat.testBit_shiftRight]
  by_cases h12 : 12 ≤ i
  · have e2 : 12 + (i - 12) = i := by omega
    by_cases h32 : i < 32
    · simp [h12, h32, e2]
    · have : x.testBit i = false := testBit_high_of_lt x i hx (by omega)
      simp [h12, h32, e2, this]
  · simp [h12]

theorem or_lineMask (x : Nat) : x ||| 3 = x / 4 * 4 + 3 := by
  have h1 : 2 ^ 2 * (x / 4) + 3 = 2 ^ 2 * (x / 4) ||| 3 :=
    Nat.mul_add_lt_is_or (by decide) (x / 4)
  have h2 : 2 ^ 2 * (x / 4) + x % 4 = 2 ^ 2 * (x / 4) ||| x % 4 :=
    Nat.mul_add_lt_is_or (by omega) (x / 4)
  have hx : x = 2 ^ 2 * (x / 4) ||| x % 4 := by rw [← h2]; omega
  have h3 : x % 4 ||| 3 = 3 := by
    have : x % 4 < 4 := Nat.mod_lt _ (by decide)
    interval_cases (x % 4) <;> decide
  calc x ||| 3 = (2 ^ 2 * (x / 4) ||| x % 4) ||| 3 := by rw [← hx]
    _ = 2 ^ 2 * (x / 4) ||| (x % 4 ||| 3) := by rw [Nat.or_assoc]
    _ = 2 ^ 2 * (x / 4) ||| 3 := by rw [h3]
    _ = x / 4 * 4 + 3 := by rw [← h1]; omega

theorem sub32_of_le (a b : Nat) (h : b ≤ a) (ha : a < 4294967296) : sub32 a b = a - b := by
  unfold sub32 ofInt32
  omega

theorem sub32_wrap (a b : Nat) (h : a < b) (hb : b ≤ 4294967296) :
    sub32 a b = a + 4294967296 - b := by
  unfold sub32 ofInt32
  omega

theorem toInt32_of_lt (x : Nat) (h : x < 2147483648) : toInt32 x = x := by
  unfold toInt32; simp [h]

theorem asr32_two (x : Nat) (h : x < 2147483648) : asr32 x 2 = x / 4 := by
  unfold asr32 ofInt32
  rw [toInt32_of_lt x h, Int.shiftRight_eq_div_pow]
  norm_num
  omega

theorem AllOnOnePage_iff (start size : Nat) (hs : start < 4294967296) :
    AllOnOnePage start size = decide (start / 4096 = (start + size) % 4294967296 / 4096) := by
  unfold AllOnOnePage add32
  rw [not32_kPageMask, and_pageBits _ hs,
    and_pageBits _ (Nat.mod_lt _ (by decide))]
  by_cases h : start / 4096 = (start + size) % 4294967296 / 4096
  · simp [h]
  · have : ¬ start / 4096 * 4096 = (start + size) % 4294967296 / 4096 * 4096 := by omega
    simp [h, this]

theorem lineValidity_eq (c : Nat → Option CachePage) (a : Nat) (ha : a < 4294967296) :
    lineValidity c a =
      match c (a / 4096 * 4096) with
      | some cache_page => some (cache_page.validity_map_ (a % 4096 / 4))
      | none => none := by
  unfold lineValidity CachePage.ValidityByte
  rw [not32_kPageMask, and_pageBits _ ha, kPageMask_eq, and_pageMask, kLineShift_eq,
    Nat.shiftRight_eq_div_pow]

/-- One call of `FlushOnePage` on a line-aligned range inside one page returns,
marks every line of the range INVALID and keeps INVALID lines INVALID. -/
theorem FlushOnePage_spec (c : Nat → Option CachePage) (start size : Nat)
    (hs : start < 4294967296) (h4 : start % 4 = 0) (hz4 : size % 4 = 0) (hpos : 4 ≤ size)
    (hfit : start % 4096 + size ≤ 4096) :
    ∃ c', FlushOnePage c start size = .ok c' ∧
      (∀ a, lineValidity c a = some CachePage.LINE_INVALID →
        lineValidity c' a = some CachePage.LINE_INVALID) ∧
      (∀ a, start ≤ a → a < start + size →
        lineValidity c' a = some CachePage.LINE_INVALID) := by
  have hsz : size < 2147483648 := by omega
  have a1 : ¬ ¬ toInt32 size ≤ (CachePage.kPageSize : Int) := by
    rw [toInt32_of_lt size hsz, kPageSize_eq]; omega
  have a2 : ¬ ¬ AllOnOnePage start (sub32 size 1) = true := by
    rw [AllOnOnePage_iff _ _ hs, sub32_of_le _ _ (by omega) (by omega)]
    simp only [decide_eq_true_eq, not_not]
    omega
  have a3 : ¬ ¬ start &&& CachePage.kLineMask = 0 := by
    rw [kLineMask_eq, and_lineMask]; omega
  have a4 : ¬ ¬ size &&& CachePage.kLineMask = 0 := by
    rw [kLineMask_eq, and_lineMask]; omega
  have hidx : CachePage.ValidityByte (start &&& CachePage.kPageMask) = start % 4096 / 4 := by
    unfold CachePage.ValidityByte
    rw [kPageMask_eq, and_pageMask, kLineShift_eq, Nat.shiftRight_eq_div_pow]
  have hcnt : asr32 size CachePage.kLineShift = size / 4 := by
    rw [kLineShift_eq, asr32_two _ hsz]
  have a5 : ¬ (CachePage.ValidityByte (start &&& CachePage.kPageMask)
      + asr32 size CachePage.kLineShift > CachePage.kPageSize >>> CachePage.kLineShift) := by
    rw [hidx, hcnt]
    have : CachePage.kPageSize >>> CachePage.kLineShift = 1024 := by decide
    rw [this]; omega
  have hpage : start &&& not32 CachePage.kPageMask = start / 4096 * 4096 := by
    rw [not32_kPageMask, and_pageBits _ hs]
  unfold FlushOnePage
  rw [if_neg a1, if_neg a2, if_neg a3, if_neg a4]
  simp only []
  rw [if_neg a5, hidx, hcnt, hpage]
  refine ⟨_, rfl, ?_, ?_⟩
  · intro a ha
    unfold lineValidity at ha ⊢
    by_cases hp : a &&& not32 CachePage.kPageMask = start / 4096 * 4096
    · rw [hp] at ha ⊢
      simp only [Function.update_same]
      cases hc : c (start / 4096 * 4096) with
      | none => rw [hc] at ha; exact Option.noConfusion ha
      | some p =>
        rw [hc] at ha
        simp only [Option.some.injEq] at ha
        simp only [GetCachePage, hc, memsetValidity, Option.some.injEq]
        split
        · rfl
        · exact ha
    · rw [Function.update_noteq hp]
      cases hc : c (start / 4096 * 4096) with
      | none =>
        simp only [GetCachePage, hc]
        rw [Function.update_noteq hp]
        exact ha
      | some p =>
        simp only [GetCachePage, hc]
        exact ha
  · intro a hlo hhi
    have ha32 : a < 4294967296 := by omega
    rw [lineValidity_eq _ _ ha32]
    have hpa : a / 4096 * 4096 = start / 4096 * 4096 := by omega
    rw [hpa]
    simp only [Function.update_same, memsetValidity, Option.some.injEq]
    rw [if_pos (by omega)]

theorem FlushICacheLoop_done (fuel : Nat) (c : Nat → Option CachePage) (start size offset : Nat)
    (h : AllOnOnePage start (sub32 size 1) = true) :
    FlushICacheLoop fuel c start size offset = .ok (c, start, size) := by
  cases fuel <;> simp [FlushICacheLoop, h]

theorem FlushICacheLoop_step (fuel : Nat) (c c1 : Nat → Option CachePage)
    (start size offset : Nat)
    (h : AllOnOnePage start (sub32 size 1) = false)
    (hf : FlushOnePage c start (sub32 CachePage.kPageSize offset) = .ok c1)
    (hal : add32 start (sub32 CachePage.kPageSize offset) &&& CachePage.kPageMask = 0) :
    FlushICacheLoop (fuel + 1) c start size offset =
      FlushICacheLoop fuel c1 (add32 start (sub32 CachePage.kPageSize offset))
        (sub32 size (sub32 CachePage.kPageSize offset)) 0 := by
  rw [FlushICacheLoop]
  simp [h, hf, hal]

/-- The page loop of `FlushICache`, for a line-aligned range `[start, E)` that
does not wrap: it returns with `start'` on the page of the last byte, having
marked every line of `[start, start')` INVALID. -/
theorem FlushICacheLoop_spec (fuel : Nat) :
    ∀ (c : Nat → Option CachePage) (start E : Nat),
      start < E → E ≤ 4294967296 → start % 4 = 0 → E % 4 = 0 →
      (E - 1) / 4096 - start / 4096 ≤ fuel →
      ∃ c' start', FlushICacheLoop fuel c start ((E - start) % 4294967296) (start % 4096)
          = .ok (c', start', E - start') ∧
        start ≤ start' ∧ start' < E ∧ start' % 4 = 0 ∧ start' / 4096 = (E - 1) / 4096 ∧
        (∀ a, lineValidity c a = some CachePage.LINE_INVALID →
          lineValidity c' a = some CachePage.LINE_INVALID) ∧
        (∀ a, start ≤ a → a < start' →
          lineValidity c' a = some CachePage.LINE_INVALID) := by
  induction fuel with
  | zero =>
    intro c start E hlt hE h4 hE4 hfuel
    have hs : start < 4294967296 := by omega
    have hsub : (start + sub32 ((E - start) % 4294967296) 1) % 4294967296 = E - 1 := by
      unfold sub32 ofInt32; omega
    have hdone : AllOnOnePage start (sub32 ((E - start) % 4294967296) 1) = true := by
      rw [AllOnOnePage_iff _ _ hs, hsub]
      simp only [decide_eq_true_eq]
      omega
    refine ⟨c, start, ?_, le_refl _, hlt, h4, by omega, fun _ h => h, ?_⟩
    · rw [FlushICacheLoop_done _ _ _ _ _ hdone]
      have : (E - start) % 4294967296 = E - start := by omega
      rw [this]
    · intro a h1 h2; omega
  | succ n ih =>
    intro c start E hlt hE h4 hE4 hfuel
    have hs : start < 4294967296 := by omega
    have hsub : (start + sub32 ((E - start) % 4294967296) 1) % 4294967296 = E - 1 := by
      unfold sub32 ofInt32; omega
    by_cases hpage : start / 4096 = (E - 1) / 4096
    · have hdone : AllOnOnePage start (sub32 ((E - start) % 4294967296) 1) = true := by
        rw [AllOnOnePage_iff _ _ hs, hsub]
        simp only [decide_eq_true_eq]
        exact hpage
      refine ⟨c, start, ?_, le_refl _, hlt, h4, hpage, fun _ h => h, ?_⟩
      · rw [FlushICacheLoop_done _ _ _ _ _ hdone]
        have : (E - start) % 4294967296 = E - start := by omega
        rw [this]
      · intro a h1 h2; omega
    · have hnot : AllOnOnePage start (sub32 ((E - start) % 4294967296) 1) = false := by
        rw [AllOnOnePage_iff _ _ hs, hsub]
        simp only [decide_eq_false_iff_not]
        exact hpage
      have hbytes : sub32 CachePage.kPageSize (start % 4096) = 4096 - start % 4096 := by
        rw [kPageSize_eq, sub32_of_le _ _ (by omega) (by decide)]
      obtain ⟨c1, hf, hmono1, hcov1⟩ := FlushOnePage_spec c start (4096 - start % 4096) hs h4
        (by omega) (by omega) (by omega)
      have hstart1 : add32 start (4096 - start % 4096) = start + (4096 - start % 4096) := by
        unfold add32; omega
      have hsize1 : sub32 ((E - start) % 4294967296) (4096 - start % 4096)
          = (E - (start + (4096 - start % 4096))) % 4294967296 := by
        unfold sub32 ofInt32; omega
      have hoff1 : (0 : Nat) = (start + (4096 - start % 4096)) % 4096 := by omega
      obtain ⟨c', start', hloop, hle, hlt', h4', hpg', hmono2, hcov2⟩ :=
        ih c1 (start + (4096 - start % 4096)) E (by omega) hE (by omega) hE4 (by omega)
      refine ⟨c', start', ?_, by omega, hlt', h4', hpg', fun a h => hmono2 a (hmono1 a h), ?_⟩
      · rw [FlushICacheLoop_step n c c1 start _ _ hnot (by rw [hbytes]; exact hf)
          (by rw [hbytes, hstart1, kPageMask_eq, and_pageMask]; omega)]
        rw [hbytes, hstart1, hsize1, hoff1]
        exact hloop
      · intro a h1 h2
        by_cases hin : a < start + (4096 - start % 4096)
        · exact hmono2 a (hcov1 a h1 hin)
        · exact hcov2 a (by omega) h2

/-- C10: for every start address and every size >= 1 that name a range of the
32-bit address space (`start + size <= 2^32`), `FlushICache(start, size)`
returns (given enough iterations of its page loop) and afterwards the validity
byte of the cache line of every address in `[start, start + size)` is
`LINE_INVALID`: also when the range spans several pages or starts or ends in
the middle of a line. -/
theorem C10_flush_marks_lines_invalid (fuel : Nat) (c : Nat → Option CachePage)
    (start size : Nat)
    (hsize : 1 ≤ size) (hrange : start + size ≤ 4294967296) (hfuel : size / 4096 + 2 ≤ fuel) :
    ∃ c', FlushICache fuel c start size = .ok c' ∧
      ∀ a, start ≤ a → a < start + size →
        lineValidity c' a = some CachePage.LINE_INVALID := by
  have hintra : start &&& CachePage.kLineMask = start % 4 := by
    rw [kLineMask_eq, and_lineMask]
  have hstart0 : sub32 start (start % 4) = start - start % 4 := by
    unfold sub32 ofInt32; omega
  have hsize2 : add32 (sub32 (add32 size (start % 4)) 1 ||| CachePage.kLineMask) 1
      = ((start + size + 3) / 4 * 4 - (start - start % 4)) % 4294967296 := by
    rw [kLineMask_eq, or_lineMask]
    unfold add32 sub32 ofInt32
    omega
  have hoff : (start - start % 4) &&& CachePage.kPageMask = (start - start % 4) % 4096 := by
    rw [kPageMask_eq, and_pageMask]
  obtain ⟨c1, start1, hloop, hle, hlt, h4, hpg, hmono, hcov⟩ :=
    FlushICacheLoop_spec fuel c (start - start % 4) ((start + size + 3) / 4 * 4)
      (by omega) (by omega) (by omega) (by omega) (by omega)
  obtain ⟨c2, hf, hmono2, hcov2⟩ := FlushOnePage_spec c1 start1
    ((start + size + 3) / 4 * 4 - start1) (by omega) h4 (by omega) (by omega) (by omega)
  refine ⟨c2, ?_, ?_⟩
  · unfold FlushICache
    simp only []
    rw [hintra, hstart0, hsize2, hoff, hloop]
    simp only []
    rw [if_pos (by omega)]
    exact hf
  · intro a h1 h2
    by_cases hin : a < start1
    · exact hmono2 a (hcov a (by omega) hin)
    · exact hcov2 a (by omega) (by omega)

/-- C10 at a concrete input: ten bytes from 0xFFE in an empty cache, a range
that starts and ends inside a line and crosses a page boundary. -/
theorem C10_witness :
    ∃ c', FlushICache 2 (fun _ => none) 4094 10 = .ok c' ∧
      ∀ a, 4094 ≤ a → a < 4094 + 10 → lineValidity c' a = some CachePage.LINE_INVALID :=
  C10_flush_marks_lines_invalid 2 (fun _ => none) 4094 10 (by decide) (by decide) (by decide)

/-! ## I-cache check (C11, C12) -/

theorem not32_kLineMask : not32 CachePage.kLineMask = 4294967292 := by decide

theorem testBit_lineBits (i : Nat) :
    Nat.testBit 4294967292 i = (decide (2 ≤ i) && decide (i < 32)) := by
  have h : (4294967292 : Nat) = (2 ^ 30 - 1) <<< 2 := by decide
  rw [h, Nat.testBit_shiftLeft, Nat.testBit_two_pow_sub_one]
  by_cases h2 : 2 ≤ i
  · by_cases h32 : i < 32
    · have : i - 2 < 30 := by omega
      simp [h2, h32, this]
    · have : ¬ i - 2 < 30 := by omega
      simp [h2, h32, this]
  · simp [h2]

theorem and_lineBits (x : Nat) (hx : x < 4294967296) :
    x &&& 4294967292 = x / 4 * 4 := by
  have e : x / 4 * 4 = (x >>> 2) <<< 2 := by
    rw [Nat.shiftLeft_eq, Nat.shiftRight_eq_div_pow]
  rw [e]
  apply Nat.eq_of_testBit_eq
  intro i
  rw [Nat.testBit_and, testBit_lineBits, Nat.testBit_shiftLeft, Nat.testBit_shiftRight]
  by_cases h2 : 2 ≤ i
  · have e2 : 2 + (i - 2) = i := by omega
    by_cases h32 : i < 32
    · simp [h2, h32, e2]
    · have : x.testBit i = false := testBit_high_of_lt x i hx (by omega)
      simp [h2, h32, e2, this]
  · simp [h2]

theorem cachedByte_eq (c : Nat → Option CachePage) (a : Nat) (ha : a < 4294967296) :
    cachedByte c a =
      match c (a / 4096 * 4096) with
      | some cache_page => some (cache_page.data_ (a % 4096) % 256)
      | none => none := by
  unfold cachedByte
  rw [not32_kPageMask, and_pageBits _ ha, kPageMask_eq, and_pageMask]

/-- `CheckICache` in arithmetic form, for a 32-bit instruction address. -/
theorem CheckICache_eq (s : Simulator) (instr : Instruction) (ha : instr.addr < 4294967296) :
    CheckICache s instr =
      (let gp := GetCachePage s.i_cache (instr.addr / 4096 * 4096)
       if gp.2.validity_map_ (instr.addr % 4096 / 4) = CachePage.LINE_VALID then
         if instrMatchesCache s gp.2 instr.addr (instr.addr % 4096) then
           .ok { s with i_cache := gp.1 }
         else .error .check_failed
       else
         .ok { s with i_cache := (Function.update gp.1 (instr.addr / 4096 * 4096)
           (some { data_ := copyLine s gp.2.data_ (instr.addr % 4096 / 4 * 4) (instr.addr / 4 * 4)
                   validity_map_ := Function.update gp.2.validity_map_ (instr.addr % 4096 / 4)
                     CachePage.LINE_VALID })) }) := by
  have h1 : instr.addr % 4096 < 4294967296 := by omega
  unfold CheckICache CachePage.ValidityByte
  have np : not32 4095 = 4294963200 := by decide
  have nl : not32 3 = 4294967292 := by decide
  simp only [np, nl, and_pageBits _ ha, and_lineBits _ ha,
    and_lineBits _ h1, kPageMask_eq, kLineMask_eq, and_pageMask, kLineShift_eq,
    Nat.shiftRight_eq_div_pow, beq_iff_eq, Nat.reducePow]

theorem instrMatchesCache_iff (s : Simulator) (cp : CachePage) (a off : Nat) :
    instrMatchesCache s cp a off = true ↔
      ∀ i, i < 4 → s.byteAt (a + i) = cp.data_ (off + i) % 256 := by
  unfold instrMatchesCache
  simp [List.all_eq_true, Instruction.kInstrSize]

theorem GetCachePage_miss_validity (c : Nat → Option CachePage) (a : Nat)
    (ha : a < 4294967296) (hmiss : lineValidity c a ≠ some CachePage.LINE_VALID) :
    (GetCachePage c (a / 4096 * 4096)).2.validity_map_ (a % 4096 / 4) ≠ CachePage.LINE_VALID := by
  rw [lineValidity_eq _ _ ha] at hmiss
  unfold GetCachePage
  cases hc : c (a / 4096 * 4096) with
  | none => simp [CachePage.new]; decide
  | some pg =>
    rw [hc] at hmiss
    simpa using hmiss

theorem byteAt_with_i_cache (s : Simulator) (c : Nat → Option CachePage) (a : Nat) :
    Simulator.byteAt { s with i_cache := c } a = s.byteAt a := rfl

/-- On a VALID line `CheckICache` only compares: it returns the state unchanged
when the four bytes at the instruction equal the cached bytes and aborts
otherwise. -/
theorem CheckICache_valid (s : Simulator) (instr : Instruction)
    (ha : instr.addr < 4294967296) (pg : CachePage)
    (hpg : s.i_cache (instr.addr / 4096 * 4096) = some pg)
    (hv : pg.validity_map_ (instr.addr % 4096 / 4) = CachePage.LINE_VALID) :
    CheckICache s instr =
      if instrMatchesCache s pg instr.addr (instr.addr % 4096) = true then .ok s
      else .error .check_failed := by
  rw [CheckICache_eq s instr ha]
  simp only [GetCachePage, hpg, hv, if_true]

/-- C11: `CheckICache` on an instruction whose line is not VALID (INVALID, or
its page never seen) returns, changes nothing but the cache, marks the line
VALID and copies the whole line from memory, so every cached byte of the line
equals memory; for a word-aligned instruction an immediately repeated
`CheckICache` with the same memory succeeds and leaves the state as it is. -/
theorem C11_miss_reloads_line (s : Simulator) (instr : Instruction)
    (haddr : instr.addr < 4294967296)
    (hmiss : lineValidity s.i_cache instr.addr ≠ some CachePage.LINE_VALID) :
    ∃ s1, CheckICache s instr = .ok s1 ∧
      s1 = { s with i_cache := s1.i_cache } ∧
      lineValidity s1.i_cache instr.addr = some CachePage.LINE_VALID ∧
      (∀ i, i < CachePage.kLineLength →
        cachedByte s1.i_cache (instr.addr / 4 * 4 + i) =
          some (s.byteAt (instr.addr / 4 * 4 + i))) ∧
      (instr.addr % 4 = 0 → CheckICache s1 instr = .ok s1) := by
  have hv := GetCachePage_miss_validity s.i_cache instr.addr haddr hmiss
  rw [CheckICache_eq s instr haddr]
  simp only [if_neg hv]
  refine ⟨_, rfl, rfl, ?_, ?_, ?_⟩
  · rw [lineValidity_eq _ _ haddr]
    simp
  · intro i hi
    have hi4 : i < 4 := hi
    have hlt : instr.addr / 4 * 4 + i < 4294967296 := by omega
    have hpage : (instr.addr / 4 * 4 + i) / 4096 * 4096 = instr.addr / 4096 * 4096 := by omega
    have hoff : (instr.addr / 4 * 4 + i) % 4096 = instr.addr % 4096 / 4 * 4 + i := by omega
    rw [cachedByte_eq _ _ hlt, hpage, hoff]
    have hin : instr.addr % 4096 / 4 * 4 ≤ instr.addr % 4096 / 4 * 4 + i ∧
        instr.addr % 4096 / 4 * 4 + i < instr.addr % 4096 / 4 * 4 + CachePage.kLineLength := by
      constructor
      · omega
      · show _ < _ + 4
        omega
    simp [copyLine, hin, Simulator.byteAt]
  · intro hal
    rw [CheckICache_valid _ instr haddr _ (Function.update_same _ _ _)
      (Function.update_same _ _ _)]
    have e1 : instr.addr % 4096 / 4 * 4 = instr.addr % 4096 := by omega
    have e2 : instr.addr / 4 * 4 = instr.addr := by omega
    rw [if_pos]
    rw [instrMatchesCache_iff]
    intro i hi
    rw [byteAt_with_i_cache, e1, e2]
    have hin : instr.addr % 4096 ≤ instr.addr % 4096 + i ∧
        instr.addr % 4096 + i < instr.addr % 4096 + CachePage.kLineLength := by
      constructor
      · omega
      · show _ < _ + 4
        omega
    simp [copyLine, hin, Simulator.byteAt]

/-- C11 at a concrete input: the word at `0x1000` of the example state, whose
cache is empty. -/
theorem C11_witness :
    ∃ s1, CheckICache (exampleState [945815594]) ⟨4096, 945815594⟩ = .ok s1 ∧
      s1 = { exampleState [945815594] with i_cache := s1.i_cache } ∧
      lineValidity s1.i_cache 4096 = some CachePage.LINE_VALID ∧
      (∀ i, i < CachePage.kLineLength →
        cachedByte s1.i_cache (4096 / 4 * 4 + i) =
          some ((exampleState [945815594]).byteAt (4096 / 4 * 4 + i))) ∧
      (4096 % 4 = 0 → CheckICache s1 ⟨4096, 945815594⟩ = .ok s1) :=
  C11_miss_reloads_line (exampleState [945815594]) ⟨4096, 945815594⟩ (by decide) (by decide)

/-- C12: on a VALID line, `CheckICache` of the (word-aligned) instruction in
that line returns the state unchanged when every memory byte of the line
equals its cached copy, and aborts with a failed CHECK as soon as one byte
differs. -/
theorem C12_valid_line_is_compared (s : Simulator) (instr : Instruction)
    (haddr : instr.addr < 4294967296) (hal : instr.addr % 4 = 0)
    (hvalid : lineValidity s.i_cache instr.addr = some CachePage.LINE_VALID) :
    ((∀ i, i < CachePage.kLineLength →
        cachedByte s.i_cache (instr.addr + i) = some (s.byteAt (instr.addr + i))) →
      CheckICache s instr = .ok s) ∧
    ((∃ i, i < CachePage.kLineLength ∧
        cachedByte s.i_cache (instr.addr + i) ≠ some (s.byteAt (instr.addr + i))) →
      CheckICache s instr = .error .check_failed) := by
  rw [lineValidity_eq _ _ haddr] at hvalid
  cases hc : s.i_cache (instr.addr / 4096 * 4096) with
  | none => rw [hc] at hvalid; simp at hvalid
  | some pg =>
    rw [hc] at hvalid
    have hv : pg.validity_map_ (instr.addr % 4096 / 4) = CachePage.LINE_VALID := by
      simpa using hvalid
    rw [CheckICache_valid s instr haddr pg hc hv]
    have hcb : ∀ i, i < 4 →
        cachedByte s.i_cache (instr.addr + i) = some (pg.data_ (instr.addr % 4096 + i) % 256) := by
      intro i hi
      have hlt : instr.addr + i < 4294967296 := by omega
      have hpage : (instr.addr + i) / 4096 * 4096 = instr.addr / 4096 * 4096 := by omega
      have hoff : (instr.addr + i) % 4096 = instr.addr % 4096 + i := by omega
      rw [cachedByte_eq _ _ hlt, hpage, hoff, hc]
    constructor
    · intro h
      rw [if_pos]
      rw [instrMatchesCache_iff]
      intro i hi
      have h1 := h i hi
      rw [hcb i hi] at h1
      exact (Option.some.inj h1).symm
    · rintro ⟨i, hi, hne⟩
      rw [if_neg]
      rw [instrMatchesCache_iff]
      intro hall
      apply hne
      rw [hcb i hi, hall i hi]

/-- C12 at a concrete input: a VALID line caching the bytes 7 over zero
memory makes `CheckICache` abort. -/
theorem C12_witness :
    CheckICache exampleStaleCache ⟨4096, 0⟩ = .error .check_failed :=
  (C12_valid_line_is_compared exampleStaleCache ⟨4096, 0⟩ (by decide) (by decide)
    (by decide)).2 ⟨0, by decide, by decide⟩

/-! ## The bridge to host functions (C13) -/

theorem switch_TWI (s : Simulator) (instr : Instruction) (h : instr.OpcodeValue = 3) :
    InstructionDecode_switch s instr = SoftwareInterrupt s instr := by
  simp [InstructionDecode_switch, h, TWI]

/-- Flushing one aligned instruction word returns. -/
theorem FlushICache_word (fuel : Nat) (c : Nat → Option CachePage) (a : Nat)
    (h4 : a % 4 = 0) (hfit : a + 4 ≤ 4294967296) :
    ∃ c', FlushICache fuel c a Instruction.kInstrSize = .ok c' ∧
      ∀ x, a ≤ x → x < a + 4 → lineValidity c' x = some CachePage.LINE_INVALID := by
  have ha : a < 4294967296 := by omega
  have hintra : a &&& CachePage.kLineMask = 0 := by
    rw [kLineMask_eq, and_lineMask]; exact h4
  have hstart : sub32 a 0 = a := by unfold sub32 ofInt32; omega
  have hsize : add32 (sub32 (add32 Instruction.kInstrSize 0) 1 ||| CachePage.kLineMask) 1 = 4 := by
    decide
  have hone : AllOnOnePage a (sub32 4 1) = true := by
    rw [AllOnOnePage_iff _ _ ha]
    have : sub32 4 1 = 3 := by decide
    rw [this]
    simp only [decide_eq_true_eq]
    omega
  obtain ⟨c', hf, _, hcov⟩ := FlushOnePage_spec c a 4 ha h4 (by decide) (by decide) (by omega)
  refine ⟨c', ?_, hcov⟩
  unfold FlushICache
  simp only []
  rw [hintra, hstart, hsize, FlushICacheLoop_done _ _ _ _ _ hone]
  simp only []
  rw [if_pos (by decide)]
  exact hf

theorem Redirection_Get_found (fuel : Nat) (s : Simulator) (l : List Redirection)
    (this f t : Nat) (r0 : Redirection)
    (h : l.find? (fun current => current.external_function_ == f) = some r0) :
    Redirection.Get fuel s l this f t = .ok (r0, l, s) := by
  simp [Redirection.Get, h]

theorem Redirection_Get_new (fuel : Nat) (s : Simulator) (l : List Redirection)
    (this f t : Nat)
    (h : l.find? (fun current => current.external_function_ == f) = none)
    (h4 : this % 4 = 0) (hfit : this + 16 ≤ 4294967296) :
    ∃ r s1, Redirection.Get fuel s l this f t = .ok (r, r :: l, s1) ∧
      r.address = this ∧ r.external_function_ = f ∧ r.type_ = t := by
  have hsw : Redirection.address_of_swi_instruction
      { address := this, external_function_ := f,
        swi_instruction_ := rtCallRedirInstr ||| kCallRtRedirected, type_ := t } = this + 4 := by
    unfold Redirection.address_of_swi_instruction add32 Redirection.kSwiOffset
    simp only []
    omega
  obtain ⟨c', hf, _⟩ := FlushICache_word fuel
    (WriteW (WriteW (WriteW (WriteW s this f) (add32 this 4)
      (rtCallRedirInstr ||| kCallRtRedirected)) (add32 this 8) t) (add32 this 12)
      (simulator_redirection_pointer l)).i_cache (this + 4) (by omega) (by omega)
  simp only [Redirection.Get, h, Redirection.new, hsw, hf]
  exact ⟨_, _, rfl, rfl, rfl, rfl⟩

theorem Redirection_new_ok (fuel : Nat) (s s1 : Simulator) (l l1 : List Redirection)
    (this f t : Nat) (r : Redirection)
    (h : Redirection.new fuel s l this f t = .ok (r, l1, s1)) :
    l1 = r :: l ∧ r.address = this ∧ r.external_function_ = f ∧ r.type_ = t := by
  unfold Redirection.new at h
  simp only [] at h
  generalize FlushICache _ _ _ _ = res at h
  cases res with
  | error e => simp at h
  | ok c =>
    simp only [Except.ok.injEq, Prod.mk.injEq] at h
    obtain ⟨hr, hl, _⟩ := h
    subst hr
    exact ⟨hl.symm, rfl, rfl, rfl⟩

theorem RedirectExternalReference_ok (fuel : Nat) (s s1 : Simulator)
    (l l1 : List Redirection) (this g t a : Nat)
    (h : RedirectExternalReference fuel s l this g t = .ok (a, l1, s1)) :
    ∃ r, Redirection.Get fuel s l this g t = .ok (r, l1, s1) ∧
      a = r.address_of_swi_instruction := by
  unfold RedirectExternalReference at h
  generalize Redirection.Get fuel s l this g t = res at h
  cases res with
  | error e => simp at h
  | ok x =>
    obtain ⟨r, l', s'⟩ := x
    simp only [Except.ok.injEq, Prod.mk.injEq] at h
    obtain ⟨h1, h2, h3⟩ := h
    subst h2 h3
    exact ⟨r, rfl, h1.symm⟩

/-- A call for any function keeps the list a suffix of the new list and keeps
the record every function already has. -/
theorem RedirectExternalReference_keeps (fuel : Nat) (s s1 : Simulator)
    (l l1 : List Redirection) (this g t a : Nat)
    (h : RedirectExternalReference fuel s l this g t = .ok (a, l1, s1)) :
    l <:+ l1 ∧ l1.length ≤ l.length + 1 ∧
      ∀ f r0, l.find? (fun current => current.external_function_ == f) = some r0 →
        l1.find? (fun current => current.external_function_ == f) = some r0 := by
  obtain ⟨r, h, _⟩ := RedirectExternalReference_ok fuel s s1 l l1 this g t a h
  unfold Redirection.Get at h
  cases hg : l.find? (fun current => current.external_function_ == g) with
  | some r1 =>
    rw [hg] at h
    simp only [Except.ok.injEq, Prod.mk.injEq] at h
    obtain ⟨_, hl, _⟩ := h
    subst hl
    exact ⟨List.suffix_refl _, by omega, fun _ _ h => h⟩
  | none =>
    rw [hg] at h
    simp only [] at h
    obtain ⟨hl, _, hrf, _⟩ := Redirection_new_ok fuel s s1 l l1 this g t r h
    subst hl
    refine ⟨List.suffix_cons _ _, by simp, ?_⟩
    intro f r0 hf
    have hne : g ≠ f := by
      intro e
      rw [e, hf] at hg
      simp at hg
    rw [List.find?_cons]
    have : ((r.external_function_ == f) = false) := by rw [hrf]; simpa using hne
    simp only [this]
    exact hf

theorem redirectAll_keeps (fuel : Nat) (reqs : List (Nat × Nat × Nat)) :
    ∀ (s s2 : Simulator) (l l2 : List Redirection),
      redirectAll fuel s l reqs = .ok (l2, s2) →
      l <:+ l2 ∧
      ∀ f r0, l.find? (fun current => current.external_function_ == f) = some r0 →
        l2.find? (fun current => current.external_function_ == f) = some r0 := by
  induction reqs with
  | nil =>
    intro s s2 l l2 h
    simp only [redirectAll, Except.ok.injEq, Prod.mk.injEq] at h
    obtain ⟨hl, _⟩ := h
    subst hl
    exact ⟨List.suffix_refl _, fun _ _ h => h⟩
  | cons req rest ih =>
    intro s s2 l l2 h
    obtain ⟨this, g, t⟩ := req
    simp only [redirectAll] at h
    cases hr : RedirectExternalReference fuel s l this g t with
    | error e => rw [hr] at h; simp at h
    | ok res =>
      obtain ⟨a, l1, s1⟩ := res
      rw [hr] at h
      simp only [] at h
      obtain ⟨k1, k2, k3⟩ := RedirectExternalReference_keeps fuel s s1 l l1 this g t a hr
      obtain ⟨j1, j2⟩ := ih s1 s2 l1 l2 h
      exact ⟨k1.trans j1, fun f r0 hf => j2 f r0 (k3 f r0 hf)⟩

/-- C14: `RedirectExternalReference(f, t)` returns (a new record is allocated
at a word-aligned address `this`).  When the list has no record for `f` the
call adds exactly one record, for `f`, at the head of the list, and returns
the address of its trap word, `this + 4`; when it has one, list and state are
unchanged.  After any further sequence of `RedirectExternalReference` calls
the list still ends with the earlier lists, so no record was removed, and
every later call for `f` returns the same surrogate address and leaves list
and state unchanged. -/
theorem C14_redirections_are_interned (fuel : Nat) (s : Simulator) (l : List Redirection)
    (this f t : Nat) (h4 : this % 4 = 0) (hfit : this + 16 ≤ 4294967296) :
    ∃ a l1 s1, RedirectExternalReference fuel s l this f t = .ok (a, l1, s1) ∧
      (l.find? (fun current => current.external_function_ == f) = none →
        ∃ r, l1 = r :: l ∧ r.external_function_ = f ∧ a = this + 4) ∧
      (∀ r0, l.find? (fun current => current.external_function_ == f) = some r0 →
        l1 = l ∧ s1 = s ∧ a = r0.address_of_swi_instruction) ∧
      ∀ reqs fuel2 l2 s2, redirectAll fuel2 s1 l1 reqs = .ok (l2, s2) →
        l <:+ l2 ∧ l1 <:+ l2 ∧
        ∀ fuel3 this3 t3,
          RedirectExternalReference fuel3 s2 l2 this3 f t3 = .ok (a, l2, s2) := by
  have later : ∀ (a : Nat) (l1 : List Redirection) (s1 : Simulator) (r : Redirection),
      l <:+ l1 →
      l1.find? (fun current => current.external_function_ == f) = some r →
      a = r.address_of_swi_instruction →
      ∀ reqs fuel2 l2 s2, redirectAll fuel2 s1 l1 reqs = .ok (l2, s2) →
        l <:+ l2 ∧ l1 <:+ l2 ∧
        ∀ fuel3 this3 t3,
          RedirectExternalReference fuel3 s2 l2 this3 f t3 = .ok (a, l2, s2) := by
    intro a l1 s1 r hsuf hfind ha reqs fuel2 l2 s2 hall
    obtain ⟨j1, j2⟩ := redirectAll_keeps fuel2 reqs s1 s2 l1 l2 hall
    refine ⟨hsuf.trans j1, j1, ?_⟩
    intro fuel3 this3 t3
    unfold RedirectExternalReference
    rw [Redirection_Get_found fuel3 s2 l2 this3 f t3 r (j2 f r hfind), ha]
  cases hfind : l.find? (fun current => current.external_function_ == f) with
  | some r0 =>
    refine ⟨r0.address_of_swi_instruction, l, s, ?_, ?_, ?_, ?_⟩
    · unfold RedirectExternalReference
      rw [Redirection_Get_found fuel s l this f t r0 hfind]
    · intro h; simp at h
    · intro r1 h
      simp only [Option.some.injEq] at h
      subst h
      exact ⟨rfl, rfl, rfl⟩
    · exact later _ l s r0 (List.suffix_refl _) hfind rfl
  | none =>
    obtain ⟨r, s1, hget, hra, hrf, _⟩ := Redirection_Get_new fuel s l this f t hfind h4 hfit
    have haddr : r.address_of_swi_instruction = this + 4 := by
      unfold Redirection.address_of_swi_instruction add32 Redirection.kSwiOffset
      rw [hra]
      omega
    have hfind1 : (r :: l).find? (fun current => current.external_function_ == f) = some r := by
      rw [List.find?_cons]
      simp [hrf]
    refine ⟨this + 4, r :: l, s1, ?_, ?_, ?_, ?_⟩
    · unfold RedirectExternalReference
      rw [hget]
      simp only [haddr]
    · intro _
      exact ⟨r, rfl, hrf, rfl⟩
    · intro r1 h; simp at h
    · exact later _ (r :: l) s1 r (List.suffix_cons _ _) hfind1 haddr.symm

/-- C14 at a concrete input: the first redirection of host function 12345
into an empty list, and a second request for it. -/
theorem C14_witness :
    ∃ a l1 s1, RedirectExternalReference 0 (exampleState []) [] 8192 12345 0 = .ok (a, l1, s1) ∧
      a = 8196 ∧ l1.length = 1 ∧
      RedirectExternalReference 0 s1 l1 12288 12345 5 = .ok (a, l1, s1) := by
  obtain ⟨a, l1, s1, h, hnew, _, hlater⟩ :=
    C14_redirections_are_interned 0 (exampleState []) [] 8192 12345 0 (by decide) (by decide)
  obtain ⟨r, hl, _, ha⟩ := hnew rfl
  refine ⟨a, l1, s1, h, ha, by rw [hl]; rfl, ?_⟩
  exact (hlater [] 0 l1 s1 rfl).2.2 0 12288 5

/-! ## Construction (C15) -/

theorem DecodeExt2_MFSPR (s : Simulator) (instr : Instruction) (h10 : instr.Bits 10 1 = 339)
    (hspr : instr.Bits 20 11 = 256) :
    DecodeExt2 s instr = .ok (set_register s instr.RTValue s.special_reg_lr_) := by
  have h9 : instr.Bits 9 1 = 339 := by rw [Bits_9_1_eq, h10]
  simp [DecodeExt2, h10, h9, hspr, SRWX, SRAW, SRAWIX, CMP, SUBFCX, ADDCX, SLWX, ANDX, CMPL,
    SUBFX, ADDZEX, MULLW, ADDX, XORX, ORX, MFSPR]

/-- One retired `mflr r3` (MFSPR of SPR 256 into r3). -/
theorem InstructionDecode_mflr (s : Simulator) (instr : Instruction)
    (hic : s.flags.check_icache = false) (hop : instr.OpcodeValue = 31)
    (h10 : instr.Bits 10 1 = 339) (hspr : instr.Bits 20 11 = 256) (hrt : instr.RTValue = 3) :
    InstructionDecode s instr =
      .ok (set_register (set_register { s with pc_modified_ := false } 3 s.special_reg_lr_) pc
        (add32 instr.addr Instruction.kInstrSize)) := by
  have e : InstructionDecode_execute s instr =
      .ok (set_register { s with pc_modified_ := false } 3 s.special_reg_lr_) := by
    rw [InstructionDecode_execute_no_icache s instr hic, switch_EXT2 _ _ hop,
      DecodeExt2_MFSPR _ _ h10 hspr, hrt]
  simp [InstructionDecode, e, set_register, pc]

/-- C15: what the constructor leaves.  The link register that the executors
read, `special_reg_lr_`, is 0 and not `bad_lr`: the sentinel is stored into
slot `lr` of the general register file instead.  The PC is `bad_lr`, the
condition and count registers are 0, and every general register other than
the stack pointer, the PC slot and slot `lr` is 0.  Run first on the new
simulator, `mflr r3` (`0x7C6802A6`) puts 0 into r3 and `blr` (`0x4E800020`)
sets the PC to 0. -/
theorem C15_link_register_starts_at_zero (raw : Simulator) (stack_ lr num_s_registers : Nat)
    (a : Nat) :
    (Simulator.new raw stack_ lr num_s_registers).special_reg_lr_ = 0 ∧
    (Simulator.new raw stack_ lr num_s_registers).special_reg_lr_ ≠ bad_lr ∧
    get_pc (Simulator.new raw stack_ lr num_s_registers) = bad_lr ∧
    (Simulator.new raw stack_ lr num_s_registers).registers_ lr = bad_lr ∧
    (Simulator.new raw stack_ lr num_s_registers).condition_reg_ = 0 ∧
    (Simulator.new raw stack_ lr num_s_registers).special_reg_ctr_ = 0 ∧
    (∀ r, r < num_registers → r ≠ sp → r ≠ pc → r ≠ lr →
      get_register (Simulator.new raw stack_ lr num_s_registers) r = 0) ∧
    (raw.flags.check_icache = false →
      (∃ s', InstructionDecode (Simulator.new raw stack_ lr num_s_registers) ⟨a, 2087191206⟩
          = .ok s' ∧ get_register s' 3 = 0) ∧
      (∃ s', InstructionDecode (Simulator.new raw stack_ lr num_s_registers) ⟨a, 1317011488⟩
          = .ok s' ∧ get_pc s' = 0)) := by
  refine ⟨rfl, ?_, ?_, ?_, rfl, rfl, ?_, ?_⟩
  · show (0 : Nat) ≠ bad_lr
    decide
  · simp only [get_pc, Simulator.new, Function.update]
    by_cases h : pc = lr <;> simp [h]
  · simp [Simulator.new]
  · intro r hr h1 h2 h3
    simp [get_register, Simulator.new, Function.update, hr, h1, h2, h3]
  · intro hic
    constructor
    · refine ⟨_, InstructionDecode_mflr _ ⟨a, 2087191206⟩ hic ?_ ?_ ?_ ?_, ?_⟩
      · show Instruction.OpcodeValue ⟨0, 2087191206⟩ = 31; decide
      · show Instruction.Bits ⟨0, 2087191206⟩ 10 1 = 339; decide
      · show Instruction.Bits ⟨0, 2087191206⟩ 20 11 = 256; decide
      · show Instruction.RTValue ⟨0, 2087191206⟩ = 3; decide
      · simp [get_register, set_register, Function.update, num_registers, pc, Simulator.new]
    · refine ⟨_, InstructionDecode_blr _ ⟨a, 1317011488⟩ hic ?_ ?_ ?_, ?_⟩
      · show Instruction.OpcodeValue ⟨0, 1317011488⟩ = 19; decide
      · show Instruction.Bits ⟨0, 1317011488⟩ 10 1 = 16; decide
      · show Instruction.Bit ⟨0, 1317011488⟩ 0 = 0; decide
      · simp [get_pc, set_pc, Simulator.new]

/-! ## The loop test of `Execute` (C16) -/

/-- C16, counterexample: with the PC at `bad_lr`, where `has_bad_pc` holds,
`Execute` does not return the state as it found it: it fetches the word at the
PC (zero here) and hands it to the decoder, which stops on the unimplemented
opcode. -/
theorem C16_bad_lr_is_fetched :
    has_bad_pc exampleBadPcState = true ∧ get_pc exampleBadPcState = bad_lr ∧
      Execute 1 exampleBadPcState = .error .unimplemented ∧
      Execute 1 exampleBadPcState ≠ .ok exampleBadPcState := by
  have h : Execute 1 exampleBadPcState = .error .unimplemented := by
    rw [Execute_step 0 exampleBadPcState (by decide) rfl]
    have hf : fetch exampleBadPcState (get_pc exampleBadPcState) = ⟨bad_lr, 0⟩ := by
      have h1 : get_pc exampleBadPcState = bad_lr := by decide
      have h2 : ReadW exampleBadPcState bad_lr = 0 := by decide
      unfold fetch
      rw [h1, h2]
    rw [hf]
    have hd : InstructionDecode { exampleBadPcState with
        icount_ := add32 exampleBadPcState.icount_ 1 } ⟨bad_lr, 0⟩ = .error .unimplemented := by
      have e : InstructionDecode_execute { exampleBadPcState with
          icount_ := add32 exampleBadPcState.icount_ 1 } ⟨bad_lr, 0⟩ = .error .unimplemented := by
        rw [InstructionDecode_execute_no_icache _ _ rfl]
        simp [InstructionDecode_switch, Instruction.OpcodeValue, Instruction.Bits, TWI, MULLI,
          SUBFIC, CMPLI, CMPI, ADDIC, ADDICx, ADDI, ADDIS, BCX, SC, BX, EXT1, RLWIMIX, RLWINMX,
          RLWNMX, ORI, ORIS, XORI, XORIS, ANDIx, ANDISx, EXT2, LWZ, LWZU, LBZ, LBZU, STW, STWU,
          STB, STBU, LHZ, LHZU, LHA, LHAU, STH, STHU, LMW, STMW, LFS, LFSU, LFD, LFDU, STFS,
          STFSU, STFD, STFDU, EXT3, EXT4]
      simp [InstructionDecode, e]
    rw [hd]
  refine ⟨by decide, by decide, h, ?_⟩
  rw [h]
  simp

/-- C16, amended: `Execute` returns without fetching when the PC equals
`end_sim_pc`, whatever the iteration budget; at every other PC it counts an
instruction and executes the word fetched at the PC (or, when
`FLAG_stop_sim_at` is set and reached, enters the debugger) before testing
again; `bad_lr` is such a PC although `has_bad_pc` holds there. -/
theorem C16_loop_exits_only_at_end_sim_pc (fuel : Nat) (s : Simulator) :
    (get_pc s = end_sim_pc → Execute fuel s = .ok s) ∧
    (get_pc s ≠ end_sim_pc →
      Execute (fuel + 1) s =
        if s.flags.stop_sim_at ≠ 0 ∧ add32 s.icount_ 1 = s.flags.stop_sim_at then
          .error (.debugger { s with icount_ := add32 s.icount_ 1 })
        else
          match InstructionDecode { s with icount_ := add32 s.icount_ 1 }
              (fetch s (get_pc s)) with
          | .error e => .error e
          | .ok s2 => Execute fuel s2) ∧
    (get_pc s = bad_lr → has_bad_pc s = true ∧ get_pc s ≠ end_sim_pc) := by
  refine ⟨Execute_at_end fuel s, ?_, ?_⟩
  · intro h
    rw [Execute]
    simp only [if_neg h]
  · intro h
    constructor
    · unfold get_pc at h
      simp [has_bad_pc, h]
    · rw [h]; decide

/-- C16 at a concrete input: at `end_sim_pc` the loop returns at once. -/
theorem C16_witness : Execute 0 exampleEndState = .ok exampleEndState :=
  (C16_loop_exits_only_at_end_sim_pc 0 exampleEndState).1 (by decide)

/-! ## Alignment of the PC (C17) and branches (C20) -/

theorem branch_offset_aligned_24 (x : Nat) : asr32 (shl32 x 8) 6 % 4 = 0 := by
  unfold asr32 shl32 ofInt32 toInt32
  rw [Nat.shiftLeft_eq, Int.shiftRight_eq_div_pow]
  split <;> omega

theorem branch_offset_aligned_14 (x : Nat) : asr32 (shl32 x 18) 16 % 4 = 0 := by
  unfold asr32 shl32 ofInt32 toInt32
  rw [Nat.shiftLeft_eq, Int.shiftRight_eq_div_pow]
  split <;> omega

theorem add32_aligned (a b : Nat) (ha : a % 4 = 0) (hb : b % 4 = 0) : add32 a b % 4 = 0 := by
  unfold add32; omega

theorem CheckICache_ok_state (s s0 : Simulator) (instr : Instruction)
    (h : CheckICache s instr = .ok s0) : s0 = { s with i_cache := s0.i_cache } := by
  unfold CheckICache at h
  simp only [] at h
  split at h
  · split at h
    · simp only [Except.ok.injEq] at h
      rw [← h]
    · simp at h
  · simp only [Except.ok.injEq] at h
    rw [← h]

/-- What a completed `InstructionDecode` consists of: the executor ran on the
state with the latch cleared (and possibly a reloaded I-cache), and the PC was
advanced when the latch was still clear. -/
theorem InstructionDecode_ok_parts (s s' : Simulator) (instr : Instruction)
    (h : InstructionDecode s instr = .ok s') :
    ∃ c s2, InstructionDecode_execute s instr = .ok s2 ∧
      InstructionDecode_switch { s with i_cache := c, pc_modified_ := false } instr = .ok s2 ∧
      s' = if s2.pc_modified_ = false then
          set_register s2 pc (add32 instr.addr Instruction.kInstrSize)
        else s2 := by
  unfold InstructionDecode at h
  cases he : InstructionDecode_execute s instr with
  | error e => rw [he] at h; simp at h
  | ok s2 =>
    rw [he] at h
    have hs' : s' = if s2.pc_modified_ = false then
          set_register s2 pc (add32 instr.addr Instruction.kInstrSize)
        else s2 := by
      cases hm : s2.pc_modified_ <;> simp [hm] at h ⊢ <;> exact h.symm
    cases hic : s.flags.check_icache with
    | true =>
      unfold InstructionDecode_execute at he
      simp only [hic, if_true] at he
      cases hc : CheckICache s instr with
      | error e => rw [hc] at he; simp at he
      | ok s0 =>
        rw [hc] at he
        simp only [] at he
        have e0 := CheckICache_ok_state s s0 instr hc
        have es : ({ s0 with pc_modified_ := false } : Simulator) =
            { s with i_cache := s0.i_cache, pc_modified_ := false } :=
          congrArg (fun t : Simulator => { t with pc_modified_ := false }) e0
        rw [es] at he
        exact ⟨s0.i_cache, s2, rfl, he, hs'⟩
    | false =>
      rw [InstructionDecode_execute_no_icache s instr hic] at he
      exact ⟨s.i_cache, s2, rfl, he, hs'⟩

theorem switch_BX (s : Simulator) (instr : Instruction) (h : instr.OpcodeValue = 18) :
    InstructionDecode_switch s instr =
      .ok (set_pc (if instr.Bit 0 = 1 then { s with special_reg_lr_ := add32 (get_pc s) 4 } else s)
        (add32 (get_pc s) (asr32 (shl32 (instr.Bits 25 2) 8) 6))) := by
  by_cases hb : instr.Bit 0 = 1 <;>
  simp [InstructionDecode_switch, h, hb, get_pc, TWI, MULLI, SUBFIC, CMPLI, CMPI, ADDIC, ADDICx,
    ADDI, ADDIS, BCX, SC, BX]

theorem switch_BCX (s : Simulator) (instr : Instruction) (h : instr.OpcodeValue = 16) :
    InstructionDecode_switch s instr = case_BCX s instr := by
  simp [InstructionDecode_switch, h, TWI, MULLI, SUBFIC, CMPLI, CMPI, ADDIC, ADDICx,
    ADDI, ADDIS, BCX]

theorem case_BCX_ok (s s2 : Simulator) (instr : Instruction) (h : case_BCX s instr = .ok s2) :
    s2 = s ∨ s2 = set_pc s (add32 (get_pc s) (asr32 (shl32 (instr.Bits 15 2) 18) 16)) := by
  unfold case_BCX at h
  simp only [] at h
  split_ifs at h <;> simp only [Except.ok.injEq, reduceCtorEq] at h <;>
    first
    | exact Or.inl h.symm
    | exact Or.inr h.symm

theorem DecodeExt1_BCLRX_pc (s s2 : Simulator) (instr : Instruction)
    (hx : instr.Bits 10 1 = 16) (h : DecodeExt1 s instr = .ok s2) :
    get_pc s2 = s.special_reg_lr_ ∧ s2.pc_modified_ = true := by
  by_cases hb : instr.Bit 0 = 1 <;>
  · simp [DecodeExt1, hx, hb, MCRF, BCLRX] at h
    rw [← h]
    simp [get_pc, set_pc]

theorem DecodeExt1_BCCTRX_pc (s s2 : Simulator) (instr : Instruction)
    (hx : instr.Bits 10 1 = 528) (h : DecodeExt1 s instr = .ok s2) :
    get_pc s2 = s.special_reg_ctr_ ∧ s2.pc_modified_ = true := by
  by_cases hb : instr.Bit 0 = 1 <;>
  · simp [DecodeExt1, hx, hb, MCRF, BCLRX, BCCTRX] at h
    rw [← h]
    simp [get_pc, set_pc]

theorem SoftwareInterrupt_redirected_pc (s s2 : Simulator) (instr : Instruction)
    (hsvc : instr.SvcValue = kCallRtRedirected) (h : SoftwareInterrupt s instr = .ok s2) :
    get_pc s2 = s.special_reg_lr_ ∧ s2.pc_modified_ = true := by
  unfold SoftwareInterrupt at h
  simp only [hsvc, if_true] at h
  split_ifs at h <;> simp only [Except.ok.injEq, reduceCtorEq] at h <;>
    (rw [← h]; simp [get_pc, set_pc])

/-- One retired `b` / `bl`: the link register is written when LK is set and the
PC moves by the shifted LI field. -/
theorem InstructionDecode_BX (s : Simulator) (instr : Instruction)
    (hic : s.flags.check_icache = false) (hop : instr.OpcodeValue = 18) :
    InstructionDecode s instr =
      .ok (set_pc
        (if instr.Bit 0 = 1 then
          { s with pc_modified_ := false, special_reg_lr_ := add32 (get_pc s) 4 }
        else { s with pc_modified_ := false })
        (add32 (get_pc s) (asr32 (shl32 (instr.Bits 25 2) 8) 6))) := by
  have e : InstructionDecode_execute s instr =
      .ok (set_pc
        (if instr.Bit 0 = 1 then
          { s with pc_modified_ := false, special_reg_lr_ := add32 (get_pc s) 4 }
        else { s with pc_modified_ := false })
        (add32 (get_pc s) (asr32 (shl32 (instr.Bits 25 2) 8) 6))) := by
    rw [InstructionDecode_execute_no_icache s instr hic, switch_BX _ _ hop]
    rfl
  simp [InstructionDecode, e, set_pc]

theorem branch_offset_24 (li : Nat) (pcv : Nat) (hli : li < 16777216) (_hpc : pcv < 4294967296) :
    add32 pcv (asr32 (shl32 li 8) 6) =
      ofInt32 ((pcv : Int) + 4 * (if li < 8388608 then (li : Int) else (li : Int) - 16777216)) := by
  unfold add32 asr32 shl32 ofInt32 toInt32
  rw [Nat.shiftLeft_eq, Int.shiftRight_eq_div_pow]
  split <;> split <;> omega

theorem Bits_25_2_lt (instr : Instruction) : instr.Bits 25 2 < 16777216 := by
  have h := Bits_le instr 25 2
  have e : (2 <<< (25 - 2)) - 1 = 16777215 := by decide
  omega


/-- C17, counterexample: from the aligned PC `0x1000`, `blr` with the link
register at `end_sim_pc`, where `Call` parks it, completes and leaves the PC
at `0xFFFFFFFE`, which is not a multiple of 4. -/
theorem C17_blr_leaves_unaligned_pc :
    get_pc exampleReturnState % 4 = 0 ∧
    ∃ s', InstructionDecode exampleReturnState
        (fetch exampleReturnState (get_pc exampleReturnState)) = .ok s' ∧
      get_pc s' = end_sim_pc ∧ get_pc s' % 4 ≠ 0 := by
  have hf : fetch exampleReturnState (get_pc exampleReturnState) = ⟨4096, 1317011488⟩ := by
    have h1 : get_pc exampleReturnState = 4096 := by decide
    have h2 : ReadW exampleReturnState 4096 = 1317011488 := by decide
    unfold fetch
    rw [h1, h2]
  rw [hf]
  refine ⟨by decide, _, InstructionDecode_blr exampleReturnState ⟨4096, 1317011488⟩ rfl
    (by decide) (by decide) (by decide), ?_, ?_⟩
  · simp [get_pc, set_pc, exampleReturnState]
  · simp [get_pc, set_pc, exampleReturnState, end_sim_pc]

/-- C17, amended: for a completed `InstructionDecode` of an instruction at an
aligned address from an aligned PC, the new PC is a multiple of 4 when the
executor did not write the PC (it is the instruction address plus 4) and
after the relative branches B and BC; after BCLR, BCCTR and the bridge trap
it is the link register, the count register or the saved link register as
found, aligned or not. -/
theorem C17_pc_alignment_by_instruction (s s' : Simulator) (instr : Instruction)
    (h : InstructionDecode s instr = .ok s')
    (hal : instr.addr % 4 = 0) (hpc : get_pc s % 4 = 0) :
    (∀ s2, InstructionDecode_execute s instr = .ok s2 → s2.pc_modified_ = false →
      get_pc s' = add32 instr.addr 4 ∧ get_pc s' % 4 = 0) ∧
    (instr.OpcodeValue = 18 ∨ instr.OpcodeValue = 16 → get_pc s' % 4 = 0) ∧
    (instr.OpcodeValue = 19 → instr.Bits 10 1 = 16 → get_pc s' = s.special_reg_lr_) ∧
    (instr.OpcodeValue = 19 → instr.Bits 10 1 = 528 → get_pc s' = s.special_reg_ctr_) ∧
    (instr.OpcodeValue = 3 → instr.SvcValue = kCallRtRedirected →
      get_pc s' = s.special_reg_lr_) := by
  obtain ⟨c, s2, he, hsw, hs'⟩ := InstructionDecode_ok_parts s s' instr h
  have hnext : add32 instr.addr 4 % 4 = 0 := add32_aligned _ _ hal rfl
  have hadv : s2.pc_modified_ = false → get_pc s' = add32 instr.addr 4 := by
    intro hm
    rw [hs', if_pos hm]
    simp [get_pc, set_register, Instruction.kInstrSize]
  have hkeep : s2.pc_modified_ = true → s' = s2 := by
    intro hm
    rw [hs', if_neg (by simp [hm])]
  refine ⟨?_, ?_, ?_, ?_, ?_⟩
  · intro s3 he3 hm
    rw [he] at he3
    simp only [Except.ok.injEq] at he3
    subst he3
    exact ⟨hadv hm, by rw [hadv hm]; exact hnext⟩
  · rintro (hop | hop)
    · rw [switch_BX _ _ hop] at hsw
      simp only [Except.ok.injEq] at hsw
      have hm : s2.pc_modified_ = true := by rw [← hsw]; rfl
      rw [hkeep hm, ← hsw]
      have : get_pc (set_pc
          (if instr.Bit 0 = 1 then
            { ({ s with i_cache := c, pc_modified_ := false } : Simulator) with
              special_reg_lr_ := add32
                (get_pc ({ s with i_cache := c, pc_modified_ := false } : Simulator)) 4 }
          else ({ s with i_cache := c, pc_modified_ := false } : Simulator))
          (add32 (get_pc ({ s with i_cache := c, pc_modified_ := false } : Simulator))
            (asr32 (shl32 (instr.Bits 25 2) 8) 6))) =
          add32 (get_pc s) (asr32 (shl32 (instr.Bits 25 2) 8) 6) := by
        simp [get_pc, set_pc]
      rw [this]
      exact add32_aligned _ _ hpc (branch_offset_aligned_24 _)
    · rw [switch_BCX _ _ hop] at hsw
      rcases case_BCX_ok _ _ _ hsw with h2 | h2
      · have hm : s2.pc_modified_ = false := by rw [h2]
        rw [hadv hm]
        exact hnext
      · have hm : s2.pc_modified_ = true := by rw [h2]; rfl
        rw [hkeep hm, h2]
        have : get_pc (set_pc ({ s with i_cache := c, pc_modified_ := false } : Simulator)
            (add32 (get_pc ({ s with i_cache := c, pc_modified_ := false } : Simulator))
              (asr32 (shl32 (instr.Bits 15 2) 18) 16))) =
            add32 (get_pc s) (asr32 (shl32 (instr.Bits 15 2) 18) 16) := by
          simp [get_pc, set_pc]
        rw [this]
        exact add32_aligned _ _ hpc (branch_offset_aligned_14 _)
  · intro hop hx
    rw [switch_EXT1 _ _ hop] at hsw
    obtain ⟨h1, hm⟩ := DecodeExt1_BCLRX_pc _ _ _ hx hsw
    rw [hkeep hm, h1]
  · intro hop hx
    rw [switch_EXT1 _ _ hop] at hsw
    obtain ⟨h1, hm⟩ := DecodeExt1_BCCTRX_pc _ _ _ hx hsw
    rw [hkeep hm, h1]
  · intro hop hsvc
    rw [switch_TWI _ _ hop] at hsw
    obtain ⟨h1, hm⟩ := SoftwareInterrupt_redirected_pc _ _ _ hsvc hsw
    rw [hkeep hm, h1]

/-- C17 at a concrete input: `bl .+16` at `0x1000` leaves an aligned PC. -/
theorem C17_witness :
    ∃ s', InstructionDecode exampleBranchState ⟨4096, 1207959569⟩ = .ok s' ∧
      get_pc s' % 4 = 0 :=
  ⟨_, InstructionDecode_BX exampleBranchState ⟨4096, 1207959569⟩ rfl (by decide),
    (C17_pc_alignment_by_instruction exampleBranchState _ ⟨4096, 1207959569⟩
      (InstructionDecode_BX exampleBranchState ⟨4096, 1207959569⟩ rfl (by decide))
      (by decide) (by decide)).2.1 (Or.inl (by decide))⟩

/-! ## The simulated stack (C18, C19) -/

theorem switch_STWU (s : Simulator) (instr : Instruction) (h : instr.OpcodeValue = 37) :
    InstructionDecode_switch s instr =
      .ok (WriteW (if instr.RAValue ≠ 0 then set_register s instr.RAValue (effectiveAddress s instr)
          else s) (effectiveAddress s instr) (get_register s instr.RSValue)) := by
  simp [InstructionDecode_switch, h, TWI, MULLI, SUBFIC, CMPLI, CMPI, ADDIC, ADDICx, ADDI,
    ADDIS, BCX, SC, BX, EXT1, RLWIMIX, RLWINMX, RLWNMX, ORI, ORIS, XORI, XORIS, ANDIx,
    ANDISx, EXT2, LWZ, LWZU, LBZ, LBZU, STW, STWU]

theorem get_register_WriteW (s : Simulator) (a v r : Nat) :
    get_register (WriteW s a v) r = get_register s r := by
  simp [get_register, WriteW, Simulator.setByte]

/-- C18, counterexample: on a newly constructed simulator, whose stack
pointer is above `StackLimit()`, `li r1, 0` (`0x38200000`) completes and
leaves the stack pointer at 0, below `StackLimit()`; and with the stack
pointer exactly at `StackLimit()`, `PushAddress` completes and leaves it 4
bytes below.  Neither reports a stack overflow. -/
theorem C18_stack_pointer_goes_below_limit :
    (StackLimit exampleNewSimulator ≤ get_register exampleNewSimulator sp ∧
      ∃ s', InstructionDecode exampleNewSimulator ⟨4096, 941621248⟩ = .ok s' ∧
        StackLimit s' = 66560 ∧ get_register s' sp = 0 ∧ get_register s' sp < StackLimit s') ∧
    (StackLimit exampleFullStackState ≤ get_register exampleFullStackState sp ∧
      get_register (PushAddress exampleFullStackState 0).2 sp = 66556 ∧
      get_register (PushAddress exampleFullStackState 0).2 sp <
        StackLimit (PushAddress exampleFullStackState 0).2) := by
  refine ⟨⟨by decide, _, InstructionDecode_li exampleNewSimulator ⟨4096, 941621248⟩ rfl
    (by decide) (by decide) (by decide), ?_, ?_, ?_⟩, by decide, ?_, ?_⟩
  · decide
  · have h1 : Instruction.RTValue ⟨4096, 941621248⟩ = 1 := by decide
    have h2 : signExtend16 (Instruction.Bits ⟨4096, 941621248⟩ 15 0) = 0 := by decide
    rw [h1, h2]
    simp [get_register, set_register, Function.update, pc, sp, num_registers]
  · have h1 : Instruction.RTValue ⟨4096, 941621248⟩ = 1 := by decide
    have h2 : signExtend16 (Instruction.Bits ⟨4096, 941621248⟩ 15 0) = 0 := by decide
    rw [h1, h2]
    simp [get_register, set_register, Function.update, pc, sp, num_registers, StackLimit,
      exampleNewSimulator, Simulator.new, add32]
  · simp [PushAddress, get_register, set_register, Function.update, pc, sp, num_registers,
      exampleFullStackState, sub32, ofInt32]
  · simp [PushAddress, get_register, set_register, Function.update, pc, sp, num_registers,
      exampleFullStackState, sub32, ofInt32, StackLimit, add32, WriteW, Simulator.setByte]

/-- C18, amended: `StackLimit()` is the stack base plus 1024, and the
operations that write the stack pointer do not consult it: `PushAddress`
always returns the old stack pointer minus 4 and stores it in r1, and the
executors of ADDI with target r1 and of STWU with base r1 always complete
and leave in r1 the value they computed. -/
theorem C18_stack_pointer_is_written_unchecked (s : Simulator) (a : Nat) (instr : Instruction) :
    StackLimit s = add32 s.stack_ 1024 ∧
    ((PushAddress s a).1 = sub32 (get_register s sp) 4 ∧
      get_register (PushAddress s a).2 sp = sub32 (get_register s sp) 4) ∧
    (instr.OpcodeValue = 14 → instr.RTValue = sp →
      ∃ s2, InstructionDecode_switch s instr = .ok s2 ∧
        get_register s2 sp =
          if instr.RAValue = 0 then signExtend16 (instr.Bits 15 0)
          else add32 (get_register s instr.RAValue) (signExtend16 (instr.Bits 15 0))) ∧
    (instr.OpcodeValue = 37 → instr.RAValue = sp →
      ∃ s2, InstructionDecode_switch s instr = .ok s2 ∧
        get_register s2 sp = add32 (signExtend16 (instr.Bits 15 0)) (get_register s sp)) := by
  refine ⟨rfl, ⟨rfl, ?_⟩, ?_, ?_⟩
  · simp [PushAddress, get_register, set_register, Function.update, pc, sp, num_registers]
  · intro hop hrt
    refine ⟨_, switch_ADDI s instr hop, ?_⟩
    rw [hrt]
    simp [get_register, set_register, Function.update, pc, sp, num_registers]
  · intro hop hra
    refine ⟨_, switch_STWU s instr hop, ?_⟩
    have hne : instr.RAValue ≠ 0 := by rw [hra]; decide
    rw [get_register_WriteW, if_pos hne]
    simp only [effectiveAddress, hra]
    simp [get_register, set_register, Function.update, pc, sp, num_registers]

/-- C18 at a concrete input: a push with the stack pointer at the limit. -/
theorem C18_witness :
    (PushAddress exampleFullStackState 7).1 = 66556 ∧
      get_register (PushAddress exampleFullStackState 7).2 sp = 66556 := by
  obtain ⟨_, ⟨h1, h2⟩, _⟩ :=
    C18_stack_pointer_is_written_unchecked exampleFullStackState 7 ⟨0, 0⟩
  rw [h1, h2]
  decide

/-- C19: for a 32-bit address `a` and a 32-bit stack pointer, `PushAddress(a)`
returns the old stack pointer minus 4, leaves that value in the stack pointer
and the word `a` in memory there; `PopAddress()` run next returns `a` and
puts the stack pointer back to its value before the push. -/
theorem C19_push_pop_round_trip (s : Simulator) (a : Nat)
    (ha : a < 4294967296) (hsp : get_register s sp < 4294967296) :
    (PushAddress s a).1 = sub32 (get_register s sp) 4 ∧
    get_register (PushAddress s a).2 sp = sub32 (get_register s sp) 4 ∧
    ReadW (PushAddress s a).2 (sub32 (get_register s sp) 4) = a ∧
    (PopAddress (PushAddress s a).2).1 = a ∧
    get_register (PopAddress (PushAddress s a).2).2 sp = get_register s sp := by
  have hreg : get_register (PushAddress s a).2 sp = sub32 (get_register s sp) 4 := by
    simp [PushAddress, get_register, set_register, Function.update, pc, sp, num_registers]
  have hread : ∀ x, ReadW (PushAddress s a).2 x = ReadW (WriteW s (sub32 (get_register s sp) 4) a) x :=
    fun _ => rfl
  have hback : add32 (sub32 (get_register s sp) 4) 4 = get_register s sp := by
    unfold add32 sub32 ofInt32
    omega
  refine ⟨rfl, hreg, ?_, ?_, ?_⟩
  · rw [hread, ReadW_WriteW _ _ _ ha]
  · unfold PopAddress
    simp only []
    rw [hreg, hread, ReadW_WriteW _ _ _ ha]
  · unfold PopAddress
    simp only []
    rw [hreg, hback]
    simp [get_register, set_register, Function.update, pc, sp, num_registers]

/-- C19 at a concrete input: pushing `0x1000` with the stack pointer at
`0x10000`, then popping. -/
theorem C19_witness :
    (PushAddress (exampleState []) 4096).1 = 65532 ∧
    (PopAddress (PushAddress (exampleState []) 4096).2).1 = 4096 ∧
    get_register (PopAddress (PushAddress (exampleState []) 4096).2).2 sp = 65536 := by
  obtain ⟨h1, _, _, h4, h5⟩ :=
    C19_push_pop_round_trip (exampleState []) 4096 (by decide) (by decide)
  refine ⟨?_, h4, ?_⟩
  · rw [h1]; decide
  · rw [h5]; decide

/-! ## Branch with link (C20) -/

/-- C20: executing a word of primary opcode B (18) completes; the PC becomes
the old PC plus four times the sign-extended 24-bit LI field, modulo 2^32;
with LK = 1 (`bl`) the link register becomes the old PC plus 4, with LK = 0
it keeps its value; general registers, CTR, CR and memory are unchanged. -/
theorem C20_branch_and_link (s : Simulator) (instr : Instruction)
    (hic : s.flags.check_icache = false) (hop : instr.OpcodeValue = 18)
    (hpc : get_pc s < 4294967296) :
    ∃ s', InstructionDecode s instr = .ok s' ∧
      get_pc s' = ofInt32 ((get_pc s : Int) + 4 *
        (if instr.Bits 25 2 < 8388608 then (instr.Bits 25 2 : Int)
          else (instr.Bits 25 2 : Int) - 16777216)) ∧
      (instr.Bit 0 = 1 → s'.special_reg_lr_ = add32 (get_pc s) 4) ∧
      (instr.Bit 0 ≠ 1 → s'.special_reg_lr_ = s.special_reg_lr_) ∧
      (∀ r, r ≠ pc → get_register s' r = get_register s r) ∧
      s'.special_reg_ctr_ = s.special_reg_ctr_ ∧ s'.condition_reg_ = s.condition_reg_ ∧
      s'.mem = s.mem := by
  refine ⟨_, InstructionDecode_BX s instr hic hop, ?_, ?_, ?_, ?_, ?_, ?_, ?_⟩
  · rw [← branch_offset_24 _ _ (Bits_25_2_lt instr) hpc]
    simp [get_pc, set_pc]
  · intro hb
    simp [set_pc, hb]
  · intro hb
    simp [set_pc, hb]
  · intro r hr
    by_cases hb : instr.Bit 0 = 1 <;> simp [get_register, set_pc, Function.update, hr, hb]
  · by_cases hb : instr.Bit 0 = 1 <;> simp [set_pc, hb]
  · by_cases hb : instr.Bit 0 = 1 <;> simp [set_pc, hb]
  · by_cases hb : instr.Bit 0 = 1 <;> simp [set_pc, hb]

/-- C20 at a concrete input: `bl .+16` fetched at PC = `0x1000` leaves
LR = `0x1004` and PC = `0x1010`. -/
theorem C20_witness :
    ∃ s', InstructionDecode exampleBranchState
        (fetch exampleBranchState (get_pc exampleBranchState)) = .ok s' ∧
      s'.special_reg_lr_ = 4100 ∧ get_pc s' = 4112 := by
  have hf : fetch exampleBranchState (get_pc exampleBranchState) = ⟨4096, 1207959569⟩ := by
    have h1 : get_pc exampleBranchState = 4096 := by decide
    have h2 : ReadW exampleBranchState 4096 = 1207959569 := by decide
    unfold fetch
    rw [h1, h2]
  rw [hf]
  obtain ⟨s', h, hpc, hlr, _⟩ :=
    C20_branch_and_link exampleBranchState ⟨4096, 1207959569⟩ rfl (by decide) (by decide)
  refine ⟨s', h, ?_, ?_⟩
  · rw [hlr (by decide)]; decide
  · rw [hpc]; decide

/-! ## Conditional branch (C21) -/

/-- The mask `0x80000000 >> bi` selects CR bit `bi` in the Power ISA numbering. -/
theorem and_condition_mask (c bi : Nat) (hbi : bi ≤ 31) :
    (c &&& lsr32 2147483648 bi = 0) ↔ crBit c bi = false := by
  have hm : lsr32 2147483648 bi = 2 ^ (31 - bi) := by
    unfold lsr32
    rw [Nat.shiftRight_eq_div_pow]
    have : (2147483648 : Nat) % 4294967296 = 2 ^ 31 := by decide
    rw [this, Nat.pow_div hbi (by decide)]
  rw [hm, Nat.and_two_pow]
  unfold crBit
  cases h : c.testBit (31 - bi)
  · simp
  · simp

theorem Bits_25_21_lt (instr : Instruction) : instr.Bits 25 21 < 32 := by
  have h := Bits_le instr 25 21
  have e : (2 <<< (25 - 21)) - 1 = 31 := by decide
  omega

theorem Bits_20_16_le (instr : Instruction) : instr.Bits 20 16 ≤ 31 := by
  have h := Bits_le instr 20 16
  have e : (2 <<< (20 - 16)) - 1 = 31 := by decide
  omega

theorem Bits_15_2_lt (instr : Instruction) : instr.Bits 15 2 < 16384 := by
  have h := Bits_le instr 15 2
  have e : (2 <<< (15 - 2)) - 1 = 16383 := by decide
  omega

theorem branch_offset_14 (bd : Nat) (pcv : Nat) (hbd : bd < 16384) :
    add32 pcv (asr32 (shl32 bd 18) 16) =
      ofInt32 ((pcv : Int) + 4 * (if bd < 8192 then (bd : Int) else (bd : Int) - 16384)) := by
  unfold add32 asr32 shl32 ofInt32 toInt32
  rw [Nat.shiftLeft_eq, Int.shiftRight_eq_div_pow]
  split <;> split <;> omega

/-- The `BCX` body by selector. -/
theorem case_BCX_BT (s : Simulator) (instr : Instruction) (h : instr.Bits 25 21 = 12) :
    case_BCX s instr =
      if crBit s.condition_reg_ (instr.Bits 20 16) = true then
        .ok (set_pc s (add32 (get_pc s) (asr32 (shl32 (instr.Bits 15 2) 18) 16)))
      else .ok s := by
  have hc := and_condition_mask s.condition_reg_ (instr.Bits 20 16) (Bits_20_16_le instr)
  cases hb : crBit s.condition_reg_ (instr.Bits 20 16)
  · have := hc.mpr hb
    simp [case_BCX, h, DCBNZF, DCBEZF, BF, DCBNZT, DCBEZT, BT, this]
  · have : ¬ (s.condition_reg_ &&& lsr32 2147483648 (instr.Bits 20 16) = 0) := by
      intro h0; rw [hc.mp h0] at hb; cases hb
    simp [case_BCX, h, DCBNZF, DCBEZF, BF, DCBNZT, DCBEZT, BT, this]

theorem case_BCX_BF (s : Simulator) (instr : Instruction) (h : instr.Bits 25 21 = 4) :
    case_BCX s instr =
      if crBit s.condition_reg_ (instr.Bits 20 16) = false then
        .ok (set_pc s (add32 (get_pc s) (asr32 (shl32 (instr.Bits 15 2) 18) 16)))
      else .ok s := by
  have hc := and_condition_mask s.condition_reg_ (instr.Bits 20 16) (Bits_20_16_le instr)
  cases hb : crBit s.condition_reg_ (instr.Bits 20 16)
  · have := hc.mpr hb
    simp [case_BCX, h, DCBNZF, DCBEZF, BF, this]
  · have : ¬ (s.condition_reg_ &&& lsr32 2147483648 (instr.Bits 20 16) = 0) := by
      intro h0; rw [hc.mp h0] at hb; cases hb
    simp [case_BCX, h, DCBNZF, DCBEZF, BF, this]

theorem case_BCX_BA (s : Simulator) (instr : Instruction) (h : instr.Bits 25 21 = 20) :
    case_BCX s instr =
      .ok (set_pc s (add32 (get_pc s) (asr32 (shl32 (instr.Bits 15 2) 18) 16))) := by
  simp [case_BCX, h, DCBNZF, DCBEZF, BF, DCBNZT, DCBEZT, BT, DCBNZ, DCBEZ, BA]

theorem case_BCX_decrementing (s : Simulator) (instr : Instruction)
    (h : instr.Bits 25 21 &&& 4 = 0) :
    case_BCX s instr = .error .unimplemented := by
  have hlt := Bits_25_21_lt instr
  generalize hbo : instr.Bits 25 21 = bo at h hlt
  have hne4 : bo ≠ 4 := by intro e; rw [e] at h; revert h; decide
  have hne12 : bo ≠ 12 := by intro e; rw [e] at h; revert h; decide
  have hne20 : bo ≠ 20 := by intro e; rw [e] at h; revert h; decide
  have k4 : ¬ bo <<< 21 = BF := by
    unfold BF; rw [Nat.shiftLeft_eq, Nat.shiftLeft_eq]; omega
  have k12 : ¬ bo <<< 21 = BT := by
    unfold BT; rw [Nat.shiftLeft_eq, Nat.shiftLeft_eq]; omega
  have k20 : ¬ bo <<< 21 = BA := by
    unfold BA; rw [Nat.shiftLeft_eq, Nat.shiftLeft_eq]; omega
  unfold case_BCX
  simp only [hbo, if_neg k4, if_neg k12, if_neg k20]
  split_ifs <;> rfl

theorem InstructionDecode_of_latch_set (s : Simulator) (instr : Instruction) (s2 : Simulator)
    (h1 : InstructionDecode_execute s instr = .ok s2) (h2 : s2.pc_modified_ = true) :
    InstructionDecode s instr = .ok s2 := by
  simp [InstructionDecode, h1, h2]

/-- One retired BC whose executor result is known. -/
theorem InstructionDecode_BCX (s : Simulator) (instr : Instruction)
    (hic : s.flags.check_icache = false) (hop : instr.OpcodeValue = 16) (taken : Bool)
    (h : case_BCX { s with pc_modified_ := false } instr =
      if taken = true then
        .ok (set_pc { s with pc_modified_ := false }
          (add32 (get_pc s) (asr32 (shl32 (instr.Bits 15 2) 18) 16)))
      else .ok { s with pc_modified_ := false }) :
    ∃ s', InstructionDecode s instr = .ok s' ∧
      get_pc s' = (if taken = true then
          add32 (get_pc s) (asr32 (shl32 (instr.Bits 15 2) 18) 16)
        else add32 instr.addr 4) ∧
      s'.condition_reg_ = s.condition_reg_ ∧ s'.special_reg_lr_ = s.special_reg_lr_ ∧
      s'.special_reg_ctr_ = s.special_reg_ctr_ := by
  have e : InstructionDecode_execute s instr = case_BCX { s with pc_modified_ := false } instr := by
    rw [InstructionDecode_execute_no_icache s instr hic, switch_BCX _ _ hop]
  cases taken
  · simp only [Bool.false_eq_true, if_false] at h ⊢
    rw [h] at e
    exact ⟨_, InstructionDecode_of_latch_clear s instr _ e rfl,
      by simp [get_pc, set_register, Instruction.kInstrSize], rfl, rfl, rfl⟩
  · simp only [if_true] at h ⊢
    rw [h] at e
    exact ⟨_, InstructionDecode_of_latch_set s instr _ e rfl,
      by simp [get_pc, set_pc], rfl, rfl, rfl⟩

/-- C21: a BC word (primary opcode 16) fetched at the PC, with the I-cache
check off.  With the branch-if-true selector (BO = 12) it completes and the
PC becomes the old PC plus four times the sign-extended BD field when CR bit
BI is 1, and the old PC plus 4 otherwise; with the branch-if-false selector
(BO = 4) the test is negated; with branch-always (BO = 20) the branch is
taken; every selector that decrements CTR (bit 2 of BO clear) stops as
unimplemented. -/
theorem C21_conditional_branch (s : Simulator) (instr : Instruction)
    (hic : s.flags.check_icache = false) (hop : instr.OpcodeValue = 16)
    (hfetch : instr.addr = get_pc s) :
    (instr.Bits 25 21 = 12 →
      ∃ s', InstructionDecode s instr = .ok s' ∧
        get_pc s' =
          (if crBit s.condition_reg_ (instr.Bits 20 16) = true then
            ofInt32 ((get_pc s : Int) + 4 *
              (if instr.Bits 15 2 < 8192 then (instr.Bits 15 2 : Int)
                else (instr.Bits 15 2 : Int) - 16384))
          else add32 (get_pc s) 4)) ∧
    (instr.Bits 25 21 = 4 →
      ∃ s', InstructionDecode s instr = .ok s' ∧
        get_pc s' =
          (if crBit s.condition_reg_ (instr.Bits 20 16) = false then
            ofInt32 ((get_pc s : Int) + 4 *
              (if instr.Bits 15 2 < 8192 then (instr.Bits 15 2 : Int)
                else (instr.Bits 15 2 : Int) - 16384))
          else add32 (get_pc s) 4)) ∧
    (instr.Bits 25 21 = 20 →
      ∃ s', InstructionDecode s instr = .ok s' ∧
        get_pc s' = ofInt32 ((get_pc s : Int) + 4 *
          (if instr.Bits 15 2 < 8192 then (instr.Bits 15 2 : Int)
            else (instr.Bits 15 2 : Int) - 16384))) ∧
    (instr.Bits 25 21 &&& 4 = 0 → InstructionDecode s instr = .error .unimplemented) := by
  have hoff := branch_offset_14 (instr.Bits 15 2) (get_pc s) (Bits_15_2_lt instr)
  have hpc0 : get_pc { s with pc_modified_ := false } = get_pc s := rfl
  have hcr0 : ({ s with pc_modified_ := false } : Simulator).condition_reg_ = s.condition_reg_ :=
    rfl
  refine ⟨?_, ?_, ?_, ?_⟩
  · intro hbo
    have hb := case_BCX_BT { s with pc_modified_ := false } instr hbo
    rw [hpc0, hcr0] at hb
    obtain ⟨s', h1, h2, _⟩ := InstructionDecode_BCX s instr hic hop
      (crBit s.condition_reg_ (instr.Bits 20 16)) hb
    refine ⟨s', h1, ?_⟩
    rw [h2, hoff, hfetch]
  · intro hbo
    have hb := case_BCX_BF { s with pc_modified_ := false } instr hbo
    rw [hpc0, hcr0] at hb
    have hb' : case_BCX { s with pc_modified_ := false } instr =
        if (!crBit s.condition_reg_ (instr.Bits 20 16)) = true then
          .ok (set_pc { s with pc_modified_ := false }
            (add32 (get_pc s) (asr32 (shl32 (instr.Bits 15 2) 18) 16)))
        else .ok { s with pc_modified_ := false } := by
      rw [hb]
      cases crBit s.condition_reg_ (instr.Bits 20 16) <;> rfl
    obtain ⟨s', h1, h2, _⟩ := InstructionDecode_BCX s instr hic hop
      (!crBit s.condition_reg_ (instr.Bits 20 16)) hb'
    refine ⟨s', h1, ?_⟩
    rw [h2, hoff, hfetch]
    cases crBit s.condition_reg_ (instr.Bits 20 16) <;> rfl
  · intro hbo
    have hb := case_BCX_BA { s with pc_modified_ := false } instr hbo
    rw [hpc0] at hb
    obtain ⟨s', h1, h2, _⟩ := InstructionDecode_BCX s instr hic hop true hb
    refine ⟨s', h1, ?_⟩
    rw [h2, if_pos rfl, hoff]
  · intro hbo
    have e : InstructionDecode_execute s instr = .error .unimplemented := by
      rw [InstructionDecode_execute_no_icache s instr hic, switch_BCX _ _ hop,
        case_BCX_decrementing _ _ hbo]
    simp [InstructionDecode, e]

/-- C21 at a concrete input: `beq .+8` at `0x1000` with the EQ bit of CR0 set
leaves the PC at `0x1008`. -/
theorem C21_witness :
    ∃ s', InstructionDecode exampleCondBranchState ⟨4096, 1099038728⟩ = .ok s' ∧
      get_pc s' = 4104 := by
  obtain ⟨s', h, hpc⟩ :=
    (C21_conditional_branch exampleCondBranchState ⟨4096, 1099038728⟩ rfl (by decide)
      (by decide)).1 (by decide)
  refine ⟨s', h, ?_⟩
  rw [hpc]
  decide

/-! ## Compares and carries (C22, C23) -/

/-- C22, the code at the failing input: with r3 = 0, r4 = 1 and CR = 0, each of
`cmpwi cr1,r3,1` (`0x2C830001`), `cmplwi cr1,r3,1` (`0x28830001`),
`cmpw cr1,r3,r4` (`0x7C832000`) and `cmplw cr1,r3,r4` (`0x7C832040`) retires
and leaves CR = `0xF8000000`: the LT bit of field 1 is set, and so are all
four bits of field 0.  The field value is placed with `bf >> (cr*4)` on a
signed `bf`, whose sign bit (LT) is replicated into the fields above BF. -/
theorem C22_compare_smears_LT_into_lower_fields :
    exampleCompareState.condition_reg_ = 0 ∧
    (∃ s', InstructionDecode exampleCompareState ⟨4096, 746782721⟩ = .ok s' ∧
      s'.condition_reg_ = 4160749568) ∧
    (∃ s', InstructionDecode exampleCompareState ⟨4096, 679673857⟩ = .ok s' ∧
      s'.condition_reg_ = 4160749568) ∧
    (∃ s', InstructionDecode exampleCompareState ⟨4096, 2088968192⟩ = .ok s' ∧
      s'.condition_reg_ = 4160749568) ∧
    (∃ s', InstructionDecode exampleCompareState ⟨4096, 2088968256⟩ = .ok s' ∧
      s'.condition_reg_ = 4160749568) ∧
    crBit 4160749568 0 = true ∧ crBit 4160749568 4 = true :=
  ⟨rfl, ⟨_, rfl, by decide⟩, ⟨_, rfl, by decide⟩, ⟨_, rfl, by decide⟩, ⟨_, rfl, by decide⟩,
    by decide, by decide⟩

/-- C23, the code at the failing input: with r3 = `0xFFFFFFFF` and r4 = 1,
`addc r5,r3,r4` (`0x7CA32014`) retires with r5 = 0 and the XER carry bit
(`0x20000000`) clear, although the unsigned sum is 2^32.  The sum is formed in
32 bits before it is widened, so `alu_out >> 32` sees its sign, not the
carry. -/
theorem C23_addc_misses_the_carry :
    get_register exampleCarryState 3 = 4294967295 ∧ get_register exampleCarryState 4 = 1 ∧
    ∃ s', InstructionDecode exampleCarryState ⟨4096, 2091065364⟩ = .ok s' ∧
      get_register s' 5 = 0 ∧ s'.special_reg_xer_ &&& 536870912 = 0 :=
  ⟨by decide, by decide, _, rfl, by decide, by decide⟩

/-! ## Record forms and subtract (C24, C29) -/

/-- A 9-bit extended opcode other than 24, 280 and 312 is none of the three
10-bit opcodes (SRW, SRAW, SRAWI) that `DecodeExt2` tries first. -/
theorem not_shift_opcode (instr : Instruction) (x : Nat) (h9 : instr.Bits 9 1 = x)
    (h1 : x ≠ 24) (h2 : x ≠ 280) (h3 : x ≠ 312) :
    ¬ instr.Bits 10 1 <<< 1 = SRWX ∧ ¬ instr.Bits 10 1 <<< 1 = SRAW ∧
      ¬ instr.Bits 10 1 <<< 1 = SRAWIX := by
  have e := Bits_9_1_eq instr
  unfold SRWX SRAW SRAWIX
  simp only [Nat.shiftLeft_eq]
  omega

theorem DecodeExt2_SUBFX (s : Simulator) (instr : Instruction) (h9 : instr.Bits 9 1 = 40) :
    DecodeExt2 s instr =
      .ok (set_register
        (if instr.Bit 0 ≠ 0 then
          setCR0 s (sub32 (get_register s instr.RBValue) (get_register s instr.RAValue))
        else s)
        instr.RTValue (sub32 (get_register s instr.RBValue) (get_register s instr.RAValue))) := by
  obtain ⟨k1, k2, k3⟩ := not_shift_opcode instr 40 h9 (by decide) (by decide) (by decide)
  unfold DecodeExt2
  simp only [if_neg k1, if_neg k2, if_neg k3, h9]
  simp [CMP, SUBFCX, ADDCX, SLWX, ANDX, CMPL, SUBFX]

theorem DecodeExt2_ANDX (s : Simulator) (instr : Instruction) (h9 : instr.Bits 9 1 = 28) :
    DecodeExt2 s instr =
      .ok (if instr.Bit 0 ≠ 0 then
          setCR0 (set_register s instr.RAValue
            (get_register s instr.RSValue &&& get_register s instr.RBValue))
            (get_register s instr.RSValue &&& get_register s instr.RBValue)
        else set_register s instr.RAValue
          (get_register s instr.RSValue &&& get_register s instr.RBValue)) := by
  obtain ⟨k1, k2, k3⟩ := not_shift_opcode instr 28 h9 (by decide) (by decide) (by decide)
  unfold DecodeExt2
  simp only [if_neg k1, if_neg k2, if_neg k3, h9]
  simp [CMP, SUBFCX, ADDCX, SLWX, ANDX]

theorem DecodeExt2_ADDZEX (s : Simulator) (instr : Instruction) (h9 : instr.Bits 9 1 = 202) :
    DecodeExt2 s instr =
      .ok (if instr.Bit 0 ≠ 0 then
          setCR0 (set_register s instr.RTValue
            (if s.special_reg_xer_ &&& 536870912 ≠ 0 then add32 (get_register s instr.RAValue) 1
              else get_register s instr.RAValue))
            (if s.special_reg_xer_ &&& 536870912 ≠ 0 then add32 (get_register s instr.RAValue) 1
              else get_register s instr.RAValue)
        else set_register s instr.RTValue
          (if s.special_reg_xer_ &&& 536870912 ≠ 0 then add32 (get_register s instr.RAValue) 1
            else get_register s instr.RAValue)) := by
  obtain ⟨k1, k2, k3⟩ := not_shift_opcode instr 202 h9 (by decide) (by decide) (by decide)
  unfold DecodeExt2
  simp only [if_neg k1, if_neg k2, if_neg k3, h9]
  simp [CMP, SUBFCX, ADDCX, SLWX, ANDX, CMPL, SUBFX, ADDZEX]

theorem DecodeExt2_SRAWIX (s : Simulator) (instr : Instruction) (h10 : instr.Bits 10 1 = 824) :
    DecodeExt2 s instr =
      .ok (if instr.Bit 0 ≠ 0 then
          setCR0 (set_register s instr.RAValue
            (asr32 (get_register s instr.RSValue) (instr.Bits 15 11)))
            (asr32 (get_register s instr.RSValue) (instr.Bits 15 11))
        else set_register s instr.RAValue
          (asr32 (get_register s instr.RSValue) (instr.Bits 15 11))) := by
  simp [DecodeExt2, h10, SRWX, SRAW, SRAWIX]

theorem switch_RLWINMX (s : Simulator) (instr : Instruction) (h : instr.OpcodeValue = 21) :
    InstructionDecode_switch s instr = .ok (case_RLWINMX s instr) := by
  simp [InstructionDecode_switch, h, TWI, MULLI, SUBFIC, CMPLI, CMPI, ADDIC, ADDICx, ADDI,
    ADDIS, BCX, SC, BX, EXT1, RLWIMIX, RLWINMX]

theorem switch_RLWIMIX (s : Simulator) (instr : Instruction) (h : instr.OpcodeValue = 20) :
    InstructionDecode_switch s instr = .ok (case_RLWIMIX s instr) := by
  simp [InstructionDecode_switch, h, TWI, MULLI, SUBFIC, CMPLI, CMPI, ADDIC, ADDICx, ADDI,
    ADDIS, BCX, SC, BX, EXT1, RLWIMIX]

theorem testBit_compareBits (lt gt eq : Bool) (j : Nat) :
    (compareBits lt gt eq).testBit j =
      ((decide (j = 31) && lt) || (decide (j = 30) && gt) || (decide (j = 29) && eq)) := by
  have t31 : Nat.testBit 2147483648 j = decide (j = 31) := by
    have h := @Nat.testBit_two_pow 31 j
    simp only [Nat.reducePow] at h
    rw [h]
    by_cases e : j = 31 <;> simp [e, eq_comm]
  have t30 : Nat.testBit 1073741824 j = decide (j = 30) := by
    have h := @Nat.testBit_two_pow 30 j
    simp only [Nat.reducePow] at h
    rw [h]
    by_cases e : j = 30 <;> simp [e, eq_comm]
  have t29 : Nat.testBit 536870912 j = decide (j = 29) := by
    have h := @Nat.testBit_two_pow 29 j
    simp only [Nat.reducePow] at h
    rw [h]
    by_cases e : j = 29 <;> simp [e, eq_comm]
  unfold compareBits
  rw [Nat.testBit_or, Nat.testBit_or]
  cases lt <;> cases gt <;> cases eq <;> simp [t31, t30, t29]

theorem testBit_fieldMask0 (j : Nat) : Nat.testBit 268435455 j = decide (j < 28) := by
  have h := Nat.testBit_two_pow_sub_one 28 j
  simpa using h

/-- The record-form update of CR, bit by bit. -/
theorem setCR0_recorded (s : Simulator) (result : Nat) :
    recordedInCR0 s.condition_reg_ (setCR0 s result).condition_reg_ result := by
  have hm : not32 4026531840 = 268435455 := by decide
  have hbit : ∀ i, crBit (setCR0 s result).condition_reg_ i =
      ((s.condition_reg_.testBit (31 - i) && decide (31 - i < 28)) ||
        ((decide (31 - i = 31) && decide (toInt32 result < 0)) ||
          (decide (31 - i = 30) && decide (toInt32 result > 0)) ||
          (decide (31 - i = 29) && decide (toInt32 result = 0)))) := by
    intro i
    simp only [crBit, setCR0, hm, Nat.testBit_or, Nat.testBit_and, testBit_compareBits,
      testBit_fieldMask0]
  have b0 : crBit (setCR0 s result).condition_reg_ 0 = decide (toInt32 result < 0) := by
    rw [hbit]; simp
  have b1 : crBit (setCR0 s result).condition_reg_ 1 = decide (toInt32 result > 0) := by
    rw [hbit]; simp
  have b2 : crBit (setCR0 s result).condition_reg_ 2 = decide (toInt32 result = 0) := by
    rw [hbit]; simp
  refine ⟨?_, b0, b1, b2, ?_⟩
  · intro i h4 h31
    rw [hbit]
    have e1 : 31 - i < 28 := by omega
    have e2 : ¬ 31 - i = 31 := by omega
    have e3 : ¬ 31 - i = 30 := by omega
    have e4 : ¬ 31 - i = 29 := by omega
    simp [crBit, e1, e2, e3, e4]
  · rw [b0, b1, b2]
    rcases lt_trichotomy (toInt32 result) 0 with h | h | h
    · have h1 : ¬ toInt32 result > 0 := by omega
      have h2 : ¬ toInt32 result = 0 := by omega
      simp [h, h1, h2]
    · simp [h]
    · have h1 : ¬ toInt32 result < 0 := by omega
      have h2 : ¬ toInt32 result = 0 := by omega
      simp [h, h1, h2]

theorem get_register_latch_cleared (s : Simulator) (r : Nat) :
    get_register { s with pc_modified_ := false } r = get_register s r := rfl

/-- One retired record-capable instruction whose executor wrote `v` to the
general register `d` and, with Rc set, ran the record-form update on `v`;
`s0` is the state the executor starts from. -/
theorem InstructionDecode_record_form (s s0 : Simulator) (instr : Instruction)
    (hic : s.flags.check_icache = false) (hs0 : s0 = { s with pc_modified_ := false })
    (d v : Nat) (hd : d ≠ pc) (hd32 : d < num_registers) (s2 : Simulator)
    (hex : InstructionDecode_switch s0 instr = .ok s2)
    (hshape : s2 = (if instr.Bit 0 ≠ 0 then setCR0 (set_register s0 d v) v
        else set_register s0 d v) ∨
      s2 = set_register (if instr.Bit 0 ≠ 0 then setCR0 s0 v else s0) d v) :
    ∃ s', InstructionDecode s instr = .ok s' ∧ get_register s' d = v ∧
      (instr.Bit 0 = 1 → recordedInCR0 s.condition_reg_ s'.condition_reg_ (get_register s' d)) ∧
      (instr.Bit 0 = 0 → s'.condition_reg_ = s.condition_reg_) := by
  have h32 : ¬ d ≥ num_registers := by omega
  have hreg : s2.registers_ = Function.update s.registers_ d v := by
    rcases hshape with h | h <;> rw [h, hs0] <;>
      by_cases hb : instr.Bit 0 ≠ 0 <;> simp [set_register, setCR0, hb]
  have hlatch : s2.pc_modified_ = false := by
    rcases hshape with h | h <;> rw [h, hs0] <;>
      by_cases hb : instr.Bit 0 ≠ 0 <;> simp [set_register, setCR0, hb, hd]
  have hcr : s2.condition_reg_ =
      if instr.Bit 0 ≠ 0 then (setCR0 s v).condition_reg_ else s.condition_reg_ := by
    rcases hshape with h | h <;> rw [h, hs0] <;>
      by_cases hb : instr.Bit 0 ≠ 0 <;> simp [set_register, setCR0, hb]
  have e : InstructionDecode_execute s instr = .ok s2 := by
    rw [InstructionDecode_execute_no_icache s instr hic, ← hs0, hex]
  have hv : get_register (set_register s2 pc (add32 instr.addr Instruction.kInstrSize)) d = v := by
    simp [get_register, set_register, hreg, Function.update, hd, h32]
  refine ⟨_, InstructionDecode_of_latch_clear s instr s2 e hlatch, hv, ?_, ?_⟩
  · intro h1
    rw [hv]
    have : (set_register s2 pc (add32 instr.addr Instruction.kInstrSize)).condition_reg_ =
        (setCR0 s v).condition_reg_ := by
      show s2.condition_reg_ = _
      rw [hcr, if_pos (by rw [h1]; decide)]
    rw [this]
    exact setCR0_recorded s v
  · intro h0
    show s2.condition_reg_ = _
    rw [hcr, if_neg (by rw [h0]; decide)]

/-! ## Rotate and mask (C25) -/

/-- C25, the code at the failing input: with r4 = `0x80000000`,
`rlwinm r3,r4,1,0,31` (`0x5483083E`: sh = 1, mb = 0, me = 31) retires and
leaves r3 = `0xFFFFFFFF`; the rotation of `0x80000000` by one is 1.  The
rotate is `(rs_val << sh) | (rs_val >> (32 - sh))` on a signed `rs_val`, so
for a negative rS the right shift fills with the sign bit.  The example of
the specification, `rlwinm. r3,r3,16,0,15` on `0x8000`, does give
`0x80000000` and CR0 = LT. -/
theorem C25_rlwinm_rotate_smears_sign :
    get_register exampleRotateState 4 = 2147483648 ∧
    (∃ s', InstructionDecode exampleRotateState ⟨4096, 1417873470⟩ = .ok s' ∧
      get_register s' 3 = 4294967295) ∧
    (∃ s', InstructionDecode exampleRotateState ⟨4096, 1415807007⟩ = .ok s' ∧
      get_register s' 3 = 2147483648 ∧ s'.condition_reg_ = 2147483648) :=
  ⟨by decide, ⟨_, rfl, by decide⟩, ⟨_, rfl, by decide, by decide⟩⟩

/-! ## Effective addresses and update forms (C26, C27, C28) -/

theorem Bits_15_0_lt (instr : Instruction) : instr.Bits 15 0 < 65536 := by
  have h := Bits_le instr 15 0
  have e : (2 <<< (15 - 0)) - 1 = 65535 := by decide
  omega

theorem signExtend16_eq (x : Nat) (hx : x < 65536) :
    signExtend16 x = ofInt32 (if x < 32768 then (x : Int) else (x : Int) - 65536) := by
  unfold signExtend16 asr32 shl32 ofInt32 toInt32
  rw [Nat.shiftLeft_eq, Int.shiftRight_eq_div_pow]
  split <;> split <;> omega

/-- The address computed by the integer loads and stores is the effective
address of the specification. -/
theorem effectiveAddress_eq_spec (s : Simulator) (instr : Instruction) :
    effectiveAddress s instr = effectiveAddress_spec s instr := by
  have hx := Bits_15_0_lt instr
  unfold effectiveAddress effectiveAddress_spec
  simp only []
  rw [signExtend16_eq _ hx]
  by_cases h0 : instr.RAValue = 0
  · simp only [h0, ne_eq, not_true_eq_false, if_false, if_true]
    simp
  · simp only [h0, ne_eq, not_false_eq_true, if_true, if_false]
    unfold add32 ofInt32
    split <;> omega

/-- C27, the code at the failing input: with r0 = `0x1000`, `lfd f1,0(0)`
(`0xC8200000`) retires with f1 holding the double word at `0x1000`, not the
one at address 0, and `stfd f2,0(0)` (`0xD8400000`) retires having written f2
to `0x1000` and left address 0 alone.  The LFD and STFD cases add
`get_register(ra)` without the `ra != 0` test of the integer loads and
stores. -/
theorem C27_float_access_adds_r0 :
    get_register exampleFloatState 0 = 4096 ∧
    ReadDW exampleFloatState 0 = 0 ∧
    ReadDW exampleFloatState 4096 = 2459565876208275729 ∧
    get_double_from_d_register exampleFloatState 2 = 38654705671 ∧
    (∃ s', InstructionDecode exampleFloatState ⟨8192, 3357540352⟩ = .ok s' ∧
      get_double_from_d_register s' 1 = 2459565876208275729) ∧
    (∃ s', InstructionDecode exampleFloatState ⟨8192, 3628072960⟩ = .ok s' ∧
      ReadDW s' 4096 = 38654705671 ∧ ReadDW s' 0 = 0) :=
  ⟨by decide, by decide, by decide, by decide, ⟨_, rfl, by decide⟩,
    ⟨_, rfl, by decide, by decide⟩⟩

theorem switch_LWZU (s : Simulator) (instr : Instruction) (h : instr.OpcodeValue = 33) :
    InstructionDecode_switch s instr =
      .ok (set_register
        (if instr.RAValue ≠ 0 then set_register s instr.RAValue (effectiveAddress s instr) else s)
        instr.RTValue
        (ReadW (if instr.RAValue ≠ 0 then set_register s instr.RAValue (effectiveAddress s instr)
          else s) (effectiveAddress s instr))) := by
  simp [InstructionDecode_switch, h, TWI, MULLI, SUBFIC, CMPLI, CMPI, ADDIC, ADDICx, ADDI,
    ADDIS, BCX, SC, BX, EXT1, RLWIMIX, RLWINMX, RLWNMX, ORI, ORIS, XORI, XORIS, ANDIx,
    ANDISx, EXT2, LWZ, LWZU]

theorem ReadW_set_register (s : Simulator) (r v a : Nat) :
    ReadW (set_register s r v) a = ReadW s a := rfl

/-! ## Record-form add (C30) -/

/-- C30, the code at the failing input: with r3 = `0xFFFFFFFF`, r4 = 1 and
CR = 0, `add. r5,r3,r4` (`0x7CA32215`, Rc = 1) retires with r5 = 0 and CR
still 0: the EQ bit of CR0 is not set.  The `ADDX` case never reads the
record bit. -/
theorem C30_add_record_leaves_CR :
    get_register exampleCarryState 3 = 4294967295 ∧ get_register exampleCarryState 4 = 1 ∧
    Instruction.Bit ⟨4096, 2091065877⟩ 0 = 1 ∧
    exampleCarryState.condition_reg_ = 0 ∧
    ∃ s', InstructionDecode exampleCarryState ⟨4096, 2091065877⟩ = .ok s' ∧
      get_register s' 5 = 0 ∧ s'.condition_reg_ = 0 ∧ crBit s'.condition_reg_ 2 = false :=
  ⟨by decide, by decide, by decide, rfl, _, rfl, by decide, by decide, by decide⟩

/-! ## Skipping a disabled stop (C31) -/

theorem testBit31_eq (x : Nat) (hx : x < 4294967296) :
    x.testBit 31 = decide (2147483648 ≤ x) := by
  rw [Nat.testBit_to_div_mod]
  by_cases h : 2147483648 ≤ x
  · have : x / 2147483648 % 2 = 1 := by omega
    simp [this, h]
  · have : x / 2147483648 % 2 = 0 := by omega
    simp [this, h]

/-- Below its maximum a watched counter is incremented. -/
theorem IncreaseStopCounter_below (s : Simulator) (code : Nat)
    (hw : isWatchedStop code = true) (hne : stopCounterValue s code ≠ 2147483647) :
    IncreaseStopCounter s code =
      .ok (setStopCount s code (add32 (s.watched_stops code).count 1)) := by
  have hmax := watched_le_max code hw
  have hw' : ¬ ¬ isWatchedStop code = true := fun h => h hw
  have hmax' : ¬ ¬ code ≤ kMaxStopCode := fun h => h hmax
  have hne' : ¬ (s.watched_stops code).count &&& not32 (1 <<< 31) = 2147483647 := by
    rw [not32_one_shl_31]
    rw [stopCounterValue, not32_kStopDisabledBit] at hne
    exact hne
  rw [IncreaseStopCounter, if_neg hmax', if_neg hw', if_neg hne']

/-- The stop branch of `SoftwareInterrupt` for a watched stop that is disabled
and stays disabled after the count. -/
theorem SoftwareInterrupt_disabled_stop (s : Simulator) (instr : Instruction)
    (hsvc : instr.SvcValue ≥ kStopCode)
    (hw : isWatchedStop (instr.SvcValue &&& kStopCodeMask) = true)
    (hne : stopCounterValue s (instr.SvcValue &&& kStopCodeMask) ≠ 2147483647)
    (hdis : isEnabledStop (setStopCount s (instr.SvcValue &&& kStopCodeMask)
      (add32 (s.watched_stops (instr.SvcValue &&& kStopCodeMask)).count 1))
      (instr.SvcValue &&& kStopCodeMask) = false) :
    SoftwareInterrupt s instr =
      .ok (set_pc (setStopCount s (instr.SvcValue &&& kStopCodeMask)
        (add32 (s.watched_stops (instr.SvcValue &&& kStopCodeMask)).count 1))
        (add32 (get_pc s) 8)) := by
  have h1 : ¬ instr.SvcValue = kCallRtRedirected := by
    unfold kStopCode at hsvc; unfold kCallRtRedirected
    have : 1 <<< 23 = 8388608 := by decide
    omega
  have h2 : ¬ instr.SvcValue = kBreakpoint := by
    unfold kStopCode at hsvc; unfold kBreakpoint
    have : 1 <<< 23 = 8388608 := by decide
    omega
  have h3 : instr.SvcValue ≥ 1 <<< 23 := hsvc
  unfold SoftwareInterrupt
  simp only [if_neg h1, if_neg h2, if_pos h3, hw, if_true,
    IncreaseStopCounter_below s _ hw hne, hdis]
  rfl

/-- C31: with the I-cache check off, executing a stop word (TWI with a code
field of `1 << 23` or more) whose stop code is watched, currently disabled
and counted less than `2^31 - 1` times completes without handing over to the
debugger: the counter value grows by one, the stop is still disabled, the PC
is the old PC plus two instruction widths, and no general register, no
memory and no other stop entry changes. -/
theorem C31_disabled_stop_is_skipped (s : Simulator) (instr : Instruction)
    (hic : s.flags.check_icache = false) (hop : instr.OpcodeValue = 3)
    (hsvc : instr.SvcValue ≥ kStopCode)
    (hw : isWatchedStop (instr.SvcValue &&& kStopCodeMask) = true)
    (hc : (s.watched_stops (instr.SvcValue &&& kStopCodeMask)).count < 4294967296)
    (hdis : isEnabledStop s (instr.SvcValue &&& kStopCodeMask) = false)
    (hval : stopCounterValue s (instr.SvcValue &&& kStopCodeMask) < 2147483647) :
    ∃ s', InstructionDecode s instr = .ok s' ∧
      stopCounterValue s' (instr.SvcValue &&& kStopCodeMask) =
        stopCounterValue s (instr.SvcValue &&& kStopCodeMask) + 1 ∧
      isEnabledStop s' (instr.SvcValue &&& kStopCodeMask) = false ∧
      get_pc s' = add32 (get_pc s) (2 * Instruction.kInstrSize) ∧
      (∀ r, r ≠ pc → get_register s' r = get_register s r) ∧
      s'.mem = s.mem ∧
      (∀ c, c ≠ instr.SvcValue &&& kStopCodeMask → s'.watched_stops c = s.watched_stops c) := by
  generalize hcode : instr.SvcValue &&& kStopCodeMask = code at hw hc hdis hval ⊢
  have hbit : (s.watched_stops code).count.testBit 31 = true := by
    rw [isEnabledStop_watched s code hw] at hdis
    simpa using hdis
  rw [testBit31_eq _ hc] at hbit
  have hge : 2147483648 ≤ (s.watched_stops code).count := by simpa using hbit
  rw [stopCounterValue_eq] at hval
  have hnew : add32 (s.watched_stops code).count 1 = (s.watched_stops code).count + 1 := by
    unfold add32; omega
  obtain ⟨s0, hs0⟩ : ∃ s0 : Simulator, s0 = { s with pc_modified_ := false } := ⟨_, rfl⟩
  have hws : s0.watched_stops = s.watched_stops := by rw [hs0]
  have hdis0 : isEnabledStop (setStopCount s0 code (add32 (s0.watched_stops code).count 1))
      code = false := by
    rw [isEnabledStop_watched _ _ hw, setStopCount_count, hws, hnew,
      testBit31_eq _ (by omega)]
    simp
    omega
  have hsi := SoftwareInterrupt_disabled_stop s0 instr hsvc
    (by rw [hcode]; exact hw)
    (by rw [hcode, stopCounterValue_eq, hws]; omega)
    (by rw [hcode]; exact hdis0)
  rw [hcode] at hsi
  have e : InstructionDecode_execute s instr =
      .ok (set_pc (setStopCount s0 code (add32 (s0.watched_stops code).count 1))
        (add32 (get_pc s0) 8)) := by
    rw [InstructionDecode_execute_no_icache s instr hic, ← hs0, switch_TWI _ _ hop]
    exact hsi
  refine ⟨_, InstructionDecode_of_latch_set s instr _ e rfl, ?_, hdis0, ?_, ?_, ?_, ?_⟩
  · rw [stopCounterValue_eq, stopCounterValue_eq]
    show ((setStopCount s0 code (add32 (s0.watched_stops code).count 1)).watched_stops
      code).count % 2147483648 = _
    rw [setStopCount_count, hws, hnew]
    omega
  · rw [hs0]
    simp [get_pc, set_pc, setStopCount, Instruction.kInstrSize]
  · intro r hr
    rw [hs0]
    simp [get_register, set_pc, setStopCount, Function.update, hr]
  · rw [hs0]; rfl
  · intro c hcne
    show (setStopCount s0 code _).watched_stops c = _
    rw [setStopCount_other _ _ _ _ hcne, hws]

/-- C31 at a concrete input: stop 5, disabled with count 3, at `0x1000`. -/
theorem C31_witness :
    ∃ s', InstructionDecode exampleDisabledStopState ⟨4096, 209715205⟩ = .ok s' ∧
      stopCounterValue s' 5 = 4 ∧ isEnabledStop s' 5 = false ∧ get_pc s' = 4104 ∧
      get_register s' 3 = 77 := by
  have hcode : Instruction.SvcValue ⟨4096, 209715205⟩ &&& kStopCodeMask = 5 := by decide
  obtain ⟨s', h, hv, hd, hpc, hreg, _⟩ :=
    C31_disabled_stop_is_skipped exampleDisabledStopState ⟨4096, 209715205⟩ rfl
      (by decide) (by decide) (by decide) (by decide) (by decide) (by decide)
  rw [hcode] at hv hd
  refine ⟨s', h, ?_, hd, ?_, ?_⟩
  · rw [hv]; decide
  · rw [hpc]; decide
  · rw [hreg 3 (by decide)]; decide

/-! ## Frame of FlushICache (C39) -/

theorem cachePageView_update (c : Nat → Option CachePage) (P page : Nat) (x : CachePage) :
    cachePageView (Function.update c P (some x)) page =
      if page = P then x else cachePageView c page := by
  unfold cachePageView GetCachePage
  by_cases h : page = P
  · subst h; simp
  · rw [if_neg h, Function.update_noteq h]
    cases c page <;> rfl

theorem cachePageView_GetCachePage (c : Nat → Option CachePage) (P page : Nat) :
    cachePageView (GetCachePage c P).1 page = cachePageView c page := by
  unfold cachePageView GetCachePage
  cases hc : c P with
  | some p => simp [hc]
  | none =>
    by_cases h : page = P
    · subst h; simp [hc]
    · simp only [hc, Function.update_noteq h]
      cases c page <;> rfl

theorem GetCachePage_keeps (c : Nat → Option CachePage) (P page : Nat) (h : c page ≠ none) :
    (GetCachePage c P).1 page ≠ none := by
  unfold GetCachePage
  cases hc : c P with
  | some p => simpa [hc] using h
  | none =>
    by_cases hp : page = P
    · subst hp; simp [hc]
    · simpa [hc, Function.update_noteq hp] using h

theorem flushFrame_refl (c : Nat → Option CachePage) (lo hi : Nat) : flushFrame c c lo hi :=
  ⟨fun _ h => h, fun _ => rfl, fun _ _ _ => rfl⟩

theorem flushFrame_trans (c c1 c2 : Nat → Option CachePage) (lo mid hi lo' hi' : Nat)
    (h1 : flushFrame c c1 lo mid) (h2 : flushFrame c1 c2 mid hi)
    (hlo : lo' ≤ lo) (hmid1 : lo ≤ mid) (hmid2 : mid ≤ hi) (hhi : hi ≤ hi') :
    flushFrame c c2 lo' hi' := by
  obtain ⟨a1, b1, d1⟩ := h1
  obtain ⟨a2, b2, d2⟩ := h2
  refine ⟨fun p h => a2 p (a1 p h), fun p => (b2 p).trans (b1 p), ?_⟩
  intro page idx hout
  rw [d2 page idx (by omega), d1 page idx (by omega)]

/-- One call of `FlushOnePage` on a line-aligned range inside one page changes
nothing but the validity bytes of the lines of the range. -/
theorem FlushOnePage_frame (c : Nat → Option CachePage) (start size : Nat)
    (hs : start < 4294967296) (h4 : start % 4 = 0) (hz4 : size % 4 = 0) (hpos : 4 ≤ size)
    (hfit : start % 4096 + size ≤ 4096) :
    ∃ c', FlushOnePage c start size = .ok c' ∧ flushFrame c c' start (start + size) := by
  have hsz : size < 2147483648 := by omega
  have a1 : ¬ ¬ toInt32 size ≤ (CachePage.kPageSize : Int) := by
    rw [toInt32_of_lt size hsz, kPageSize_eq]; omega
  have a2 : ¬ ¬ AllOnOnePage start (sub32 size 1) = true := by
    rw [AllOnOnePage_iff _ _ hs, sub32_of_le _ _ (by omega) (by omega)]
    simp only [decide_eq_true_eq, not_not]
    omega
  have a3 : ¬ ¬ start &&& CachePage.kLineMask = 0 := by
    rw [kLineMask_eq, and_lineMask]; omega
  have a4 : ¬ ¬ size &&& CachePage.kLineMask = 0 := by
    rw [kLineMask_eq, and_lineMask]; omega
  have hidx : CachePage.ValidityByte (start &&& CachePage.kPageMask) = start % 4096 / 4 := by
    unfold CachePage.ValidityByte
    rw [kPageMask_eq, and_pageMask, kLineShift_eq, Nat.shiftRight_eq_div_pow]
  have hcnt : asr32 size CachePage.kLineShift = size / 4 := by
    rw [kLineShift_eq, asr32_two _ hsz]
  have a5 : ¬ (CachePage.ValidityByte (start &&& CachePage.kPageMask)
      + asr32 size CachePage.kLineShift > CachePage.kPageSize >>> CachePage.kLineShift) := by
    rw [hidx, hcnt]
    have : CachePage.kPageSize >>> CachePage.kLineShift = 1024 := by decide
    rw [this]; omega
  have hpage : start &&& not32 CachePage.kPageMask = start / 4096 * 4096 := by
    rw [not32_kPageMask, and_pageBits _ hs]
  unfold FlushOnePage
  rw [if_neg a1, if_neg a2, if_neg a3, if_neg a4]
  simp only []
  rw [if_neg a5, hidx, hcnt, hpage]
  refine ⟨_, rfl, ?_, ?_, ?_⟩
  · intro page h
    by_cases hp : page = start / 4096 * 4096
    · subst hp; simp
    · rw [Function.update_noteq hp]
      exact GetCachePage_keeps c _ page h
  · intro page
    rw [cachePageView_update]
    by_cases hp : page = start / 4096 * 4096
    · rw [if_pos hp, hp]
      rfl
    · rw [if_neg hp, cachePageView_GetCachePage]
  · intro page idx hout
    rw [cachePageView_update]
    by_cases hp : page = start / 4096 * 4096
    · rw [if_pos hp]
      subst hp
      show memsetValidity _ _ _ _ idx = _
      unfold memsetValidity
      rw [if_neg (by omega)]
      rfl
    · rw [if_neg hp, cachePageView_GetCachePage]

/-- The page loop of `FlushICache` changes nothing outside the lines it
flushes. -/
theorem FlushICacheLoop_frame (fuel : Nat) :
    ∀ (c : Nat → Option CachePage) (start E : Nat),
      start < E → E ≤ 4294967296 → start % 4 = 0 → E % 4 = 0 →
      (E - 1) / 4096 - start / 4096 ≤ fuel →
      ∃ c' start', FlushICacheLoop fuel c start ((E - start) % 4294967296) (start % 4096)
          = .ok (c', start', E - start') ∧
        start ≤ start' ∧ start' < E ∧ start' % 4 = 0 ∧ start' / 4096 = (E - 1) / 4096 ∧
        flushFrame c c' start start' := by
  induction fuel with
  | zero =>
    intro c start E hlt hE h4 hE4 hfuel
    have hs : start < 4294967296 := by omega
    have hsub : (start + sub32 ((E - start) % 4294967296) 1) % 4294967296 = E - 1 := by
      unfold sub32 ofInt32; omega
    have hdone : AllOnOnePage start (sub32 ((E - start) % 4294967296) 1) = true := by
      rw [AllOnOnePage_iff _ _ hs, hsub]
      simp only [decide_eq_true_eq]
      omega
    refine ⟨c, start, ?_, le_refl _, hlt, h4, by omega, flushFrame_refl c _ _⟩
    rw [FlushICacheLoop_done _ _ _ _ _ hdone]
    have : (E - start) % 4294967296 = E - start := by omega
    rw [this]
  | succ n ih =>
    intro c start E hlt hE h4 hE4 hfuel
    have hs : start < 4294967296 := by omega
    have hsub : (start + sub32 ((E - start) % 4294967296) 1) % 4294967296 = E - 1 := by
      unfold sub32 ofInt32; omega
    by_cases hpage : start / 4096 = (E - 1) / 4096
    · have hdone : AllOnOnePage start (sub32 ((E - start) % 4294967296) 1) = true := by
        rw [AllOnOnePage_iff _ _ hs, hsub]
        simp only [decide_eq_true_eq]
        exact hpage
      refine ⟨c, start, ?_, le_refl _, hlt, h4, hpage, flushFrame_refl c _ _⟩
      rw [FlushICacheLoop_done _ _ _ _ _ hdone]
      have : (E - start) % 4294967296 = E - start := by omega
      rw [this]
    · have hnot : AllOnOnePage start (sub32 ((E - start) % 4294967296) 1) = false := by
        rw [AllOnOnePage_iff _ _ hs, hsub]
        simp only [decide_eq_false_iff_not]
        exact hpage
      have hbytes : sub32 CachePage.kPageSize (start % 4096) = 4096 - start % 4096 := by
        rw [kPageSize_eq, sub32_of_le _ _ (by omega) (by decide)]
      obtain ⟨c1, hf, hfr1⟩ := FlushOnePage_frame c start (4096 - start % 4096) hs h4
        (by omega) (by omega) (by omega)
      have hstart1 : add32 start (4096 - start % 4096) = start + (4096 - start % 4096) := by
        unfold add32; omega
      have hsize1 : sub32 ((E - start) % 4294967296) (4096 - start % 4096)
          = (E - (start + (4096 - start % 4096))) % 4294967296 := by
        unfold sub32 ofInt32; omega
      have hoff1 : (0 : Nat) = (start + (4096 - start % 4096)) % 4096 := by omega
      obtain ⟨c', start', hloop, hle, hlt', h4', hpg', hfr2⟩ :=
        ih c1 (start + (4096 - start % 4096)) E (by omega) hE (by omega) hE4 (by omega)
      refine ⟨c', start', ?_, by omega, hlt', h4', hpg',
        flushFrame_trans c c1 c' _ _ _ _ _ hfr1 hfr2 (le_refl _) (by omega) hle (le_refl _)⟩
      rw [FlushICacheLoop_step n c c1 start _ _ hnot (by rw [hbytes]; exact hf)
        (by rw [hbytes, hstart1, kPageMask_eq, and_pageMask]; omega)]
      rw [hbytes, hstart1, hsize1, hoff1]
      exact hloop

/-- `FlushICache` on a range of the 32-bit address space returns and changes
nothing but the validity bytes of the lines that meet the range. -/
theorem FlushICache_frame (fuel : Nat) (c : Nat → Option CachePage) (start size : Nat)
    (hsize : 1 ≤ size) (hrange : start + size ≤ 4294967296) (hfuel : size / 4096 + 2 ≤ fuel) :
    ∃ c', FlushICache fuel c start size = .ok c' ∧
      flushFrame c c' (start - start % 4) ((start + size + 3) / 4 * 4) := by
  have hintra : start &&& CachePage.kLineMask = start % 4 := by
    rw [kLineMask_eq, and_lineMask]
  have hstart0 : sub32 start (start % 4) = start - start % 4 := by
    unfold sub32 ofInt32; omega
  have hsize2 : add32 (sub32 (add32 size (start % 4)) 1 ||| CachePage.kLineMask) 1
      = ((start + size + 3) / 4 * 4 - (start - start % 4)) % 4294967296 := by
    rw [kLineMask_eq, or_lineMask]
    unfold add32 sub32 ofInt32
    omega
  have hoff : (start - start % 4) &&& CachePage.kPageMask = (start - start % 4) % 4096 := by
    rw [kPageMask_eq, and_pageMask]
  obtain ⟨c1, start1, hloop, hle, hlt, h4, hpg, hfr1⟩ :=
    FlushICacheLoop_frame fuel c (start - start % 4) ((start + size + 3) / 4 * 4)
      (by omega) (by omega) (by omega) (by omega) (by omega)
  obtain ⟨c2, hf, hfr2⟩ := FlushOnePage_frame c1 start1
    ((start + size + 3) / 4 * 4 - start1) (by omega) h4 (by omega) (by omega) (by omega)
  refine ⟨c2, ?_, flushFrame_trans c c1 c2 _ _ _ _ _ hfr1 hfr2 (le_refl _) hle (by omega)
    (by omega)⟩
  unfold FlushICache
  simp only []
  rw [hintra, hstart0, hsize2, hoff, hloop]
  simp only []
  rw [if_pos (by omega)]
  exact hf

theorem cachePageView_some (c : Nat → Option CachePage) (page : Nat) (p : CachePage)
    (h : c page = some p) : cachePageView c page = p := by
  simp [cachePageView, GetCachePage, h]

theorem cachePageView_none (c : Nat → Option CachePage) (page : Nat)
    (h : c page = none) : cachePageView c page = CachePage.new := by
  simp [cachePageView, GetCachePage, h]

/-- C39: for every range `[start, start + size)` of the 32-bit address space
with size >= 1, `FlushICache(start, size)` returns (given enough iterations
of its page loop); for every line that contains no address of the range, a
validity byte the cache held is unchanged, and a line whose page was not in
the cache is still absent or belongs to a newly created page, INVALID; and
every cached data byte is unchanged. -/
theorem C39_flush_changes_only_the_range (fuel : Nat) (c : Nat → Option CachePage)
    (start size : Nat)
    (hsize : 1 ≤ size) (hrange : start + size ≤ 4294967296) (hfuel : size / 4096 + 2 ≤ fuel) :
    ∃ c', FlushICache fuel c start size = .ok c' ∧
      (∀ a v, a < 4294967296 → (a / 4 * 4 + 4 ≤ start ∨ start + size ≤ a / 4 * 4) →
        lineValidity c a = some v → lineValidity c' a = some v) ∧
      (∀ a, a < 4294967296 → (a / 4 * 4 + 4 ≤ start ∨ start + size ≤ a / 4 * 4) →
        lineValidity c a = none →
        lineValidity c' a = none ∨ lineValidity c' a = some CachePage.LINE_INVALID) ∧
      (∀ a b, a < 4294967296 → cachedByte c a = some b → cachedByte c' a = some b) := by
  obtain ⟨c', hf, hkeep, hdata, hval⟩ := FlushICache_frame fuel c start size hsize hrange hfuel
  have hout : ∀ a, (a / 4 * 4 + 4 ≤ start ∨ start + size ≤ a / 4 * 4) →
      ¬ (start - start % 4 ≤ a / 4096 * 4096 + 4 * (a % 4096 / 4) ∧
        a / 4096 * 4096 + 4 * (a % 4096 / 4) < (start + size + 3) / 4 * 4) := by
    intro a h; omega
  refine ⟨c', hf, ?_, ?_, ?_⟩
  · intro a v ha hd hv
    rw [lineValidity_eq _ _ ha] at hv ⊢
    have hv2 := hval (a / 4096 * 4096) (a % 4096 / 4) (hout a hd)
    cases hc : c (a / 4096 * 4096) with
    | none => rw [hc] at hv; simp at hv
    | some p =>
      rw [hc] at hv
      have hk := hkeep (a / 4096 * 4096) (by rw [hc]; simp)
      cases hc' : c' (a / 4096 * 4096) with
      | none => exact absurd hc' hk
      | some p' =>
        rw [cachePageView_some _ _ _ hc, cachePageView_some _ _ _ hc'] at hv2
        simp only [Option.some.injEq] at hv ⊢
        rw [hv2, hv]
  · intro a ha hd hv
    rw [lineValidity_eq _ _ ha] at hv ⊢
    have hv2 := hval (a / 4096 * 4096) (a % 4096 / 4) (hout a hd)
    cases hc : c (a / 4096 * 4096) with
    | some p => rw [hc] at hv; simp at hv
    | none =>
      cases hc' : c' (a / 4096 * 4096) with
      | none => exact Or.inl rfl
      | some p' =>
        rw [cachePageView_none _ _ hc, cachePageView_some _ _ _ hc'] at hv2
        right
        simp only [Option.some.injEq]
        rw [hv2]
        rfl
  · intro a b ha hb
    rw [cachedByte_eq _ _ ha] at hb ⊢
    have hd2 := hdata (a / 4096 * 4096)
    cases hc : c (a / 4096 * 4096) with
    | none => rw [hc] at hb; simp at hb
    | some p =>
      rw [hc] at hb
      have hk := hkeep (a / 4096 * 4096) (by rw [hc]; simp)
      cases hc' : c' (a / 4096 * 4096) with
      | none => exact absurd hc' hk
      | some p' =>
        rw [cachePageView_some _ _ _ hc, cachePageView_some _ _ _ hc'] at hd2
        simp only [Option.some.injEq] at hb ⊢
        rw [hd2, hb]

/-- C39 at a concrete input: flushing the word at `0x1004` of a cache whose
lines are all VALID leaves the neighbouring lines VALID and the data bytes
as they were. -/
theorem C39_witness :
    ∃ c', FlushICache 2 exampleStaleCache.i_cache 4100 4 = .ok c' ∧
      lineValidity c' 4096 = some CachePage.LINE_VALID ∧
      lineValidity c' 4104 = some CachePage.LINE_VALID ∧
      cachedByte c' 4100 = some 7 := by
  obtain ⟨c', hf, hv, _, hd⟩ :=
    C39_flush_changes_only_the_range 2 exampleStaleCache.i_cache 4100 4 (by decide) (by decide)
      (by decide)
  exact ⟨c', hf, hv 4096 _ (by decide) (by decide) (by decide),
    hv 4104 _ (by decide) (by decide) (by decide), hd 4100 7 (by decide) (by decide)⟩

/-! ## Mask, halfword load, SUBFIC, call arguments and CRXOR at failing inputs (C32, C33, C36, C37, C40) -/

/-- C32, the code at the failing input: for mb = 2, me = 0 (wrapped, mb > me+1) the
mask of the RLWINM and RLWIMI executors is `0x9FFFFFFF`, so bit 2 = mb is
clear although 2 >= mb; the contiguous masks (0..31, 4..7) and the full-word
mask (mb = 5, me = 4) are as claimed.  With r4 = `0x10000000`,
`rlwinm r3,r4,1,2,0` (`0x54830880`) retires with r3 = 0, where the rotated
value `0x20000000` has exactly bit 2 set.  The wrapped loop
`for(;me<mb;me++)` starts at bit me+1 and runs mb-me times, one time too
many. -/
theorem C32_wrapped_mask_clears_bit_mb :
    rotateMask 2 0 = 2684354559 ∧ crBit (rotateMask 2 0) 2 = false ∧
    rotateMask 0 31 = 4294967295 ∧ rotateMask 4 7 = 251658240 ∧ rotateMask 5 4 = 4294967295 ∧
    get_register exampleWrapMaskState 4 = 268435456 ∧
    ∃ s', InstructionDecode exampleWrapMaskState ⟨4096, 1417873536⟩ = .ok s' ∧
      get_register s' 3 = 0 :=
  ⟨by decide, by decide, by decide, by decide, by decide, by decide, _, rfl, by decide⟩

/-- C33, the code at the failing input: with the halfword `0x8000` stored at
`0x1000`, `lhz r3,0x1000(0)` (`0xA0601000`) retires with r3 = `0xFFFF8000`,
which is above 65535.  The LHZ case reads through `ReadH`, which returns
`int16_t`, and not through `ReadHU`. -/
theorem C33_lhz_sign_extends :
    ReadHU exampleHalfwordState 4096 = 32768 ∧
    ∃ s', InstructionDecode exampleHalfwordState ⟨8192, 2690650112⟩ = .ok s' ∧
      get_register s' 3 = 4294934528 ∧ ¬ get_register s' 3 ≤ 65535 :=
  ⟨by decide, _, rfl, by decide, by decide⟩

/-- C36, the code at the failing input: with r4 = 0, `subfic r3,r4,-1`
(`0x2064FFFF`, immediate field `0xFFFF`) retires with r3 = `0x0000FFFF` and
not `0xFFFFFFFF`: the SUBFIC case uses `Bits(15,0)` as it is, without the
`(x << 16) >> 16` of the neighbouring immediate cases. -/
theorem C36_subfic_immediate_is_not_sign_extended :
    get_register (exampleState []) 4 = 0 ∧
    Instruction.Bits ⟨4096, 543490047⟩ 15 0 = 65535 ∧
    ∃ s', InstructionDecode (exampleState []) ⟨4096, 543490047⟩ = .ok s' ∧
      get_register s' 3 = 65535 :=
  ⟨by decide, by decide, _, rfl, by decide⟩

/-- C40, the code at the failing input: with CR = `0x02000000` (only CR bit 6
set), `crxor 6,6,6` (`0x4CC63182`) retires with CR still `0x02000000`: bit 6
is not cleared.  The CRXOR case tests and clears with `0x10000000 >> b`,
which is CR bit b+3, and sets with `1 << (31-bt)`, which is CR bit bt. -/
theorem C40_crxor_tests_and_clears_the_wrong_bits :
    crBit exampleCrBitState.condition_reg_ 6 = true ∧
    ∃ s', InstructionDecode exampleCrBitState ⟨4096, 1288057218⟩ = .ok s' ∧
      s'.condition_reg_ = 33554432 ∧ crBit s'.condition_reg_ 6 = true :=
  ⟨by decide, _, rfl, by decide, by decide⟩

/-- C37, the code at the failing input: `Call` with argument count 5 and the
variadic arguments 0, 1, 2, 3, 4 puts them in r3..r7 and then stores a sixth
`va_arg` (here `0xDEAD`, past the arguments passed) in the stack slot at the
entry stack pointer `0xFFF0`.  The register part consumes five arguments but
the stack loop still starts at `i = 4`, so `Call` reads n + 1 variadic
arguments and stores arguments 5..n. -/
theorem C37_call_reads_one_argument_too_many :
    ∃ frame s1, Call_enter (exampleState []) 4096 5 exampleParameters = .ok (frame, s1) ∧
      frame.original_stack = 65536 ∧ frame.entry_stack = 65520 ∧
      get_register s1 3 = 0 ∧ get_register s1 4 = 1 ∧ get_register s1 5 = 2 ∧
      get_register s1 6 = 3 ∧ get_register s1 7 = 4 ∧
      exampleParameters 5 = 57005 ∧ ReadW s1 65520 = 57005 :=
  ⟨_, _, rfl, by decide, by decide, by decide, by decide, by decide, by decide, by decide,
    by decide, by decide⟩

/-! ## Moves to and from special-purpose registers (C34) -/

theorem DecodeExt2_MFSPR_9 (s : Simulator) (instr : Instruction) (h9 : instr.Bits 9 1 = 339) :
    DecodeExt2 s instr =
      if instr.Bits 20 11 ≠ 256 then .error .unimplemented
      else .ok (set_register s instr.RTValue s.special_reg_lr_) := by
  obtain ⟨k1, k2, k3⟩ := not_shift_opcode instr 339 h9 (by decide) (by decide) (by decide)
  unfold DecodeExt2
  simp only [if_neg k1, if_neg k2, if_neg k3, h9]
  simp [CMP, SUBFCX, ADDCX, SLWX, ANDX, CMPL, SUBFX, ADDZEX, MULLW, ADDX, XORX, ORX, MFSPR]

theorem DecodeExt2_MTSPR_9 (s : Simulator) (instr : Instruction) (h9 : instr.Bits 9 1 = 467) :
    DecodeExt2 s instr =
      if instr.Bits 20 11 = 256 then
        .ok { s with special_reg_lr_ := get_register s instr.RTValue }
      else if instr.Bits 20 11 = 288 then
        .ok { s with special_reg_ctr_ := get_register s instr.RTValue }
      else .error .unimplemented := by
  obtain ⟨k1, k2, k3⟩ := not_shift_opcode instr 467 h9 (by decide) (by decide) (by decide)
  unfold DecodeExt2
  simp only [if_neg k1, if_neg k2, if_neg k3, h9]
  simp [CMP, SUBFCX, ADDCX, SLWX, ANDX, CMPL, SUBFX, ADDZEX, MULLW, ADDX, XORX, ORX, MFSPR,
    MTSPR]

theorem InstructionDecode_error (s : Simulator) (instr : Instruction) (e : Halt)
    (h : InstructionDecode_execute s instr = .error e) :
    InstructionDecode s instr = .error e := by
  simp [InstructionDecode, h]

/-- C34, counterexample: after `mtctr r3` (`0x7C6903A6`) has completed,
`mfctr r3` (`0x7C6902A6`, MFSPR with SPR field 288) does not write rT: it
stops at `UNIMPLEMENTED()`. -/
theorem C34_mfctr_traps :
    ∃ s', InstructionDecode (exampleState []) ⟨4096, 2087256998⟩ = .ok s' ∧
      InstructionDecode s' ⟨4100, 2087256742⟩ = .error .unimplemented :=
  ⟨_, rfl, rfl⟩

/-! ## Arithmetic shift right by an immediate (C35) -/

/-- C35, the code at the failing input: with r4 = `0xFFFFFFFF` (-1) and
XER = 0, `srawi r3,r4,1` (`0x7C830E70`) retires with r3 = `0xFFFFFFFF` and the
XER carry bit (`0x20000000`) still 0, although rS is negative and the bit
shifted out is 1.  The `SRAWIX` case never writes `special_reg_xer_`, which
the `SUBFCX` and `ADDCX` cases beside it set and `ADDZEX` reads. -/
theorem C35_srawi_leaves_carry_clear :
    toInt32 (get_register exampleShiftState 4) = -1 ∧
    exampleShiftState.special_reg_xer_ = 0 ∧
    ∃ s', InstructionDecode exampleShiftState ⟨4096, 2088963696⟩ = .ok s' ∧
      get_register s' 3 = 4294967295 ∧ s'.special_reg_xer_ &&& 536870912 = 0 :=
  ⟨by decide, by decide, _, rfl, by decide, by decide⟩

/-! ## Lookup of a redirection by function (C38) -/

theorem Redirection_Get_pairwise (fuel : Nat) (s s1 : Simulator) (l l1 : List Redirection)
    (this f t : Nat) (r : Redirection)
    (hl : l.Pairwise (fun a b => a.external_function_ ≠ b.external_function_))
    (h : Redirection.Get fuel s l this f t = .ok (r, l1, s1)) :
    l1.Pairwise (fun a b => a.external_function_ ≠ b.external_function_) := by
  unfold Redirection.Get at h
  cases hg : l.find? (fun current => current.external_function_ == f) with
  | some r1 =>
    rw [hg] at h
    simp only [Except.ok.injEq, Prod.mk.injEq] at h
    obtain ⟨_, h2, _⟩ := h
    rw [← h2]; exact hl
  | none =>
    rw [hg] at h
    simp only [] at h
    obtain ⟨h1, _, h3, _⟩ := Redirection_new_ok fuel s s1 l l1 this f t r h
    rw [h1]
    refine List.pairwise_cons.2 ⟨?_, hl⟩
    intro a ha heq
    have := List.find?_eq_none.1 hg a ha
    simp only [beq_iff_eq] at this
    exact this (by rw [← heq, h3])

theorem redirectAll_pairwise (fuel : Nat) (reqs : List (Nat × Nat × Nat)) :
    ∀ (s s2 : Simulator) (l l2 : List Redirection),
      l.Pairwise (fun a b => a.external_function_ ≠ b.external_function_) →
      redirectAll fuel s l reqs = .ok (l2, s2) →
      l2.Pairwise (fun a b => a.external_function_ ≠ b.external_function_) := by
  induction reqs with
  | nil =>
    intro s s2 l l2 hl h
    simp only [redirectAll, Except.ok.injEq, Prod.mk.injEq] at h
    rw [← h.1]; exact hl
  | cons req rest ih =>
    intro s s2 l l2 hl h
    obtain ⟨this, g, t⟩ := req
    unfold redirectAll at h
    cases hr : RedirectExternalReference fuel s l this g t with
    | error e => rw [hr] at h; simp at h
    | ok x =>
      obtain ⟨a, l1, s1⟩ := x
      rw [hr] at h
      simp only [] at h
      obtain ⟨r, hget, _⟩ := RedirectExternalReference_ok fuel s s1 l l1 this g t a hr
      exact ih s1 s2 l1 l2 (Redirection_Get_pairwise fuel s s1 l l1 this g t r hl hget) h

/-- C38: when the list of redirections holds a record `r` for function `f`
registered with call type `t1`, `Redirection::Get(f, t2)` with `t2 != t1`
returns a record of the list whose function is `f` and leaves the list and
the simulator state as they were (no record is created, nothing is
written); when the list holds at most one record for each function, which
`redirectAll_pairwise` shows for every list built from the empty one, the
record returned is `r` itself and its type is still `t1`, not `t2`. -/
theorem C38_lookup_ignores_the_call_type (fuel : Nat) (s : Simulator) (l : List Redirection)
    (this f t1 t2 : Nat) (r : Redirection)
    (hr : r ∈ l) (hf : r.external_function_ = f) (ht : r.type_ = t1) (hne : t2 ≠ t1) :
    ∃ r0, Redirection.Get fuel s l this f t2 = .ok (r0, l, s) ∧
      r0 ∈ l ∧ r0.external_function_ = f ∧
      (l.Pairwise (fun a b => a.external_function_ ≠ b.external_function_) →
        r0 = r ∧ r0.type_ = t1 ∧ r0.type_ ≠ t2) := by
  cases hg : l.find? (fun current => current.external_function_ == f) with
  | none =>
    have := List.find?_eq_none.1 hg r hr
    simp only [beq_iff_eq] at this
    exact absurd hf this
  | some r0 =>
    have hmem := List.mem_of_find?_eq_some hg
    have hfun := List.find?_some hg
    simp only [beq_iff_eq] at hfun
    refine ⟨r0, Redirection_Get_found fuel s l this f t2 r0 hg, hmem, hfun, ?_⟩
    intro hl
    have h0 : r0 = r := by
      by_contra hne0
      exact List.Pairwise.forall (fun _ _ h => Ne.symm h) hl hmem hr hne0 (by rw [hf, hfun])
    rw [h0]
    exact ⟨rfl, ht, by rw [ht]; exact Ne.symm hne⟩

/-- C38 at a concrete input: function `12345` registered with type 1 and
looked up with type 2. -/
theorem C38_witness :
    ∃ r0, Redirection.Get 0 (exampleState []) [exampleRedirection] 12288 12345 2 =
        .ok (r0, [exampleRedirection], exampleState []) ∧
      r0 = exampleRedirection ∧ r0.type_ = 1 := by
  obtain ⟨r0, h, _, _, hu⟩ :=
    C38_lookup_ignores_the_call_type 0 (exampleState []) [exampleRedirection] 12288 12345 1 2
      exampleRedirection (List.mem_singleton.2 rfl) rfl rfl (by decide)
  exact ⟨r0, h, (hu (List.pairwise_singleton _ _)).1, (hu (List.pairwise_singleton _ _)).2.1⟩

/-! ## Memory bytes written and read by the accessors -/

theorem WriteW_mem_at (s : Simulator) (a v k : Nat) (hk : k < 4) :
    (WriteW s a v).mem ((a + k) % 4294967296) = v / 256 ^ k % 256 := by
  have h1 : ¬ (a + 1) % 4294967296 = a % 4294967296 := by omega
  have h2 : ¬ (a + 2) % 4294967296 = a % 4294967296 := by omega
  have h3 : ¬ (a + 3) % 4294967296 = a % 4294967296 := by omega
  have h4 : ¬ (a + 2) % 4294967296 = (a + 1) % 4294967296 := by omega
  have h5 : ¬ (a + 3) % 4294967296 = (a + 1) % 4294967296 := by omega
  have h6 : ¬ (a + 3) % 4294967296 = (a + 2) % 4294967296 := by omega
  have h1' : ¬ a % 4294967296 = (a + 1) % 4294967296 := by omega
  have h2' : ¬ a % 4294967296 = (a + 2) % 4294967296 := by omega
  have h3' : ¬ a % 4294967296 = (a + 3) % 4294967296 := by omega
  have h4' : ¬ (a + 1) % 4294967296 = (a + 2) % 4294967296 := by omega
  have h5' : ¬ (a + 1) % 4294967296 = (a + 3) % 4294967296 := by omega
  have h6' : ¬ (a + 2) % 4294967296 = (a + 3) % 4294967296 := by omega
  interval_cases k <;>
    simp [WriteW, Simulator.setByte, Function.update, h1, h2, h3, h4, h5, h6, h1', h2', h3',
      h4', h5', h6']

theorem WriteW_mem_other (s : Simulator) (a v b : Nat)
    (h : ∀ k, k < 4 → b ≠ (a + k) % 4294967296) : (WriteW s a v).mem b = s.mem b := by
  have h0 := h 0 (by decide)
  have h1 := h 1 (by decide)
  have h2 := h 2 (by decide)
  have h3 := h 3 (by decide)
  simp only [Nat.add_zero] at h0
  simp [WriteW, Simulator.setByte, Function.update, h0, h1, h2, h3]

theorem WriteH_mem_at (s : Simulator) (a v k : Nat) (hk : k < 2) :
    (WriteH s a v).mem ((a + k) % 4294967296) = v / 256 ^ k % 256 := by
  have h1 : ¬ (a + 1) % 4294967296 = a % 4294967296 := by omega
  have h1' : ¬ a % 4294967296 = (a + 1) % 4294967296 := by omega
  interval_cases k <;> simp [WriteH, Simulator.setByte, Function.update, h1, h1']

theorem WriteH_mem_other (s : Simulator) (a v b : Nat)
    (h : ∀ k, k < 2 → b ≠ (a + k) % 4294967296) : (WriteH s a v).mem b = s.mem b := by
  have h0 := h 0 (by decide)
  have h1 := h 1 (by decide)
  simp only [Nat.add_zero] at h0
  simp [WriteH, Simulator.setByte, Function.update, h0, h1]

theorem WriteB_mem_at (s : Simulator) (a v : Nat) :
    (WriteB s a v).mem (a % 4294967296) = v % 256 := by
  simp [WriteB, Simulator.setByte]

theorem WriteB_mem_other (s : Simulator) (a v b : Nat) (h : b ≠ a % 4294967296) :
    (WriteB s a v).mem b = s.mem b := by
  simp [WriteB, Simulator.setByte, Function.update, h]

theorem ReadB_and_255 (s : Simulator) (a : Nat) :
    ReadB s a &&& 255 = s.mem (a % 4294967296) % 256 := by
  have h := Nat.and_pow_two_sub_one_eq_mod (ReadB s a) 8
  simp only [Nat.reducePow, Nat.add_one_sub_one] at h
  rw [h]
  unfold ReadB Simulator.byteAt
  simp only []
  split <;> omega

theorem ReadW_eq_mem (s : Simulator) (a : Nat) :
    ReadW s a = s.mem (a % 4294967296) % 256 + 256 * (s.mem ((a + 1) % 4294967296) % 256)
      + 65536 * (s.mem ((a + 2) % 4294967296) % 256)
      + 16777216 * (s.mem ((a + 3) % 4294967296) % 256) := rfl

theorem ReadH_eq_mem (s : Simulator) (a : Nat) :
    ReadH s a =
      if s.mem (a % 4294967296) % 256 + 256 * (s.mem ((a + 1) % 4294967296) % 256) < 32768 then
        s.mem (a % 4294967296) % 256 + 256 * (s.mem ((a + 1) % 4294967296) % 256)
      else s.mem (a % 4294967296) % 256 + 256 * (s.mem ((a + 1) % 4294967296) % 256)
        + 4294901760 := rfl

/-! ## Update forms (C28) -/

theorem get_register_eq_slot (s : Simulator) (d : Nat) (hd : d ≠ pc) (h : d < num_registers) :
    get_register s d = s.registers_ d := by
  have h32 : ¬ d ≥ num_registers := by omega
  simp [get_register, hd, h32]

/-- C28: with the I-cache check off and RA not 0.  LWZU with RA different
from RT completes, writes to rT the word at EA = reg[RA] + sign-extended D
(the four bytes from EA on, as LWZ does) and EA to rA, and leaves memory
unchanged.  STWU completes, replaces the four bytes from EA on by the bytes
of the value rS held before the instruction, changes no other byte, and
writes EA to rA.  Reading rA (or rT) back gives the value written when the
register is not slot 15, the PC. -/
theorem C28_update_forms (s : Simulator) (instr : Instruction)
    (hic : s.flags.check_icache = false) (hra0 : instr.RAValue ≠ 0) :
    (instr.OpcodeValue = 33 → instr.RAValue ≠ instr.RTValue →
      ∃ s', InstructionDecode s instr = .ok s' ∧
        s'.registers_ instr.RTValue =
          s.mem (effectiveAddress_spec s instr % 4294967296) % 256
          + 256 * (s.mem ((effectiveAddress_spec s instr + 1) % 4294967296) % 256)
          + 65536 * (s.mem ((effectiveAddress_spec s instr + 2) % 4294967296) % 256)
          + 16777216 * (s.mem ((effectiveAddress_spec s instr + 3) % 4294967296) % 256) ∧
        s'.registers_ instr.RAValue = effectiveAddress_spec s instr ∧
        s'.mem = s.mem ∧
        (instr.RTValue ≠ pc → get_register s' instr.RTValue = s'.registers_ instr.RTValue) ∧
        (instr.RAValue ≠ pc → get_register s' instr.RAValue = effectiveAddress_spec s instr)) ∧
    (instr.OpcodeValue = 37 →
      ∃ s', InstructionDecode s instr = .ok s' ∧
        (∀ k, k < 4 → s'.mem ((effectiveAddress_spec s instr + k) % 4294967296) =
          get_register s instr.RSValue / 256 ^ k % 256) ∧
        (∀ a, (∀ k, k < 4 → a ≠ (effectiveAddress_spec s instr + k) % 4294967296) →
          s'.mem a = s.mem a) ∧
        s'.registers_ instr.RAValue = effectiveAddress_spec s instr ∧
        (instr.RAValue ≠ pc → get_register s' instr.RAValue = effectiveAddress_spec s instr)) := by
  obtain ⟨s0, hs0⟩ : ∃ s0 : Simulator, s0 = { s with pc_modified_ := false } := ⟨_, rfl⟩
  have hea : effectiveAddress s0 instr = effectiveAddress_spec s instr := by
    rw [hs0]
    exact effectiveAddress_eq_spec s instr
  have hexec : InstructionDecode_execute s instr = InstructionDecode_switch s0 instr := by
    rw [InstructionDecode_execute_no_icache s instr hic, hs0]
  have hmem0 : s0.mem = s.mem := by rw [hs0]
  have hreg0 : s0.registers_ = s.registers_ := by rw [hs0]
  constructor
  · intro hop hne
    rw [switch_LWZU _ _ hop, if_pos hra0, ReadW_set_register, hea] at hexec
    obtain ⟨s2, hs2⟩ : ∃ s2 : Simulator, s2 = set_register
        (set_register s0 instr.RAValue (effectiveAddress_spec s instr)) instr.RTValue
        (ReadW s0 (effectiveAddress_spec s instr)) := ⟨_, rfl⟩
    rw [← hs2] at hexec
    have hrt2 : s2.registers_ instr.RTValue =
        s.mem (effectiveAddress_spec s instr % 4294967296) % 256
          + 256 * (s.mem ((effectiveAddress_spec s instr + 1) % 4294967296) % 256)
          + 65536 * (s.mem ((effectiveAddress_spec s instr + 2) % 4294967296) % 256)
          + 16777216 * (s.mem ((effectiveAddress_spec s instr + 3) % 4294967296) % 256) := by
      rw [hs2]
      simp [set_register, ReadW_eq_mem, hmem0]
    have hra2 : s2.registers_ instr.RAValue = effectiveAddress_spec s instr := by
      rw [hs2]
      simp [set_register, Function.update, hne]
    have hm2 : s2.mem = s.mem := by rw [hs2, ← hmem0]; rfl
    have hl2 : s2.pc_modified_ = decide (instr.RAValue = pc ∨ instr.RTValue = pc) := by
      rw [hs2, hs0]
      by_cases h1 : instr.RAValue = pc <;> by_cases h2 : instr.RTValue = pc <;>
        simp [set_register, h1, h2]
    by_cases hpc : instr.RAValue = pc ∨ instr.RTValue = pc
    · have hd := InstructionDecode_of_latch_set s instr s2 hexec (by rw [hl2]; simp [hpc])
      refine ⟨s2, hd, hrt2, hra2, hm2, fun h => get_register_eq_slot _ _ h (RTValue_lt instr),
        fun h => ?_⟩
      rw [get_register_eq_slot _ _ h (RAValue_lt instr), hra2]
    · have hd := InstructionDecode_of_latch_clear s instr s2 hexec (by rw [hl2]; simp [hpc])
      have h1 : instr.RAValue ≠ pc := fun h => hpc (Or.inl h)
      have h2 : instr.RTValue ≠ pc := fun h => hpc (Or.inr h)
      have hrt3 : (set_register s2 pc (add32 instr.addr Instruction.kInstrSize)).registers_
          instr.RTValue = s2.registers_ instr.RTValue := by
        simp [set_register, Function.update, h2]
      have hra3 : (set_register s2 pc (add32 instr.addr Instruction.kInstrSize)).registers_
          instr.RAValue = s2.registers_ instr.RAValue := by
        simp [set_register, Function.update, h1]
      refine ⟨_, hd, by rw [hrt3, hrt2], by rw [hra3, hra2], hm2,
        fun h => get_register_eq_slot _ _ h (RTValue_lt instr), fun h => ?_⟩
      rw [get_register_eq_slot _ _ h (RAValue_lt instr), hra3, hra2]
  · intro hop
    rw [switch_STWU _ _ hop, if_pos hra0, hea] at hexec
    have hrs : get_register s0 instr.RSValue = get_register s instr.RSValue := by
      rw [hs0]; rfl
    rw [hrs] at hexec
    obtain ⟨s1, hs1⟩ : ∃ s1 : Simulator, s1 =
        set_register s0 instr.RAValue (effectiveAddress_spec s instr) := ⟨_, rfl⟩
    rw [← hs1] at hexec
    have hm1 : s1.mem = s.mem := by rw [hs1, ← hmem0]; rfl
    obtain ⟨s2, hs2⟩ : ∃ s2 : Simulator, s2 =
        WriteW s1 (effectiveAddress_spec s instr) (get_register s instr.RSValue) := ⟨_, rfl⟩
    rw [← hs2] at hexec
    have hat : ∀ k, k < 4 → s2.mem ((effectiveAddress_spec s instr + k) % 4294967296) =
        get_register s instr.RSValue / 256 ^ k % 256 := by
      intro k hk; rw [hs2]; exact WriteW_mem_at s1 _ _ k hk
    have hother : ∀ a, (∀ k, k < 4 → a ≠ (effectiveAddress_spec s instr + k) % 4294967296) →
        s2.mem a = s.mem a := by
      intro a ha; rw [hs2, WriteW_mem_other s1 _ _ a ha, hm1]
    have hra2 : s2.registers_ instr.RAValue = effectiveAddress_spec s instr := by
      rw [hs2, hs1]
      simp [WriteW, Simulator.setByte, set_register]
    have hl2 : s2.pc_modified_ = decide (instr.RAValue = pc) := by
      rw [hs2, hs1, hs0]
      by_cases h1 : instr.RAValue = pc <;> simp [WriteW, Simulator.setByte, set_register, h1]
    by_cases hpc : instr.RAValue = pc
    · have hd := InstructionDecode_of_latch_set s instr s2 hexec (by rw [hl2]; simp [hpc])
      exact ⟨s2, hd, hat, hother, hra2, fun h => absurd hpc h⟩
    · have hd := InstructionDecode_of_latch_clear s instr s2 hexec (by rw [hl2]; simp [hpc])
      have hra3 : (set_register s2 pc (add32 instr.addr Instruction.kInstrSize)).registers_
          instr.RAValue = s2.registers_ instr.RAValue := by
        simp [set_register, Function.update, hpc]
      refine ⟨_, hd, hat, hother, by rw [hra3, hra2], fun h => ?_⟩
      rw [get_register_eq_slot _ _ h (RAValue_lt instr), hra3, hra2]

/-- C28 at a concrete input: `stwu r4,-8(r1)` with r1 = `0x10000` leaves
r1 = `0xFFF8`. -/
theorem C28_witness :
    ∃ s', InstructionDecode (exampleState []) ⟨4096, 2491547640⟩ = .ok s' ∧
      s'.registers_ 1 = 65528 ∧ get_register s' 1 = 65528 := by
  obtain ⟨s', h, _, _, hra, hg⟩ :=
    (C28_update_forms (exampleState []) ⟨4096, 2491547640⟩ rfl (by decide)).2 (by decide)
  have e1 : Instruction.RAValue ⟨4096, 2491547640⟩ = 1 := by decide
  have e2 : effectiveAddress_spec (exampleState []) ⟨4096, 2491547640⟩ = 65528 := by decide
  have hg' := hg (by decide)
  rw [e1, e2] at hra hg'
  exact ⟨s', h, hra, hg'⟩

/-! ## Add and compare, store and load through r15 (C2, C4) -/

/-- One completed instruction whose executor wrote `v` to register `d` and did
nothing else: the slot of `d` holds `v`, also when `d` is the PC slot and the
write is a jump. -/
theorem InstructionDecode_write_slot (s : Simulator) (instr : Instruction) (s1 : Simulator)
    (d v : Nat) (hl : s1.pc_modified_ = false)
    (hex : InstructionDecode_execute s instr = .ok (set_register s1 d v)) :
    ∃ s', InstructionDecode s instr = .ok s' ∧ s'.registers_ d = v ∧
      (d ≠ pc → d < num_registers → get_register s' d = v) := by
  by_cases hd : d = pc
  · refine ⟨_, InstructionDecode_of_latch_set s instr _ hex (by simp [set_register, hd]), ?_,
      fun h => absurd hd h⟩
    simp [set_register]
  · have hs : (set_register (set_register s1 d v) pc
        (add32 instr.addr Instruction.kInstrSize)).registers_ d = v := by
      simp [set_register, Function.update, hd]
    refine ⟨_, InstructionDecode_of_latch_clear s instr _ hex (by simp [set_register, hd, hl]),
      hs, fun _ h32 => ?_⟩
    rw [get_register_eq_slot _ _ hd h32, hs]

/-- C2, counterexample: with r3 = `0x7FFFFFF8` and r4 = 0, `add r15,r3,r4`
(`0x7DE32214`) writes the sum to slot 15, which is the PC, so it is a jump to
`0x7FFFFFF8`; `cmpwi r15,0` (`0x2C0F0000`) executed there reads the PC plus
8 = `0x80000000` and sets LT in CR0 and not GT, although the sum is
positive. -/
theorem C2_add_to_r15_compares_pc_plus_8 :
    get_register exampleAddR15State 3 = 2147483640 ∧ get_register exampleAddR15State 4 = 0 ∧
    Instruction.RTValue ⟨4096, 2112037396⟩ = 15 ∧
    decide (toInt32 ((2147483640 + 0) % 4294967296) > 0) = true ∧
    ∃ s1 s2, InstructionDecode exampleAddR15State ⟨4096, 2112037396⟩ = .ok s1 ∧
      get_pc s1 = 2147483640 ∧ get_register s1 15 = 2147483648 ∧
      InstructionDecode s1 ⟨2147483640, 739180544⟩ = .ok s2 ∧
      crBit s2.condition_reg_ 0 = true ∧ crBit s2.condition_reg_ 1 = false :=
  ⟨by decide, by decide, by decide, by decide, _, _, rfl, by decide, by decide, rfl, by decide,
    by decide⟩

/-- C4, counterexample: with the PC at `0x1000` and r5 = `0xDEADBEEF`,
`stw r5,0(r15)` (`0x90AF0000`) stores at the PC plus 8 = `0x1008`, and
`lwz r6,0(r15)` (`0x80CF0000`), executed next at `0x1004`, loads from
`0x100C`: r6 = 0 and not the value stored.  Register 15 is the PC, which has
moved between the two instructions. -/
theorem C4_round_trip_fails_on_r15 :
    get_pc exampleBaseR15State = 4096 ∧ get_register exampleBaseR15State 5 = 3735928559 ∧
    get_register exampleBaseR15State 15 = 4104 ∧
    ∃ s1 s2, InstructionDecode exampleBaseR15State ⟨4096, 2427387904⟩ = .ok s1 ∧
      ReadW s1 4104 = 3735928559 ∧ get_register s1 15 = 4108 ∧
      InstructionDecode s1 ⟨4100, 2161049600⟩ = .ok s2 ∧ get_register s2 6 = 0 :=
  ⟨by decide, by decide, by decide, _, _, rfl, by decide, by decide, rfl, by decide⟩

/-- C4 as amended: store/load round trip for a base register other than r15,
which the simulator uses as the PC.  With the I-cache check off, for every
address p read from rA and every 32-bit value v read from rS, `stw rS,0(rA)`
followed by `lwz rT,0(rA)` both complete, the word at the address accessed
(p, or 0 when the RA field is 0) is v, and v is written to rT; reading rT
back gives v when rT is not slot 15. -/
theorem C4_store_load_round_trip (s : Simulator) (stw lwz : Instruction) (p v : Nat)
    (hv : v < 4294967296)
    (hic : s.flags.check_icache = false)
    (hstw : stw.OpcodeValue = 36) (hd1 : stw.Bits 15 0 = 0)
    (hlwz : lwz.OpcodeValue = 32) (hd2 : lwz.Bits 15 0 = 0)
    (hra : lwz.RAValue = stw.RAValue) (hrapc : stw.RAValue ≠ pc)
    (hp : get_register s stw.RAValue = p) (hvs : get_register s stw.RSValue = v) :
    ∃ s1 s2, InstructionDecode s stw = .ok s1 ∧ InstructionDecode s1 lwz = .ok s2 ∧
      ReadW s1 (if stw.RAValue = 0 then 0 else p % 4294967296) = v ∧
      s2.registers_ lwz.RTValue = v ∧
      (lwz.RTValue ≠ pc → get_register s2 lwz.RTValue = v) := by
  obtain ⟨s0, hs0⟩ : ∃ s0 : Simulator, s0 = { s with pc_modified_ := false } := ⟨_, rfl⟩
  have hp' : get_register s0 stw.RAValue = p := by rw [hs0, ← hp]; rfl
  have hvs' : get_register s0 stw.RSValue = v := by rw [hs0, ← hvs]; rfl
  have hea : effectiveAddress s0 stw = if stw.RAValue = 0 then 0 else p % 4294967296 := by
    by_cases h0 : stw.RAValue = 0
    · simp [effectiveAddress, hd1, h0, signExtend16_zero]
    · rw [effectiveAddress_zero_disp _ _ hd1 h0, hp', if_neg h0]
  obtain ⟨ea, hdef⟩ : ∃ ea : Nat, ea = if stw.RAValue = 0 then 0 else p % 4294967296 :=
    ⟨_, rfl⟩
  rw [← hdef] at hea ⊢
  have e1 : InstructionDecode_execute s stw = .ok (WriteW s0 ea v) := by
    rw [InstructionDecode_execute_no_icache s stw hic, ← hs0, switch_STW _ _ hstw, hea, hvs']
  have d1 := InstructionDecode_of_latch_clear s stw _ e1
    (by rw [hs0]; simp [WriteW, Simulator.setByte])
  obtain ⟨s1, hs1⟩ : ∃ s1 : Simulator, s1 = set_register (WriteW s0 ea v) pc
    (add32 stw.addr Instruction.kInstrSize) := ⟨_, rfl⟩
  rw [← hs1] at d1
  have hmem : ReadW s1 ea = v := by
    rw [hs1]
    exact ReadW_WriteW s0 ea v hv
  obtain ⟨s1', hs1'⟩ : ∃ s1' : Simulator, s1' = { s1 with pc_modified_ := false } := ⟨_, rfl⟩
  have hreg : get_register s1' lwz.RAValue = p := by
    rw [hra, ← hp, hs1', hs1, hs0]
    simp [get_register, set_register, WriteW, Simulator.setByte, Function.update, hrapc]
  have hic1 : s1.flags.check_icache = false := by
    rw [hs1, hs0]
    simp [set_register, WriteW, Simulator.setByte, hic]
  have hmem' : ReadW s1' ea = v := by rw [← hmem, hs1']; rfl
  have hea2 : effectiveAddress s1' lwz = ea := by
    by_cases h0 : stw.RAValue = 0
    · rw [hdef, if_pos h0]
      simp [effectiveAddress, hd2, hra, h0, signExtend16_zero]
    · rw [effectiveAddress_zero_disp _ _ hd2 (by rw [hra]; exact h0), hreg, hdef, if_neg h0]
  have e2 : InstructionDecode_execute s1 lwz = .ok (set_register s1' lwz.RTValue v) := by
    rw [InstructionDecode_execute_no_icache s1 lwz hic1, ← hs1', switch_LWZ _ _ hlwz, hea2, hmem']
  obtain ⟨s2, d2, hslot, hget⟩ := InstructionDecode_write_slot s1 lwz s1' lwz.RTValue v
    (by rw [hs1']) e2
  exact ⟨s1, s2, d1, d2, hmem, hslot, fun h => hget h (RTValue_lt lwz)⟩

/-- C4 as amended, at a concrete input: `stw r5,0(r4)` (0x90A40000) with
r4 = 0x2000 and r5 = 0xDEADBEEF, then `lwz r6,0(r4)` (0x80C40000). -/
theorem C4_witness :
    ∃ s1 s2, InstructionDecode exampleStoreState ⟨4096, 2426667008⟩ = .ok s1 ∧
      InstructionDecode s1 ⟨4100, 2160328704⟩ = .ok s2 ∧
      ReadW s1 8192 = 3735928559 ∧
      s2.registers_ 6 = 3735928559 ∧ get_register s2 6 = 3735928559 := by
  obtain ⟨s1, s2, h1, h2, hm, hs, hg⟩ :=
    C4_store_load_round_trip exampleStoreState ⟨4096, 2426667008⟩ ⟨4100, 2160328704⟩ 8192
      3735928559 (by decide) rfl (by decide) (by decide) (by decide) (by decide) (by decide)
      (by decide) (by decide) (by decide)
  exact ⟨s1, s2, h1, h2, hm, hs, hg (by decide)⟩

/-! ## Rotate-mask identity (C3) -/

/-- One completed record-capable instruction whose executor wrote `v` to
register `d`, any register, and, with Rc set, ran the record-form update on
`v`; `s0` is the state the executor starts from. -/
theorem InstructionDecode_record_form_slot (s s0 : Simulator) (instr : Instruction)
    (hic : s.flags.check_icache = false) (hs0 : s0 = { s with pc_modified_ := false })
    (d v : Nat) (s2 : Simulator)
    (hex : InstructionDecode_switch s0 instr = .ok s2)
    (hshape : s2 = (if instr.Bit 0 ≠ 0 then setCR0 (set_register s0 d v) v
        else set_register s0 d v) ∨
      s2 = set_register (if instr.Bit 0 ≠ 0 then setCR0 s0 v else s0) d v) :
    ∃ s', InstructionDecode s instr = .ok s' ∧ s'.registers_ d = v ∧
      (d ≠ pc → d < num_registers → get_register s' d = v) ∧
      (instr.Bit 0 = 1 → recordedInCR0 s.condition_reg_ s'.condition_reg_ v) ∧
      (instr.Bit 0 = 0 → s'.condition_reg_ = s.condition_reg_) := by
  have hreg : s2.registers_ = Function.update s.registers_ d v := by
    rcases hshape with h | h <;> rw [h, hs0] <;>
      by_cases hb : instr.Bit 0 ≠ 0 <;> simp [set_register, setCR0, hb]
  have hlatch : s2.pc_modified_ = decide (d = pc) := by
    rcases hshape with h | h <;> rw [h, hs0] <;>
      by_cases hb : instr.Bit 0 ≠ 0 <;> by_cases hd : d = pc <;>
        simp [set_register, setCR0, hb, hd]
  have hcr : s2.condition_reg_ =
      if instr.Bit 0 ≠ 0 then (setCR0 s v).condition_reg_ else s.condition_reg_ := by
    rcases hshape with h | h <;> rw [h, hs0] <;>
      by_cases hb : instr.Bit 0 ≠ 0 <;> simp [set_register, setCR0, hb]
  have e : InstructionDecode_execute s instr = .ok s2 := by
    rw [InstructionDecode_execute_no_icache s instr hic, ← hs0, hex]
  have hcr1 : instr.Bit 0 = 1 → recordedInCR0 s.condition_reg_ s2.condition_reg_ v := by
    intro h1
    rw [hcr, if_pos (by rw [h1]; decide)]
    exact setCR0_recorded s v
  have hcr0 : instr.Bit 0 = 0 → s2.condition_reg_ = s.condition_reg_ := by
    intro h0
    rw [hcr, if_neg (by rw [h0]; decide)]
  by_cases hd : d = pc
  · refine ⟨s2, InstructionDecode_of_latch_set s instr s2 e (by rw [hlatch]; simp [hd]), ?_,
      fun h => absurd hd h, hcr1, hcr0⟩
    rw [hreg]; simp
  · refine ⟨_, InstructionDecode_of_latch_clear s instr s2 e (by rw [hlatch]; simp [hd]), ?_, ?_,
      hcr1, hcr0⟩
    · simp [set_register, hreg, Function.update, hd]
    · intro _ h32
      have h32' : ¬ d ≥ num_registers := by omega
      simp [get_register, set_register, hreg, Function.update, hd, h32']

theorem rotateLeftAsWritten_zero (v : Nat) : rotateLeftAsWritten v 0 = v % 4294967296 := by
  have h : v % 4294967296 < 4294967296 := Nat.mod_lt _ (by decide)
  have e1 : asr32 v 0 = v % 4294967296 := by
    unfold asr32 ofInt32 toInt32
    rw [Int.shiftRight_eq_div_pow]
    split <;> simp <;> omega
  unfold rotateLeftAsWritten shl32
  simp only [Nat.sub_zero, Nat.mod_self, Nat.shiftLeft_zero, e1, Nat.or_self]

theorem and_allOnes (x : Nat) : x % 4294967296 &&& 4294967295 = x % 4294967296 := by
  have h := Nat.and_pow_two_sub_one_eq_mod (x % 4294967296) 32
  simp only [Nat.reducePow, Nat.add_one_sub_one, Nat.mod_mod] at h
  simpa using h

/-- C3: with the I-cache check off, RLWINM (primary opcode 21) with sh = 0,
mb = 0 and me = 31 completes and writes the 32-bit value read from rS to its
destination (the rA field of the instruction), whatever that value is, the
top bit included; reading the destination back gives that value when it is
not slot 15, the PC.  The rotate evaluates `rs_val >> 32` here; see
`rotateLeftAsWritten`. -/
theorem C3_rlwinm_identity (s : Simulator) (instr : Instruction)
    (hic : s.flags.check_icache = false) (hop : instr.OpcodeValue = 21)
    (hsh : instr.Bits 15 11 = 0) (hmb : instr.Bits 10 6 = 0) (hme : instr.Bits 5 1 = 31) :
    ∃ s', InstructionDecode s instr = .ok s' ∧
      s'.registers_ instr.RAValue = get_register s instr.RSValue % 4294967296 ∧
      (instr.RAValue ≠ pc →
        get_register s' instr.RAValue = get_register s instr.RSValue % 4294967296) := by
  obtain ⟨s0, hs0⟩ : ∃ s0 : Simulator, s0 = { s with pc_modified_ := false } := ⟨_, rfl⟩
  have hex := switch_RLWINMX s0 instr hop
  obtain ⟨s', h, hv, hg, _⟩ := InstructionDecode_record_form_slot s s0 instr hic hs0
    instr.RAValue _ _ hex (Or.inl rfl)
  have hm : rotateMask 0 31 = 4294967295 := by decide
  have hval : rotateLeftAsWritten (get_register s0 instr.RSValue) (instr.Bits 15 11) &&&
      rotateMask (instr.Bits 10 6) (instr.Bits 5 1) = get_register s instr.RSValue % 4294967296 := by
    rw [hsh, hmb, hme, hm, rotateLeftAsWritten_zero, and_allOnes, hs0, get_register_latch_cleared]
  rw [hval] at hv hg
  exact ⟨s', h, hv, fun hra => hg hra (RAValue_lt instr)⟩

/-- C3 at a concrete input: `rlwinm r3,r4,0,0,31` (`0x5483003E`) with
r4 = `0x80000000`. -/
theorem C3_witness :
    ∃ s', InstructionDecode exampleRotateState ⟨4096, 1417871422⟩ = .ok s' ∧
      get_register s' 3 = 2147483648 := by
  obtain ⟨s', h, _, hg⟩ := C3_rlwinm_identity exampleRotateState ⟨4096, 1417871422⟩ rfl
    (by decide) (by decide) (by decide) (by decide)
  exact ⟨s', h, hg (by decide)⟩

/-! ## Subtract-from and the record forms (C24, C29) -/

/-- C24: with the I-cache check off, `subf rT,rA,rB` (primary opcode 31,
extended opcode 40, with or without OE and Rc) completes and writes
`(rB - rA) mod 2^32`, for the values it read from rB and rA, to rT, for every
rT; reading rT back gives that value when rT is not slot 15 of the register
file, which holds the PC. -/
theorem C24_subf_operand_order (s : Simulator) (instr : Instruction)
    (hic : s.flags.check_icache = false) (hop : instr.OpcodeValue = 31)
    (hxo : instr.Bits 9 1 = 40) :
    ∃ s', InstructionDecode s instr = .ok s' ∧
      (s'.registers_ instr.RTValue : Int) =
        ((get_register s instr.RBValue : Int) - (get_register s instr.RAValue : Int))
          % 4294967296 ∧
      (instr.RTValue ≠ pc →
        (get_register s' instr.RTValue : Int) =
          ((get_register s instr.RBValue : Int) - (get_register s instr.RAValue : Int))
            % 4294967296) := by
  obtain ⟨s0, hs0⟩ : ∃ s0 : Simulator, s0 = { s with pc_modified_ := false } := ⟨_, rfl⟩
  have hex := DecodeExt2_SUBFX s0 instr hxo
  rw [← switch_EXT2 _ _ hop] at hex
  obtain ⟨s', h, hv, hg, _⟩ := InstructionDecode_record_form_slot s s0 instr hic hs0
    instr.RTValue
    (sub32 (get_register s0 instr.RBValue) (get_register s0 instr.RAValue))
    _ hex (Or.inr rfl)
  have e : ((sub32 (get_register s0 instr.RBValue) (get_register s0 instr.RAValue) : Nat) : Int) =
      ((get_register s instr.RBValue : Int) - (get_register s instr.RAValue : Int))
        % 4294967296 := by
    rw [hs0, get_register_latch_cleared, get_register_latch_cleared]
    unfold sub32 ofInt32
    omega
  refine ⟨s', h, by rw [hv, e], fun hrt => ?_⟩
  rw [hg hrt (RTValue_lt instr), e]

/-- C24 at a concrete input: `subf r5,r3,r4` with r3 = -1 and r4 = 1 gives
r5 = 2. -/
theorem C24_witness :
    ∃ s', InstructionDecode exampleCarryState ⟨4096, 2091065424⟩ = .ok s' ∧
      s'.registers_ 5 = 2 ∧ get_register s' 5 = 2 := by
  obtain ⟨s', h, hv, hg⟩ := C24_subf_operand_order exampleCarryState ⟨4096, 2091065424⟩ rfl
    (by decide) (by decide)
  have h5 : Instruction.RTValue ⟨4096, 2091065424⟩ = 5 := by decide
  have hg' := hg (by decide)
  rw [h5] at hv hg'
  have e1 : (s'.registers_ 5 : Int) = 2 := by rw [hv]; decide
  have e2 : (get_register s' 5 : Int) = 2 := by rw [hg']; decide
  exact ⟨s', h, by exact_mod_cast e1, by exact_mod_cast e2⟩

/-- C29: with the I-cache check off, each of AND (extended opcode 28), SUBF
(40), ADDZE (202), SRAWI (824), RLWINM (primary opcode 21) and RLWIMI (20)
completes, for every destination register; with Rc = 1 the bits of CR fields
1 to 7 are unchanged and in field 0 exactly one of LT, GT, EQ is set, the one
telling the signed comparison against zero of the value written to the
destination register; with Rc = 0 CR is unchanged. -/
theorem C29_record_forms_write_CR0 (s : Simulator) (instr : Instruction)
    (hic : s.flags.check_icache = false) :
    (instr.OpcodeValue = 31 → instr.Bits 9 1 = 28 →
      ∃ s', InstructionDecode s instr = .ok s' ∧
        (instr.Bit 0 = 1 →
          recordedInCR0 s.condition_reg_ s'.condition_reg_ (s'.registers_ instr.RAValue)) ∧
        (instr.Bit 0 = 0 → s'.condition_reg_ = s.condition_reg_)) ∧
    (instr.OpcodeValue = 31 → instr.Bits 9 1 = 40 →
      ∃ s', InstructionDecode s instr = .ok s' ∧
        (instr.Bit 0 = 1 →
          recordedInCR0 s.condition_reg_ s'.condition_reg_ (s'.registers_ instr.RTValue)) ∧
        (instr.Bit 0 = 0 → s'.condition_reg_ = s.condition_reg_)) ∧
    (instr.OpcodeValue = 31 → instr.Bits 9 1 = 202 →
      ∃ s', InstructionDecode s instr = .ok s' ∧
        (instr.Bit 0 = 1 →
          recordedInCR0 s.condition_reg_ s'.condition_reg_ (s'.registers_ instr.RTValue)) ∧
        (instr.Bit 0 = 0 → s'.condition_reg_ = s.condition_reg_)) ∧
    (instr.OpcodeValue = 31 → instr.Bits 10 1 = 824 →
      ∃ s', InstructionDecode s instr = .ok s' ∧
        (instr.Bit 0 = 1 →
          recordedInCR0 s.condition_reg_ s'.condition_reg_ (s'.registers_ instr.RAValue)) ∧
        (instr.Bit 0 = 0 → s'.condition_reg_ = s.condition_reg_)) ∧
    (instr.OpcodeValue = 21 →
      ∃ s', InstructionDecode s instr = .ok s' ∧
        (instr.Bit 0 = 1 →
          recordedInCR0 s.condition_reg_ s'.condition_reg_ (s'.registers_ instr.RAValue)) ∧
        (instr.Bit 0 = 0 → s'.condition_reg_ = s.condition_reg_)) ∧
    (instr.OpcodeValue = 20 →
      ∃ s', InstructionDecode s instr = .ok s' ∧
        (instr.Bit 0 = 1 →
          recordedInCR0 s.condition_reg_ s'.condition_reg_ (s'.registers_ instr.RAValue)) ∧
        (instr.Bit 0 = 0 → s'.condition_reg_ = s.condition_reg_)) := by
  obtain ⟨s0, hs0⟩ : ∃ s0 : Simulator, s0 = { s with pc_modified_ := false } := ⟨_, rfl⟩
  refine ⟨?_, ?_, ?_, ?_, ?_, ?_⟩
  · intro hop hxo
    have hex := DecodeExt2_ANDX s0 instr hxo
    rw [← switch_EXT2 _ _ hop] at hex
    obtain ⟨s', h, hv, _, h1, h0⟩ := InstructionDecode_record_form_slot s s0 instr hic hs0
      instr.RAValue _ _ hex (Or.inl rfl)
    exact ⟨s', h, fun hb => by rw [hv]; exact h1 hb, h0⟩
  · intro hop hxo
    have hex := DecodeExt2_SUBFX s0 instr hxo
    rw [← switch_EXT2 _ _ hop] at hex
    obtain ⟨s', h, hv, _, h1, h0⟩ := InstructionDecode_record_form_slot s s0 instr hic hs0
      instr.RTValue _ _ hex (Or.inr rfl)
    exact ⟨s', h, fun hb => by rw [hv]; exact h1 hb, h0⟩
  · intro hop hxo
    have hex := DecodeExt2_ADDZEX s0 instr hxo
    rw [← switch_EXT2 _ _ hop] at hex
    obtain ⟨s', h, hv, _, h1, h0⟩ := InstructionDecode_record_form_slot s s0 instr hic hs0
      instr.RTValue _ _ hex (Or.inl rfl)
    exact ⟨s', h, fun hb => by rw [hv]; exact h1 hb, h0⟩
  · intro hop hxo
    have hex := DecodeExt2_SRAWIX s0 instr hxo
    rw [← switch_EXT2 _ _ hop] at hex
    obtain ⟨s', h, hv, _, h1, h0⟩ := InstructionDecode_record_form_slot s s0 instr hic hs0
      instr.RAValue _ _ hex (Or.inl rfl)
    exact ⟨s', h, fun hb => by rw [hv]; exact h1 hb, h0⟩
  · intro hop
    have hex := switch_RLWINMX s0 instr hop
    obtain ⟨s', h, hv, _, h1, h0⟩ := InstructionDecode_record_form_slot s s0 instr hic hs0
      instr.RAValue _ _ hex (Or.inl rfl)
    exact ⟨s', h, fun hb => by rw [hv]; exact h1 hb, h0⟩
  · intro hop
    have hex := switch_RLWIMIX s0 instr hop
    obtain ⟨s', h, hv, _, h1, h0⟩ := InstructionDecode_record_form_slot s s0 instr hic hs0
      instr.RAValue _ _ hex (Or.inl rfl)
    exact ⟨s', h, fun hb => by rw [hv]; exact h1 hb, h0⟩

/-- C29 at a concrete input: `rlwinm. r3,r3,16,0,15` with r3 = `0x8000`. -/
theorem C29_witness :
    ∃ s', InstructionDecode exampleRotateState ⟨4096, 1415807007⟩ = .ok s' ∧
      recordedInCR0 exampleRotateState.condition_reg_ s'.condition_reg_ (s'.registers_ 3) := by
  obtain ⟨s', h, h1, _⟩ :=
    (C29_record_forms_write_CR0 exampleRotateState ⟨4096, 1415807007⟩ rfl).2.2.2.2.1
      (by decide)
  exact ⟨s', h, h1 (by decide)⟩

/-! ## Effect of the integer loads and stores (C26) -/

/-- The executors of the integer loads and stores in terms of the accessors
`ReadW`, `ReadB`, `ReadH`, `WriteW`, `WriteB` and `WriteH`. -/
theorem switch_integer_access (s : Simulator) (instr : Instruction) :
    (instr.OpcodeValue = 32 →
      InstructionDecode_switch s instr =
        .ok (set_register s instr.RTValue (ReadW s (effectiveAddress_spec s instr)))) ∧
    (instr.OpcodeValue = 34 →
      InstructionDecode_switch s instr =
        .ok (set_register s instr.RTValue (ReadB s (effectiveAddress_spec s instr) &&& 255))) ∧
    (instr.OpcodeValue = 40 →
      InstructionDecode_switch s instr =
        .ok (set_register s instr.RTValue (ReadH s (effectiveAddress_spec s instr)))) ∧
    (instr.OpcodeValue = 36 →
      InstructionDecode_switch s instr =
        .ok (WriteW s (effectiveAddress_spec s instr) (get_register s instr.RSValue))) ∧
    (instr.OpcodeValue = 38 →
      InstructionDecode_switch s instr =
        .ok (WriteB s (effectiveAddress_spec s instr) (get_register s instr.RSValue))) ∧
    (instr.OpcodeValue = 44 →
      InstructionDecode_switch s instr =
        .ok (WriteH s (effectiveAddress_spec s instr) (get_register s instr.RSValue))) ∧
    (instr.RAValue = 0 →
      effectiveAddress_spec s instr =
        ofInt32 (if instr.Bits 15 0 < 32768 then (instr.Bits 15 0 : Int)
          else (instr.Bits 15 0 : Int) - 65536)) := by
  have he := effectiveAddress_eq_spec s instr
  refine ⟨?_, ?_, ?_, ?_, ?_, ?_, ?_⟩
  · intro h
    rw [switch_LWZ _ _ h, he]
  · intro h
    rw [← he]
    simp [InstructionDecode_switch, h, TWI, MULLI, SUBFIC, CMPLI, CMPI, ADDIC, ADDICx, ADDI,
      ADDIS, BCX, SC, BX, EXT1, RLWIMIX, RLWINMX, RLWNMX, ORI, ORIS, XORI, XORIS, ANDIx,
      ANDISx, EXT2, LWZ, LWZU, LBZ]
  · intro h
    rw [← he]
    simp [InstructionDecode_switch, h, TWI, MULLI, SUBFIC, CMPLI, CMPI, ADDIC, ADDICx, ADDI,
      ADDIS, BCX, SC, BX, EXT1, RLWIMIX, RLWINMX, RLWNMX, ORI, ORIS, XORI, XORIS, ANDIx,
      ANDISx, EXT2, LWZ, LWZU, LBZ, LBZU, STW, STWU, STB, STBU, LHZ]
  · intro h
    rw [switch_STW _ _ h, he]
  · intro h
    rw [← he]
    simp [InstructionDecode_switch, h, TWI, MULLI, SUBFIC, CMPLI, CMPI, ADDIC, ADDICx, ADDI,
      ADDIS, BCX, SC, BX, EXT1, RLWIMIX, RLWINMX, RLWNMX, ORI, ORIS, XORI, XORIS, ANDIx,
      ANDISx, EXT2, LWZ, LWZU, LBZ, LBZU, STW, STWU, STB]
  · intro h
    rw [← he]
    simp [InstructionDecode_switch, h, TWI, MULLI, SUBFIC, CMPLI, CMPI, ADDIC, ADDICx, ADDI,
      ADDIS, BCX, SC, BX, EXT1, RLWIMIX, RLWINMX, RLWNMX, ORI, ORIS, XORI, XORIS, ANDIx,
      ANDISx, EXT2, LWZ, LWZU, LBZ, LBZU, STW, STWU, STB, STBU, LHZ, LHZU, LHA, LHAU, STH]
  · intro h
    unfold effectiveAddress_spec
    simp [h]

/-- C26: the executors of LWZ, LBZ, LHZ, STW, STB and STH complete and access
memory at the effective address of the specification,
`(RA = 0 ? 0 : reg[RA]) + sign-extended D` modulo 2^32.  LWZ writes to rT the
little-endian word made of the four bytes from that address on, LBZ the byte
at it, and LHZ the halfword at it as `ReadH` delivers it (sign-extended);
the loads leave memory as it was.  STW replaces the four bytes from that
address on by the bytes of the value read from rS, STB the byte at it by the
low byte and STH the two bytes by the low halfword; the stores change no
other byte and no register.  With the RA field 0 the address is the
sign-extended D alone. -/
theorem C26_integer_effective_address (s : Simulator) (instr : Instruction) :
    (instr.OpcodeValue = 32 →
      ∃ s', InstructionDecode_switch s instr = .ok s' ∧
        s'.registers_ instr.RTValue =
          s.mem (effectiveAddress_spec s instr % 4294967296) % 256
          + 256 * (s.mem ((effectiveAddress_spec s instr + 1) % 4294967296) % 256)
          + 65536 * (s.mem ((effectiveAddress_spec s instr + 2) % 4294967296) % 256)
          + 16777216 * (s.mem ((effectiveAddress_spec s instr + 3) % 4294967296) % 256) ∧
        s'.mem = s.mem) ∧
    (instr.OpcodeValue = 34 →
      ∃ s', InstructionDecode_switch s instr = .ok s' ∧
        s'.registers_ instr.RTValue =
          s.mem (effectiveAddress_spec s instr % 4294967296) % 256 ∧
        s'.mem = s.mem) ∧
    (instr.OpcodeValue = 40 →
      ∃ s', InstructionDecode_switch s instr = .ok s' ∧
        s'.registers_ instr.RTValue =
          (if s.mem (effectiveAddress_spec s instr % 4294967296) % 256
              + 256 * (s.mem ((effectiveAddress_spec s instr + 1) % 4294967296) % 256) < 32768
            then s.mem (effectiveAddress_spec s instr % 4294967296) % 256
              + 256 * (s.mem ((effectiveAddress_spec s instr + 1) % 4294967296) % 256)
            else s.mem (effectiveAddress_spec s instr % 4294967296) % 256
              + 256 * (s.mem ((effectiveAddress_spec s instr + 1) % 4294967296) % 256)
              + 4294901760) ∧
        s'.mem = s.mem) ∧
    (instr.OpcodeValue = 36 →
      ∃ s', InstructionDecode_switch s instr = .ok s' ∧
        (∀ k, k < 4 → s'.mem ((effectiveAddress_spec s instr + k) % 4294967296) =
          get_register s instr.RSValue / 256 ^ k % 256) ∧
        (∀ a, (∀ k, k < 4 → a ≠ (effectiveAddress_spec s instr + k) % 4294967296) →
          s'.mem a = s.mem a) ∧
        s'.registers_ = s.registers_) ∧
    (instr.OpcodeValue = 38 →
      ∃ s', InstructionDecode_switch s instr = .ok s' ∧
        s'.mem (effectiveAddress_spec s instr % 4294967296) =
          get_register s instr.RSValue % 256 ∧
        (∀ a, a ≠ effectiveAddress_spec s instr % 4294967296 → s'.mem a = s.mem a) ∧
        s'.registers_ = s.registers_) ∧
    (instr.OpcodeValue = 44 →
      ∃ s', InstructionDecode_switch s instr = .ok s' ∧
        (∀ k, k < 2 → s'.mem ((effectiveAddress_spec s instr + k) % 4294967296) =
          get_register s instr.RSValue / 256 ^ k % 256) ∧
        (∀ a, (∀ k, k < 2 → a ≠ (effectiveAddress_spec s instr + k) % 4294967296) →
          s'.mem a = s.mem a) ∧
        s'.registers_ = s.registers_) ∧
    (instr.RAValue = 0 →
      effectiveAddress_spec s instr =
        ofInt32 (if instr.Bits 15 0 < 32768 then (instr.Bits 15 0 : Int)
          else (instr.Bits 15 0 : Int) - 65536)) := by
  obtain ⟨h32, h34, h40, h36, h38, h44, h0⟩ := switch_integer_access s instr
  refine ⟨?_, ?_, ?_, ?_, ?_, ?_, h0⟩
  · intro h
    refine ⟨_, h32 h, ?_, rfl⟩
    simp [set_register, ReadW_eq_mem]
  · intro h
    refine ⟨_, h34 h, ?_, rfl⟩
    simp [set_register, ReadB_and_255]
  · intro h
    refine ⟨_, h40 h, ?_, rfl⟩
    simp only [set_register, Function.update_same, ReadH_eq_mem]
  · intro h
    exact ⟨_, h36 h, fun k hk => WriteW_mem_at s _ _ k hk,
      fun a ha => WriteW_mem_other s _ _ a ha, rfl⟩
  · intro h
    exact ⟨_, h38 h, WriteB_mem_at s _ _, fun a ha => WriteB_mem_other s _ _ a ha, rfl⟩
  · intro h
    exact ⟨_, h44 h, fun k hk => WriteH_mem_at s _ _ k hk,
      fun a ha => WriteH_mem_other s _ _ a ha, rfl⟩

/-! ## Moves from and to LR and CTR (C34) -/

/-- C34, amended: with the I-cache check off, MFSPR (major opcode 31, extended
opcode 339) with SPR field 256 completes and writes the link register to rT
(reading rT back gives it when rT is not the PC slot), and with every other
SPR field, 288 included, stops at `UNIMPLEMENTED()`; MTSPR (extended opcode
467) completes and writes the value read from rS to LR for SPR field 256
(CTR unchanged) and to CTR for SPR field 288 (LR unchanged), and stops at
`UNIMPLEMENTED()` for every other SPR field. -/
theorem C34_spr_moves (s : Simulator) (instr : Instruction)
    (hic : s.flags.check_icache = false) (hop : instr.OpcodeValue = 31) :
    (instr.Bits 9 1 = 339 →
      (instr.Bits 20 11 = 256 →
        ∃ s', InstructionDecode s instr = .ok s' ∧
          s'.registers_ instr.RTValue = s.special_reg_lr_ ∧
          (instr.RTValue ≠ pc → get_register s' instr.RTValue = s.special_reg_lr_)) ∧
      (instr.Bits 20 11 ≠ 256 → InstructionDecode s instr = .error .unimplemented)) ∧
    (instr.Bits 9 1 = 467 →
      (instr.Bits 20 11 = 256 →
        ∃ s', InstructionDecode s instr = .ok s' ∧
          s'.special_reg_lr_ = get_register s instr.RTValue ∧
          s'.special_reg_ctr_ = s.special_reg_ctr_) ∧
      (instr.Bits 20 11 = 288 →
        ∃ s', InstructionDecode s instr = .ok s' ∧
          s'.special_reg_ctr_ = get_register s instr.RTValue ∧
          s'.special_reg_lr_ = s.special_reg_lr_) ∧
      (instr.Bits 20 11 ≠ 256 → instr.Bits 20 11 ≠ 288 →
        InstructionDecode s instr = .error .unimplemented)) := by
  obtain ⟨s0, hs0⟩ : ∃ s0 : Simulator, s0 = { s with pc_modified_ := false } := ⟨_, rfl⟩
  have hexec : InstructionDecode_execute s instr = DecodeExt2 s0 instr := by
    rw [InstructionDecode_execute_no_icache s instr hic, ← hs0, switch_EXT2 _ _ hop]
  constructor
  · intro h9
    rw [DecodeExt2_MFSPR_9 _ _ h9] at hexec
    constructor
    · intro hspr
      rw [if_neg (by rw [hspr]; decide)] at hexec
      have hlr : s0.special_reg_lr_ = s.special_reg_lr_ := by rw [hs0]
      rw [hlr] at hexec
      obtain ⟨s', hd, hslot, hget⟩ := InstructionDecode_write_slot s instr s0 instr.RTValue
        s.special_reg_lr_ (by rw [hs0]) hexec
      exact ⟨s', hd, hslot, fun h => hget h (RTValue_lt instr)⟩
    · intro hspr
      rw [if_pos hspr] at hexec
      exact InstructionDecode_error s instr _ hexec
  · intro h9
    rw [DecodeExt2_MTSPR_9 _ _ h9] at hexec
    refine ⟨?_, ?_, ?_⟩
    · intro hspr
      rw [if_pos hspr] at hexec
      refine ⟨_, InstructionDecode_of_latch_clear s instr _ hexec ?_, ?_, ?_⟩
      · rw [hs0]
      · rw [hs0]; rfl
      · rw [hs0]; rfl
    · intro hspr
      rw [if_neg (by rw [hspr]; decide), if_pos hspr] at hexec
      refine ⟨_, InstructionDecode_of_latch_clear s instr _ hexec ?_, ?_, ?_⟩
      · rw [hs0]
      · rw [hs0]; rfl
      · rw [hs0]; rfl
    · intro h1 h2
      rw [if_neg h1, if_neg h2] at hexec
      exact InstructionDecode_error s instr _ hexec

/-- C34 at a concrete input: `mfctr r3` on the example state. -/
theorem C34_witness :
    InstructionDecode (exampleState []) ⟨4096, 2087256742⟩ = .error .unimplemented :=
  ((C34_spr_moves (exampleState []) ⟨4096, 2087256742⟩ rfl (by decide)).1 (by decide)).2
    (by decide)

end PPCSim
